import Mathlib

/-!
# ContextCoreLite: blueprint export pipeline

A shallow embedding of `BlueprintExporterLite.cpp` and `MetadataGeneratorLite.cpp`.

* Strings (`FString`) are lists of characters, so every string operation of the
  source is a list operation that evaluates by computation.
* The engine objects the pipeline reads (blueprints, graphs, nodes, pins, classes)
  are plain data; a nullable pointer is an `Option`, and a class pointer is either
  `UClass.Null` or a class with the pointer to its superclass.
* Every call of the file writer is recorded in the `Writes` of a `Run`, so that
  what the pipeline hands to the writer can be stated whatever the writer answers.
* The engine constants whose declarations are not part of the repository
  (pin-category names, property-flag and function-flag bits) and the engine
  routines the pipeline calls into (node serialisation, path joining, JSON
  printing) are fields of `Engine`; the stateful capabilities (file writer, clock,
  directory handling) are fields of `Platform`.
* A JSON object is an insertion-ordered association list; setting a field that is
  already there replaces its value in place.
-/

namespace ContextCoreLite

/-! ## Strings and names -/

/-- An engine string, as the list of its characters. -/
abbrev FString := List Char

/-- The `TEXT("...")` literal of the source. -/
def TEXT (s : String) : FString := s.toList

/-- Lower-case image of a string, used by the case-insensitive engine comparisons. -/
def FString.ToLower (s : FString) : FString := s.map Char.toLower

/-- Whether `sub` occurs at the start of `s`. -/
def FString.StartsWith : FString → FString → Bool
  | _, [] => true
  | [], _ :: _ => false
  | c :: s, d :: sub => c == d && FString.StartsWith s sub

/-- Substring search over exact characters. -/
def FString.Find : FString → FString → Bool
  | [], sub => sub.isEmpty
  | c :: s, sub => FString.StartsWith (c :: s) sub || FString.Find s sub

/-- The engine routine `FString::Contains` with its default search mode, which
ignores case. -/
def FString.Contains (s sub : FString) : Bool :=
  FString.Find s.ToLower sub.ToLower

/-- What `ReplaceInline` does to one character: `From` becomes `To`, every other
character stays. -/
def FString.ReplaceChar (From To c : Char) : Char := if c = From then To else c

/-- The engine routine `FString::ReplaceInline` for a one-character search text
and a one-character replacement, which is how every call in the source uses
it: each occurrence of `From` becomes `To`. -/
def FString.ReplaceInline (s : FString) (From To : Char) : FString :=
  s.map (FString.ReplaceChar From To)

/-- The engine routine `FString::RemoveFromStart` for a one-character text. -/
def FString.RemoveFromStart (s : FString) (c : Char) : FString :=
  match s with
  | d :: rest => if d = c then rest else s
  | [] => s

/-- Decimal rendering of a node count, the `%d` of `Logf`. -/
def FString.FromInt (n : Nat) : FString := Nat.toDigits 10 n

/-- An engine name: it keeps the spelling it was created with and compares
without regard to case. -/
structure FName where
  Str : FString

/-- `FName::ToString`. -/
def FName.ToString (n : FName) : FString := n.Str

/-- `FName::operator==`, which ignores case. -/
def FName.Eq (a b : FName) : Bool := a.Str.ToLower == b.Str.ToLower

/-- The distinguished empty name `NAME_None`. -/
def NAME_None : FName := ⟨TEXT "None"⟩

/-- `FName::IsNone`. -/
def FName.IsNone (n : FName) : Bool := n.Eq NAME_None

/-! ## Engine object model (read-only inputs) -/

/-- Container kind of a pin type (`EPinContainerType`). -/
inductive EPinContainerType where
  | None
  | Array
  | Set
  | Map
  deriving DecidableEq, Repr

/-- Type descriptor of a pin (`FEdGraphPinType`): `PinSubCategoryObject` is the
simple name of the referenced class or object when that weak reference is
valid. -/
structure FEdGraphPinType where
  PinCategory : FName
  PinSubCategoryObject : Option FString
  ContainerType : EPinContainerType
  bIsReference : Bool

/-- `FEdGraphPinType::IsArray`. -/
def FEdGraphPinType.IsArray (t : FEdGraphPinType) : Bool :=
  t.ContainerType = EPinContainerType.Array

/-- Direction of a pin (`EEdGraphPinDirection`). -/
inductive EEdGraphPinDirection where
  | EGPD_Input
  | EGPD_Output
  deriving DecidableEq, Repr

/-- A pin of a node (`UEdGraphPin`). -/
structure UEdGraphPin where
  PinName : FName
  Direction : EEdGraphPinDirection
  PinType : FEdGraphPinType

/-- A graph with nodes of type `N` (`UEdGraph`): its object name, the name of its
runtime class and its nodes in order. -/
structure UEdGraphOf (N : Type) where
  Name : FString
  ClassName : FString
  Nodes : List N

/-- A graph node (`UEdGraphNode`), tagged by the one capability the pipeline
tests with `Cast`: event node (with its full title), function-entry node (with
its function flags and pins), function-result node (with its pins),
state-machine node (with its list-view title and its nullable sub-graph), or
anything else. -/
inductive UEdGraphNode where
  | Generic (Description : FString)
  | K2Node_Event (FullTitle : FString)
  | K2Node_FunctionEntry (FunctionFlags : Nat) (Pins : List UEdGraphPin)
  | K2Node_FunctionResult (Pins : List UEdGraphPin)
  | AnimGraphNode_StateMachine (ListViewTitle : FString)
      (EditorStateMachineGraph : Option (UEdGraphOf UEdGraphNode))

/-- A graph of nodes (`UEdGraph`). -/
abbrev UEdGraph := UEdGraphOf UEdGraphNode

/-- The actor settings the pipeline reads from a default object (`AActor`). -/
structure AActor where
  bReplicates : Bool
  bAlwaysRelevant : Bool
  bNetLoadOnClient : Bool

/-- `AActor::GetIsReplicated`. -/
def AActor.GetIsReplicated (a : AActor) : Bool := a.bReplicates

/-- A default object (`UObject`); `Actor` is the result of `Cast<AActor>`. -/
structure UObject where
  Actor : Option AActor

/-- A nullable pointer to a class (`UClass*`): either null, or a class with its
simple name, whether it was generated by a blueprint (`ClassGeneratedBy` is
non-null), its nullable default object and the pointer to its superclass. -/
inductive UClass where
  | Null
  | Class (Name : FString) (ClassGeneratedBy : Bool) (DefaultObject : Option UObject)
      (SuperClass : UClass)

/-- Whether the class pointer is non-null. -/
def UClass.IsValid : UClass → Bool
  | .Null => false
  | .Class _ _ _ _ => true

/-- `UClass::GetName`. -/
def UClass.GetName : UClass → FString
  | .Null => []
  | .Class n _ _ _ => n

/-- `UClass::GetDefaultObject`. -/
def UClass.GetDefaultObject : UClass → Option UObject
  | .Null => none
  | .Class _ _ d _ => d

/-- A variable declaration (`FBPVariableDescription`); `Tooltip` is the tooltip
metadata entry when the variable has one. -/
structure FBPVariableDescription where
  VarName : FName
  VarType : FEdGraphPinType
  Category : FString
  PropertyFlags : Nat
  DefaultValue : FString
  Tooltip : Option FString

/-- A node of the component hierarchy (`USCS_Node`); `ComponentTemplate` is the
class name of the template when the node has one. -/
structure USCS_Node where
  VariableName : FName
  ComponentTemplate : Option FString
  ParentComponentOrVariableName : FName

/-- An implemented interface (`FBPInterfaceDescription`): the name of the
interface class when the reference is non-null. -/
structure FBPInterfaceDescription where
  Interface : Option FString

/-- Blueprint kind (`EBlueprintType`). -/
inductive EBlueprintType where
  | BPTYPE_Normal
  | BPTYPE_Const
  | BPTYPE_MacroLibrary
  | BPTYPE_Interface
  | BPTYPE_LevelScript
  | BPTYPE_FunctionLibrary
  deriving DecidableEq, Repr

/-- The part of a blueprint that only an animation blueprint has
(`UAnimBlueprint`): the name of the target skeleton when it is set. -/
structure UAnimBlueprint where
  TargetSkeleton : Option FString

/-- A blueprint (`UBlueprint`). `PackageName` is the name of its outermost
package; `AnimBlueprint` is the result of `Cast<UAnimBlueprint>`;
`SimpleConstructionScript` holds the nullable entries of `GetAllNodes` when the
construction script exists. The graph arrays hold the graphs themselves: the
source dereferences their elements without a test. -/
structure UBlueprint where
  Name : FString
  PackageName : FString
  BlueprintType : EBlueprintType
  AnimBlueprint : Option UAnimBlueprint
  ParentClass : UClass
  GeneratedClass : UClass
  ImplementedInterfaces : List FBPInterfaceDescription
  NewVariables : List FBPVariableDescription
  SimpleConstructionScript : Option (List (Option USCS_Node))
  UbergraphPages : List UEdGraph
  FunctionGraphs : List UEdGraph
  MacroGraphs : List UEdGraph
  DelegateSignatureGraphs : List UEdGraph

/-! ## Engine constants and routines -/

/-- JSON values (`FJsonValue`): strings, booleans, arrays and objects. -/
inductive FJsonValue where
  | String (s : FString)
  | Boolean (b : Bool)
  | Array (a : List FJsonValue)
  | Object (fields : List (FString × FJsonValue))

instance : Inhabited FJsonValue := ⟨FJsonValue.Boolean false⟩

/-- A JSON object (`FJsonObject`): its fields in insertion order. -/
abbrev FJsonObject := List (FString × FJsonValue)

/-- What the pipeline takes from the engine without defining it: the
pin-category names of the K2 schema, the positions of the property-flag and
function-flag bits it tests, the per-node text serialisation, the path-joining
operator, the project directory and the pretty JSON printer. -/
structure Engine where
  PC_Exec : FName
  PC_Object : FName
  PC_Class : FName
  CPF_Net_Bit : Nat
  CPF_RepNotify_Bit : Nat
  CPF_Edit_Bit : Nat
  CPF_BlueprintReadOnly_Bit : Nat
  CPF_ExposeOnSpawn_Bit : Nat
  CPF_DisableEditOnInstance_Bit : Nat
  FUNC_Protected_Bit : Nat
  FUNC_Private_Bit : Nat
  FUNC_BlueprintPure_Bit : Nat
  FUNC_Const_Bit : Nat
  ExportToOutputDevice : UEdGraphNode → FString
  PathAppend : FString → FString → FString
  ProjectDir : FString
  Serialize : FJsonObject → FString

/-- Mask of the networking property flag. -/
def Engine.CPF_Net (E : Engine) : Nat := 2 ^ E.CPF_Net_Bit
/-- Mask of the replication-notify property flag. -/
def Engine.CPF_RepNotify (E : Engine) : Nat := 2 ^ E.CPF_RepNotify_Bit
/-- Mask of the edit property flag. -/
def Engine.CPF_Edit (E : Engine) : Nat := 2 ^ E.CPF_Edit_Bit
/-- Mask of the blueprint-read-only property flag. -/
def Engine.CPF_BlueprintReadOnly (E : Engine) : Nat := 2 ^ E.CPF_BlueprintReadOnly_Bit
/-- Mask of the expose-on-spawn property flag. -/
def Engine.CPF_ExposeOnSpawn (E : Engine) : Nat := 2 ^ E.CPF_ExposeOnSpawn_Bit
/-- Mask of the disable-edit-on-instance property flag. -/
def Engine.CPF_DisableEditOnInstance (E : Engine) : Nat := 2 ^ E.CPF_DisableEditOnInstance_Bit
/-- Mask of the protected function flag. -/
def Engine.FUNC_Protected (E : Engine) : Nat := 2 ^ E.FUNC_Protected_Bit
/-- Mask of the private function flag. -/
def Engine.FUNC_Private (E : Engine) : Nat := 2 ^ E.FUNC_Private_Bit
/-- Mask of the pure function flag. -/
def Engine.FUNC_BlueprintPure (E : Engine) : Nat := 2 ^ E.FUNC_BlueprintPure_Bit
/-- Mask of the const function flag. -/
def Engine.FUNC_Const (E : Engine) : Nat := 2 ^ E.FUNC_Const_Bit

/-- The stateful capabilities of the host over a state `σ`: the file writer
(content, path), the wall clock already formatted as a time stamp, and the
directory test and creation. -/
structure Platform (σ : Type) where
  SaveStringToFile : FString → FString → σ → Bool × σ
  Now : σ → FString × σ
  DirectoryExists : FString → σ → Bool
  CreateDirectoryTree : FString → σ → σ

/-! ## JSON objects -/

/-- `FJsonObject::SetField`: replace the value of an existing key in place, or
add the field at the end. Keys are compared exactly here, whereas the field map
of the engine compares its string keys without regard to case. The two agree
whenever no two keys written to one object differ only in case: that holds for
the fixed field names of the source, which are pairwise different also up to
case, and for the graphs index it is the hypothesis `UBlueprint.GraphNamesUnique`,
under which `FJsonObject.SetFieldIgnoreCase` builds the same object. -/
def FJsonObject.SetField : FJsonObject → FString → FJsonValue → FJsonObject
  | [], k, v => [(k, v)]
  | (k0, v0) :: rest, k, v =>
    if k0 = k then (k0, v) :: rest else (k0, v0) :: FJsonObject.SetField rest k v

/-- `FJsonObject::SetStringField`. -/
def FJsonObject.SetStringField (o : FJsonObject) (k s : FString) : FJsonObject :=
  FJsonObject.SetField o k (FJsonValue.String s)

/-- `FJsonObject::SetBoolField`. -/
def FJsonObject.SetBoolField (o : FJsonObject) (k : FString) (b : Bool) : FJsonObject :=
  FJsonObject.SetField o k (FJsonValue.Boolean b)

/-- `FJsonObject::SetArrayField`. -/
def FJsonObject.SetArrayField (o : FJsonObject) (k : FString) (a : List FJsonValue) :
    FJsonObject :=
  FJsonObject.SetField o k (FJsonValue.Array a)

/-- `FJsonObject::SetObjectField`. -/
def FJsonObject.SetObjectField (o : FJsonObject) (k : FString) (f : FJsonObject) :
    FJsonObject :=
  FJsonObject.SetField o k (FJsonValue.Object f)

/-- `FJsonObject::TryGetField`: the value stored under a key, if any, with the
keys compared exactly (see `FJsonObject.SetField`). -/
def FJsonObject.TryGetField : FJsonObject → FString → Option FJsonValue
  | [], _ => none
  | (k0, v0) :: rest, k => if k0 = k then some v0 else FJsonObject.TryGetField rest k

/-- `FJsonObject::HasField`. -/
def FJsonObject.HasField (o : FJsonObject) (k : FString) : Bool :=
  (FJsonObject.TryGetField o k).isSome

/-- The field names of an object, in order. -/
def FJsonObject.Keys (o : FJsonObject) : List FString := o.map Prod.fst

/-! ## MetadataGeneratorLite: type-name rendering -/

/-- The token of `PinTypeToString` after the class-name and pointer-marker
steps (source lines 359 to 368). -/
def PinTypeToString.Inner (E : Engine) (PinType : FEdGraphPinType) : FString :=
  let TypeName := PinType.PinCategory.ToString
  let TypeName :=
    match PinType.PinSubCategoryObject with
    | some ObjectName => ObjectName
    | none => TypeName
  let TypeName :=
    if PinType.PinCategory.Eq E.PC_Object || PinType.PinCategory.Eq E.PC_Class then
      TypeName ++ TEXT "*"
    else TypeName
  TypeName

/-- `FMetadataGeneratorLite::PinTypeToString`. -/
def PinTypeToString (E : Engine) (PinType : FEdGraphPinType) : FString :=
  let TypeName := PinType.PinCategory.ToString
  let TypeName :=
    match PinType.PinSubCategoryObject with
    | some ObjectName => ObjectName
    | none => TypeName
  let TypeName :=
    if PinType.PinCategory.Eq E.PC_Object || PinType.PinCategory.Eq E.PC_Class then
      TypeName ++ TEXT "*"
    else TypeName
  let TypeName :=
    if PinType.IsArray then TEXT "TArray<" ++ TypeName ++ TEXT ">" else TypeName
  let TypeName :=
    if PinType.bIsReference then TypeName ++ TEXT "&" else TypeName
  TypeName

/-! ## BlueprintExporterLite: file names -/

/-- `FBlueprintExporterLite::SanitizeFileName`: nine replacements in the order
of the source; character 92 is the backslash and character 34 the double
quote. -/
def SanitizeFileName (Name : FString) : FString :=
  let SafeName := Name
  let SafeName := SafeName.ReplaceInline '/' '_'
  let SafeName := SafeName.ReplaceInline (Char.ofNat 92) '_'
  let SafeName := SafeName.ReplaceInline ':' '_'
  let SafeName := SafeName.ReplaceInline '*' '_'
  let SafeName := SafeName.ReplaceInline '?' '_'
  let SafeName := SafeName.ReplaceInline (Char.ofNat 34) '_'
  let SafeName := SafeName.ReplaceInline '<' '_'
  let SafeName := SafeName.ReplaceInline '>' '_'
  let SafeName := SafeName.ReplaceInline '|' '_'
  SafeName

/-! ## MetadataGeneratorLite: the metadata document -/

/-- The pin filter shared by the signature scans (source lines 222, 239, 283):
the pin has the wanted direction, its category is not `None` and is not the
exec category. -/
def IsSignaturePin (E : Engine) (Direction : EEdGraphPinDirection) (Pin : UEdGraphPin) :
    Bool :=
  decide (Pin.Direction = Direction) && !Pin.PinType.PinCategory.IsNone &&
    !Pin.PinType.PinCategory.Eq E.PC_Exec

/-- One pass of the pin loops of the signature scans: every pin that passes the
filter adds an object with its name and rendered type. -/
def PinsJson (E : Engine) (Direction : EEdGraphPinDirection) (Pins : List UEdGraphPin) :
    List FJsonValue :=
  Pins.foldl
    (fun Array Pin =>
      if IsSignaturePin E Direction Pin then
        let PinObj : FJsonObject := []
        let PinObj := PinObj.SetStringField (TEXT "name") Pin.PinName.ToString
        let PinObj := PinObj.SetStringField (TEXT "type") (PinTypeToString E Pin.PinType)
        Array ++ [FJsonValue.Object PinObj]
      else Array)
    []

/-- The body of the variable loop of `GenerateVariablesJson` (source lines 137
to 161): the JSON object of one variable declaration. -/
def GenerateVariablesJson.VarObj (E : Engine) (Var : FBPVariableDescription) : FJsonObject :=
  let VarObj : FJsonObject := []
  let VarObj := VarObj.SetStringField (TEXT "name") Var.VarName.ToString
  let VarObj := VarObj.SetStringField (TEXT "type") (PinTypeToString E Var.VarType)
  let VarObj := VarObj.SetStringField (TEXT "category") Var.Category
  let VarObj :=
    if Var.PropertyFlags &&& E.CPF_Net != 0 then VarObj.SetBoolField (TEXT "replicated") true
    else VarObj
  let VarObj :=
    if Var.PropertyFlags &&& E.CPF_RepNotify != 0 then
      VarObj.SetBoolField (TEXT "rep_notify") true
    else VarObj
  let VarObj :=
    VarObj.SetBoolField (TEXT "instance_editable") (Var.PropertyFlags &&& E.CPF_Edit != 0)
  let VarObj :=
    VarObj.SetBoolField (TEXT "blueprint_read_only")
      (Var.PropertyFlags &&& E.CPF_BlueprintReadOnly != 0)
  let VarObj :=
    VarObj.SetBoolField (TEXT "expose_on_spawn") (Var.PropertyFlags &&& E.CPF_ExposeOnSpawn != 0)
  let VarObj :=
    VarObj.SetBoolField (TEXT "private")
      (Var.PropertyFlags &&& E.CPF_DisableEditOnInstance != 0)
  let VarObj :=
    if !Var.DefaultValue.isEmpty then VarObj.SetStringField (TEXT "default") Var.DefaultValue
    else VarObj
  let VarObj :=
    match Var.Tooltip with
    | some Tooltip => VarObj.SetStringField (TEXT "tooltip") Tooltip
    | none => VarObj
  VarObj

/-- `FMetadataGeneratorLite::GenerateVariablesJson`. The returned pointer is
always valid. -/
def GenerateVariablesJson (E : Engine) (Blueprint : UBlueprint) : Option FJsonObject :=
  let VarsObject : FJsonObject := []
  let VarsArray : List FJsonValue :=
    Blueprint.NewVariables.foldl
      (fun VarsArray Var => VarsArray ++ [FJsonValue.Object (GenerateVariablesJson.VarObj E Var)])
      []
  let VarsObject := VarsObject.SetArrayField (TEXT "list") VarsArray
  some VarsObject

/-- `FMetadataGeneratorLite::GenerateComponentsJson`. The returned pointer is
always valid. -/
def GenerateComponentsJson (Blueprint : UBlueprint) : Option FJsonObject :=
  let ComponentsObject : FJsonObject := []
  let ComponentsArray : List FJsonValue :=
    match Blueprint.SimpleConstructionScript with
    | some AllNodes =>
      AllNodes.foldl
        (fun ComponentsArray Node =>
          match Node with
          | some Node =>
            match Node.ComponentTemplate with
            | some TemplateClassName =>
              let CompObj : FJsonObject := []
              let CompObj := CompObj.SetStringField (TEXT "name") Node.VariableName.ToString
              let CompObj := CompObj.SetStringField (TEXT "type") TemplateClassName
              let CompObj :=
                if !Node.ParentComponentOrVariableName.Eq NAME_None then
                  CompObj.SetStringField (TEXT "parent")
                    Node.ParentComponentOrVariableName.ToString
                else CompObj.SetStringField (TEXT "parent") (TEXT "root")
              ComponentsArray ++ [FJsonValue.Object CompObj]
            | none => ComponentsArray
          | none => ComponentsArray)
        []
    | none => []
  let ComponentsObject := ComponentsObject.SetArrayField (TEXT "list") ComponentsArray
  some ComponentsObject

/-- The first node scan of `GenerateFunctionsJson` (source lines 208 to 233):
the first function-entry node sets `access`, `pure`, `const` and `inputs` and
ends the scan; other nodes are passed over. -/
def GenerateFunctionsJson.ScanEntry (E : Engine) (FuncObj : FJsonObject) :
    List UEdGraphNode → FJsonObject
  | [] => FuncObj
  | UEdGraphNode.K2Node_FunctionEntry FunctionFlags Pins :: _ =>
    let Access := TEXT "Public"
    let Access :=
      if FunctionFlags &&& E.FUNC_Protected != 0 then TEXT "Protected"
      else if FunctionFlags &&& E.FUNC_Private != 0 then TEXT "Private"
      else Access
    let FuncObj := FuncObj.SetStringField (TEXT "access") Access
    let FuncObj := FuncObj.SetBoolField (TEXT "pure") (FunctionFlags &&& E.FUNC_BlueprintPure != 0)
    let FuncObj := FuncObj.SetBoolField (TEXT "const") (FunctionFlags &&& E.FUNC_Const != 0)
    let Inputs := PinsJson E EEdGraphPinDirection.EGPD_Output Pins
    FuncObj.SetArrayField (TEXT "inputs") Inputs
  | _ :: Nodes => GenerateFunctionsJson.ScanEntry E FuncObj Nodes

/-- The second node scan of `GenerateFunctionsJson` (source lines 235 to 249):
the pins of the first function-result node, or nothing. -/
def GenerateFunctionsJson.ScanResult (E : Engine) : List UEdGraphNode → List FJsonValue
  | [] => []
  | UEdGraphNode.K2Node_FunctionResult Pins :: _ =>
    PinsJson E EEdGraphPinDirection.EGPD_Input Pins
  | _ :: Nodes => GenerateFunctionsJson.ScanResult E Nodes

/-- The body of the graph loop of `GenerateFunctionsJson` (source lines 203 to
250): the JSON object of one function graph. -/
def GenerateFunctionsJson.FuncObj (E : Engine) (Graph : UEdGraph) : FJsonObject :=
  let FuncObj : FJsonObject := []
  let FuncObj := FuncObj.SetStringField (TEXT "name") Graph.Name
  let FuncObj :=
    FuncObj.SetStringField (TEXT "file") (TEXT "Function_" ++ Graph.Name ++ TEXT ".txt")
  let FuncObj := GenerateFunctionsJson.ScanEntry E FuncObj Graph.Nodes
  let Outputs := GenerateFunctionsJson.ScanResult E Graph.Nodes
  let FuncObj := FuncObj.SetArrayField (TEXT "outputs") Outputs
  FuncObj

/-- `FMetadataGeneratorLite::GenerateFunctionsJson`. -/
def GenerateFunctionsJson (E : Engine) (Blueprint : UBlueprint) : List FJsonValue :=
  Blueprint.FunctionGraphs.foldl
    (fun FunctionsArray Graph =>
      FunctionsArray ++ [FJsonValue.Object (GenerateFunctionsJson.FuncObj E Graph)])
    []

/-- `FMetadataGeneratorLite::GenerateInterfacesJson`. -/
def GenerateInterfacesJson (Blueprint : UBlueprint) : List FJsonValue :=
  Blueprint.ImplementedInterfaces.foldl
    (fun InterfacesArray Interface =>
      match Interface.Interface with
      | some InterfaceName =>
        let InterfaceObj : FJsonObject := []
        let InterfaceObj := InterfaceObj.SetStringField (TEXT "name") InterfaceName
        InterfacesArray ++ [FJsonValue.Object InterfaceObj]
      | none => InterfacesArray)
    []

/-- The node scan of `GenerateEventDispatchersJson` (source lines 280 to 293):
the pins of the first function-entry node, or nothing. -/
def GenerateEventDispatchersJson.ScanEntry (E : Engine) : List UEdGraphNode → List FJsonValue
  | [] => []
  | UEdGraphNode.K2Node_FunctionEntry _ Pins :: _ =>
    PinsJson E EEdGraphPinDirection.EGPD_Output Pins
  | _ :: Nodes => GenerateEventDispatchersJson.ScanEntry E Nodes

/-- `FMetadataGeneratorLite::GenerateEventDispatchersJson`. -/
def GenerateEventDispatchersJson (E : Engine) (Blueprint : UBlueprint) : List FJsonValue :=
  Blueprint.DelegateSignatureGraphs.foldl
    (fun DispatchersArray Graph =>
      let DispObj : FJsonObject := []
      let DispObj := DispObj.SetStringField (TEXT "name") Graph.Name
      let Params := GenerateEventDispatchersJson.ScanEntry E Graph.Nodes
      let DispObj := DispObj.SetArrayField (TEXT "params") Params
      DispatchersArray ++ [FJsonValue.Object DispObj])
    []

/-- `FMetadataGeneratorLite::GenerateClassSettingsJson`. Every return statement
of the source returns the object made at entry, so the pointer is always
valid. -/
def GenerateClassSettingsJson (Blueprint : UBlueprint) : Option FJsonObject :=
  let SettingsObj : FJsonObject := []
  match Blueprint.GeneratedClass with
  | UClass.Null => some SettingsObj
  | UClass.Class _ _ DefaultObject _ =>
    match DefaultObject with
    | none => some SettingsObj
    | some CDO =>
      match CDO.Actor with
      | some ActorCDO =>
        let SettingsObj := SettingsObj.SetBoolField (TEXT "replicates") ActorCDO.GetIsReplicated
        let SettingsObj :=
          SettingsObj.SetBoolField (TEXT "always_relevant") ActorCDO.bAlwaysRelevant
        let SettingsObj :=
          SettingsObj.SetBoolField (TEXT "net_load_on_client") ActorCDO.bNetLoadOnClient
        some SettingsObj
      | none => some SettingsObj

/-- The sanitised title of a state machine as `GenerateAnimBlueprintMetadata`
computes it inline (source lines 342 to 345); character 92 is the backslash. -/
def GenerateAnimBlueprintMetadata.SanitizedName (SMName : FString) : FString :=
  let SanitizedName := SMName
  let SanitizedName := SanitizedName.ReplaceInline '/' '_'
  let SanitizedName := SanitizedName.ReplaceInline (Char.ofNat 92) '_'
  let SanitizedName := SanitizedName.ReplaceInline ':' '_'
  SanitizedName

/-- The two nested loops of `GenerateAnimBlueprintMetadata` (source lines 334 to
354): one entry per state-machine node of every function graph whose name
contains `AnimGraph`. -/
def GenerateAnimBlueprintMetadata.StateMachinesArray (FunctionGraphs : List UEdGraph) :
    List FJsonValue :=
  FunctionGraphs.foldl
    (fun StateMachinesArray Graph =>
      if FString.Contains Graph.Name (TEXT "AnimGraph") then
        Graph.Nodes.foldl
          (fun StateMachinesArray Node =>
            match Node with
            | UEdGraphNode.AnimGraphNode_StateMachine SMName _ =>
              let SMObj : FJsonObject := []
              let SanitizedName := GenerateAnimBlueprintMetadata.SanitizedName SMName
              let SMObj := SMObj.SetStringField (TEXT "name") SMName
              let SMObj :=
                SMObj.SetStringField (TEXT "file")
                  (TEXT "StateMachine_" ++ SanitizedName ++ TEXT ".txt")
              StateMachinesArray ++ [FJsonValue.Object SMObj]
            | _ => StateMachinesArray)
          StateMachinesArray
      else StateMachinesArray)
    []

/-- `FMetadataGeneratorLite::GenerateAnimBlueprintMetadata`: `Blueprint` is the
blueprint itself and `AnimBlueprint` the nullable result of casting it. -/
def GenerateAnimBlueprintMetadata (Blueprint : UBlueprint) (AnimBlueprint : Option UAnimBlueprint)
    (RootObject : FJsonObject) : FJsonObject :=
  match AnimBlueprint with
  | none => RootObject
  | some AnimBlueprint =>
    let RootObject :=
      match AnimBlueprint.TargetSkeleton with
      | some SkeletonName => RootObject.SetStringField (TEXT "skeleton") SkeletonName
      | none => RootObject
    let StateMachinesArray :=
      GenerateAnimBlueprintMetadata.StateMachinesArray Blueprint.FunctionGraphs
    RootObject.SetArrayField (TEXT "state_machines") StateMachinesArray

/-- The class-chain loop of `GenerateMetadataForBlueprint` (source lines 51 to
58), from the current class upwards. -/
def GenerateMetadataForBlueprint.CppChain : UClass → List FJsonValue → List FJsonValue
  | UClass.Null, CppChainArray => CppChainArray
  | UClass.Class Name ClassGeneratedBy _ SuperClass, CppChainArray =>
    let CppChainArray :=
      if !ClassGeneratedBy then
        let ClassObj : FJsonObject := []
        let ClassObj := ClassObj.SetStringField (TEXT "name") Name
        CppChainArray ++ [FJsonValue.Object ClassObj]
      else CppChainArray
    GenerateMetadataForBlueprint.CppChain SuperClass CppChainArray

/-- The events loop of `GenerateMetadataForBlueprint` (source lines 93 to 101). -/
def GenerateMetadataForBlueprint.Events (UbergraphPages : List UEdGraph) : List FJsonValue :=
  UbergraphPages.foldl
    (fun Events Graph =>
      Graph.Nodes.foldl
        (fun Events Node =>
          match Node with
          | UEdGraphNode.K2Node_Event FullTitle => Events ++ [FJsonValue.String FullTitle]
          | _ => Events)
        Events)
    []

/-- The graphs index of `GenerateMetadataForBlueprint` (source lines 105 to
111). -/
def GenerateMetadataForBlueprint.Graphs (Blueprint : UBlueprint) : FJsonObject :=
  let Graphs : FJsonObject := []
  let Graphs :=
    Blueprint.UbergraphPages.foldl
      (fun Graphs Graph => Graphs.SetStringField Graph.Name (Graph.Name ++ TEXT ".txt"))
      Graphs
  let Graphs :=
    Blueprint.FunctionGraphs.foldl
      (fun Graphs Graph =>
        Graphs.SetStringField Graph.Name (TEXT "Function_" ++ Graph.Name ++ TEXT ".txt"))
      Graphs
  Graphs

/-- The metadata document that `GenerateMetadataForBlueprint` builds for a
non-null blueprint (source lines 27 to 117), before it is printed and
written. -/
def GenerateMetadataForBlueprint.RootObject (E : Engine) (Blueprint : UBlueprint) :
    FJsonObject :=
  let RootObject : FJsonObject := []
  let RootObject := RootObject.SetStringField (TEXT "name") Blueprint.Name
  let RootObject := RootObject.SetStringField (TEXT "path") Blueprint.PackageName
  let BlueprintType := TEXT "Blueprint"
  let BlueprintType :=
    if Blueprint.BlueprintType = EBlueprintType.BPTYPE_Interface then TEXT "BlueprintInterface"
    else if Blueprint.AnimBlueprint.isSome then TEXT "AnimBlueprint"
    else BlueprintType
  let RootObject := RootObject.SetStringField (TEXT "type") BlueprintType
  let RootObject :=
    if Blueprint.ParentClass.IsValid then
      RootObject.SetStringField (TEXT "parent") Blueprint.ParentClass.GetName
    else RootObject
  let CppChainArray : List FJsonValue :=
    if Blueprint.ParentClass.IsValid then
      GenerateMetadataForBlueprint.CppChain Blueprint.ParentClass []
    else []
  let RootObject := RootObject.SetArrayField (TEXT "cpp_chain") CppChainArray
  let RootObject :=
    match GenerateClassSettingsJson Blueprint with
    | some ClassSettings => RootObject.SetObjectField (TEXT "class_settings") ClassSettings
    | none => RootObject
  let RootObject := RootObject.SetArrayField (TEXT "interfaces") (GenerateInterfacesJson Blueprint)
  let RootObject :=
    match GenerateVariablesJson E Blueprint with
    | some Variables => RootObject.SetField (TEXT "variables") (FJsonValue.Object Variables)
    | none => RootObject
  let RootObject :=
    match GenerateComponentsJson Blueprint with
    | some Components => RootObject.SetField (TEXT "components") (FJsonValue.Object Components)
    | none => RootObject
  let RootObject := RootObject.SetArrayField (TEXT "functions") (GenerateFunctionsJson E Blueprint)
  let RootObject :=
    RootObject.SetArrayField (TEXT "event_dispatchers") (GenerateEventDispatchersJson E Blueprint)
  let RootObject :=
    RootObject.SetArrayField (TEXT "events")
      (GenerateMetadataForBlueprint.Events Blueprint.UbergraphPages)
  let RootObject :=
    RootObject.SetObjectField (TEXT "graphs") (GenerateMetadataForBlueprint.Graphs Blueprint)
  let RootObject :=
    match Blueprint.AnimBlueprint with
    | some AnimBlueprint => GenerateAnimBlueprintMetadata Blueprint (some AnimBlueprint) RootObject
    | none => RootObject
  RootObject

/-! ## Running against the host: the file writer and its trace -/

/-- One call of the file writer: the path and the content it was given. -/
structure FileWrite where
  Path : FString
  Content : FString

/-- The state of a run: the state of the host and the calls of the file writer
made so far, oldest first. -/
structure Run (σ : Type) where
  State : σ
  Writes : List FileWrite

/-- `FFileHelper::SaveStringToFile`: hands content and path to the writer of the
host, returns its verdict and records the call. -/
def SaveStringToFile {σ : Type} (P : Platform σ) (Content Path : FString) (R : Run σ) :
    Bool × Run σ :=
  let Result := P.SaveStringToFile Content Path R.State
  (Result.1, { State := Result.2, Writes := R.Writes ++ [{ Path := Path, Content := Content }] })

/-- `FStringOutputDevice::Logf`: appends the formatted text to the archive. -/
def Logf (Archive Text : FString) : FString := Archive ++ Text

/-- The text that `ExportGraph` accumulates in its archive for a non-null graph
(source lines 136 to 150), given the time stamp read from the clock. -/
def ExportGraph.Archive (E : Engine) (Graph : UEdGraph) (Timestamp : FString) : FString :=
  let Archive : FString := []
  let Archive := Logf Archive (TEXT "// Graph: " ++ Graph.Name ++ TEXT "\n")
  let Archive := Logf Archive (TEXT "// Type: " ++ Graph.ClassName ++ TEXT "\n")
  let Archive :=
    Logf Archive (TEXT "// Node Count: " ++ FString.FromInt Graph.Nodes.length ++ TEXT "\n")
  let Archive := Logf Archive (TEXT "// Exported: " ++ Timestamp ++ TEXT "\n")
  let Archive := Logf Archive (TEXT "\n")
  let Archive :=
    Graph.Nodes.foldl (fun Archive Node => Archive ++ E.ExportToOutputDevice Node) Archive
  Archive

/-- `FBlueprintExporterLite::ExportGraph`. -/
def ExportGraph {σ : Type} (E : Engine) (P : Platform σ) (Graph : Option UEdGraph)
    (OutputDir FileName : FString) (R : Run σ) : Bool × Run σ :=
  match Graph with
  | none => (false, R)
  | some Graph =>
    let Clock := P.Now R.State
    let Archive := ExportGraph.Archive E Graph Clock.1
    let OutputPath := E.PathAppend OutputDir FileName
    SaveStringToFile P Archive OutputPath { R with State := Clock.2 }

/-- `FMetadataGeneratorLite::GenerateMetadataForBlueprint`. -/
def GenerateMetadataForBlueprint {σ : Type} (E : Engine) (P : Platform σ)
    (Blueprint : Option UBlueprint) (OutputDir : FString) (R : Run σ) : Bool × Run σ :=
  match Blueprint with
  | none => (false, R)
  | some Blueprint =>
    let RootObject := GenerateMetadataForBlueprint.RootObject E Blueprint
    let OutputString := E.Serialize RootObject
    let MetaPath := E.PathAppend OutputDir (TEXT "_meta.json")
    SaveStringToFile P OutputString MetaPath R

/-- `FBlueprintExporterLite::GenerateMetadata`. -/
def GenerateMetadata {σ : Type} (E : Engine) (P : Platform σ) (Blueprint : Option UBlueprint)
    (OutputDir : FString) (R : Run σ) : Bool × Run σ :=
  GenerateMetadataForBlueprint E P Blueprint OutputDir R

/-- `FBlueprintExporterLite::GetOutputDirectory`. -/
def GetOutputDirectory (E : Engine) : FString :=
  E.PathAppend (E.PathAppend E.ProjectDir (TEXT "Docs")) (TEXT ".context")

/-- `FBlueprintExporterLite::GetBlueprintOutputPath`. -/
def GetBlueprintOutputPath (E : Engine) (Blueprint : UBlueprint) : FString :=
  let PackagePath := Blueprint.PackageName
  let PackagePath := PackagePath.RemoveFromStart '/'
  E.PathAppend (GetOutputDirectory E) PackagePath

/-- One of the three graph loops of `ExportBlueprint` (source lines 72 to 90):
every graph of the array is exported under the file name the loop builds from
its name, and a failed export clears the success flag. -/
def ExportBlueprint.ExportGraphs {σ : Type} (E : Engine) (P : Platform σ) (OutputDir : FString)
    (FileName : UEdGraph → FString) (Graphs : List UEdGraph) (Acc : Bool × Run σ) :
    Bool × Run σ :=
  Graphs.foldl
    (fun Acc Graph =>
      let Result := ExportGraph E P (some Graph) OutputDir (FileName Graph) Acc.2
      (if !Result.1 then false else Acc.1, Result.2))
    Acc

/-- The body of the node loop of the animation part of `ExportBlueprint` (source
lines 102 to 110): a state-machine node with a sub-graph has the sub-graph
exported, and the verdict of that export is dropped. -/
def ExportBlueprint.ExportStateMachineNode {σ : Type} (E : Engine) (P : Platform σ)
    (OutputDir : FString) (R : Run σ) (Node : UEdGraphNode) : Run σ :=
  match Node with
  | UEdGraphNode.AnimGraphNode_StateMachine SMName EditorStateMachineGraph =>
    let SafeName := SanitizeFileName SMName
    match EditorStateMachineGraph with
    | some SubGraph =>
      (ExportGraph E P (some SubGraph) OutputDir
        (TEXT "StateMachine_" ++ SafeName ++ TEXT ".txt") R).2
    | none => R
  | _ => R

/-- The animation part of `ExportBlueprint` (source lines 98 to 114). -/
def ExportBlueprint.ExportStateMachines {σ : Type} (E : Engine) (P : Platform σ)
    (OutputDir : FString) (Blueprint : UBlueprint) (R : Run σ) : Run σ :=
  match Blueprint.AnimBlueprint with
  | some _ =>
    Blueprint.FunctionGraphs.foldl
      (fun R Graph =>
        if FString.Contains Graph.Name (TEXT "AnimGraph") then
          Graph.Nodes.foldl (ExportBlueprint.ExportStateMachineNode E P OutputDir) R
        else R)
      R
  | none => R

/-- `FBlueprintExporterLite::ExportBlueprint`. -/
def ExportBlueprint {σ : Type} (E : Engine) (P : Platform σ) (Blueprint : Option UBlueprint)
    (R : Run σ) : Bool × Run σ :=
  match Blueprint with
  | none => (false, R)
  | some Blueprint =>
    let OutputDir := GetBlueprintOutputPath E Blueprint
    let R : Run σ :=
      if !P.DirectoryExists OutputDir R.State then
        { R with State := P.CreateDirectoryTree OutputDir R.State }
      else R
    let bSuccess := true
    let Acc : Bool × Run σ := (bSuccess, R)
    let Acc :=
      ExportBlueprint.ExportGraphs E P OutputDir (fun Graph => Graph.Name ++ TEXT ".txt")
        Blueprint.UbergraphPages Acc
    let Acc :=
      ExportBlueprint.ExportGraphs E P OutputDir
        (fun Graph => TEXT "Function_" ++ Graph.Name ++ TEXT ".txt") Blueprint.FunctionGraphs Acc
    let Acc :=
      ExportBlueprint.ExportGraphs E P OutputDir
        (fun Graph => TEXT "Macro_" ++ Graph.Name ++ TEXT ".txt") Blueprint.MacroGraphs Acc
    let Meta := GenerateMetadata E P (some Blueprint) OutputDir Acc.2
    let bSuccess := if !Meta.1 then false else Acc.1
    let R := ExportBlueprint.ExportStateMachines E P OutputDir Blueprint Meta.2
    (bSuccess, R)

/-! ## Sample hosts and inputs -/

/-- A sample engine: the K2 category names, the engine values of the flag bits,
a node serialisation that prints one line per node, and path joining with a
slash. -/
def SampleEngine : Engine where
  PC_Exec := ⟨TEXT "exec"⟩
  PC_Object := ⟨TEXT "object"⟩
  PC_Class := ⟨TEXT "class"⟩
  CPF_Net_Bit := 5
  CPF_RepNotify_Bit := 32
  CPF_Edit_Bit := 0
  CPF_BlueprintReadOnly_Bit := 4
  CPF_ExposeOnSpawn_Bit := 48
  CPF_DisableEditOnInstance_Bit := 16
  FUNC_Protected_Bit := 19
  FUNC_Private_Bit := 18
  FUNC_BlueprintPure_Bit := 28
  FUNC_Const_Bit := 30
  ExportToOutputDevice := fun Node =>
    match Node with
    | UEdGraphNode.Generic d => TEXT "Begin Object " ++ d ++ TEXT "\n"
    | UEdGraphNode.K2Node_Event t => TEXT "Begin Object Event " ++ t ++ TEXT "\n"
    | UEdGraphNode.K2Node_FunctionEntry _ _ => TEXT "Begin Object FunctionEntry\n"
    | UEdGraphNode.K2Node_FunctionResult _ => TEXT "Begin Object FunctionResult\n"
    | UEdGraphNode.AnimGraphNode_StateMachine t _ =>
      TEXT "Begin Object StateMachine " ++ t ++ TEXT "\n"
  PathAppend := fun a b => a ++ TEXT "/" ++ b
  ProjectDir := TEXT "Project"
  Serialize := fun o => List.intercalate (TEXT ",") (o.map Prod.fst)

/-- A sample host whose writer refuses exactly the paths in its state and
accepts every other path; its clock is fixed. -/
def RefusingPlatform : Platform (List FString) where
  SaveStringToFile := fun _ Path Refused => (!decide (Path ∈ Refused), Refused)
  Now := fun s => (TEXT "2024.01.01-00.00.00", s)
  DirectoryExists := fun _ _ => true
  CreateDirectoryTree := fun _ s => s

/-- A plain blueprint with nothing in it. -/
def SampleBlueprint : UBlueprint where
  Name := TEXT "BP_Hero"
  PackageName := TEXT "/Game/BP_Hero"
  BlueprintType := EBlueprintType.BPTYPE_Normal
  AnimBlueprint := none
  ParentClass := UClass.Null
  GeneratedClass := UClass.Null
  ImplementedInterfaces := []
  NewVariables := []
  SimpleConstructionScript := none
  UbergraphPages := []
  FunctionGraphs := []
  MacroGraphs := []
  DelegateSignatureGraphs := []

/-- The output directory of `SampleBlueprint` under `SampleEngine`. -/
def SampleOutputDir : FString := TEXT "Project/Docs/.context/Game/BP_Hero"

/-- A state-machine sub-graph without nodes. -/
def SampleStateMachineGraph : UEdGraph :=
  { Name := TEXT "Locomotion", ClassName := TEXT "AnimationStateMachineGraph", Nodes := [] }

/-- An animation blueprint whose function graph `AnimGraph` holds one
state-machine node with the given title and a sub-graph. -/
def SampleAnimBlueprint (Title : FString) : UBlueprint :=
  { SampleBlueprint with
    AnimBlueprint := some { TargetSkeleton := none }
    FunctionGraphs :=
      [{ Name := TEXT "AnimGraph", ClassName := TEXT "AnimationGraph",
         Nodes := [UEdGraphNode.AnimGraphNode_StateMachine Title (some SampleStateMachineGraph)] }] }

/-- An event graph with one event node and two other nodes. -/
def SampleEventGraph : UEdGraph :=
  { Name := TEXT "EventGraph", ClassName := TEXT "EdGraph",
    Nodes := [UEdGraphNode.K2Node_Event (TEXT "BeginPlay"),
      UEdGraphNode.Generic (TEXT "PrintString"), UEdGraphNode.Generic (TEXT "Delay")] }

/-- The pin type of an array of integers. -/
def SampleIntArrayType : FEdGraphPinType :=
  { PinCategory := ⟨TEXT "int"⟩, PinSubCategoryObject := none,
    ContainerType := EPinContainerType.Array, bIsReference := false }

/-- The pin type of a reference to an array of actor objects. -/
def SampleActorArrayRefType : FEdGraphPinType :=
  { PinCategory := ⟨TEXT "object"⟩, PinSubCategoryObject := some (TEXT "Actor"),
    ContainerType := EPinContainerType.Array, bIsReference := true }

/-- A graph without nodes. -/
def SampleEmptyGraph : UEdGraph :=
  { Name := TEXT "Empty", ClassName := TEXT "EdGraph", Nodes := [] }

/-- A run of the refusing host that has written nothing and refuses the given
paths. -/
def RefusingRun (Refused : List FString) : Run (List FString) :=
  { State := Refused, Writes := [] }

/-- A blueprint whose only function graph has no nodes, so no function-entry
node. -/
def SampleFunctionBlueprint : UBlueprint :=
  { SampleBlueprint with FunctionGraphs := [SampleEmptyGraph] }

/-- A blueprint with one event graph and one function graph. -/
def SampleGraphsBlueprint : UBlueprint :=
  { SampleBlueprint with
    UbergraphPages := [SampleEventGraph]
    FunctionGraphs := [SampleEmptyGraph] }

/-- A function graph with an entry node that has no pins. -/
def SampleEntryGraph : UEdGraph :=
  { Name := TEXT "Fire", ClassName := TEXT "EdGraph",
    Nodes := [UEdGraphNode.Generic (TEXT "Comment"), UEdGraphNode.K2Node_FunctionEntry 0 []] }

/-- A variable of integer type whose only property flag is the edit flag of
`SampleEngine`. -/
def SampleEditVariable : FBPVariableDescription :=
  { VarName := ⟨TEXT "Health"⟩
    VarType :=
      { PinCategory := ⟨TEXT "int"⟩, PinSubCategoryObject := none,
        ContainerType := EPinContainerType.None, bIsReference := false }
    Category := TEXT "Default"
    PropertyFlags := 1
    DefaultValue := []
    Tooltip := none }

/-- Whether a node is a function-entry node. -/
def UEdGraphNode.IsFunctionEntry : UEdGraphNode → Bool
  | UEdGraphNode.K2Node_FunctionEntry _ _ => true
  | _ => false

/-- The default object of the generated class of a blueprint seen as an actor:
absent when there is no generated class, no default object, or the default
object is not an actor. -/
def UBlueprint.ActorCDO (Blueprint : UBlueprint) : Option AActor :=
  match Blueprint.GeneratedClass.GetDefaultObject with
  | some CDO => CDO.Actor
  | none => none

/-- The token of `PinTypeToString` after the class-name step (source lines 359 to
363): the simple name of the referenced class or object when there is one, the
category token otherwise. -/
def PinTypeToString.Base (PinType : FEdGraphPinType) : FString :=
  match PinType.PinSubCategoryObject with
  | some ObjectName => ObjectName
  | none => PinType.PinCategory.ToString

/-- Whether the category of a pin type is the object or the class category, the
test of source lines 365 and 366. -/
def FEdGraphPinType.IsObjectOrClass (E : Engine) (PinType : FEdGraphPinType) : Bool :=
  PinType.PinCategory.Eq E.PC_Object || PinType.PinCategory.Eq E.PC_Class

/-- The pin type of a plain integer. -/
def SampleIntType : FEdGraphPinType :=
  { PinCategory := ⟨TEXT "int"⟩, PinSubCategoryObject := none,
    ContainerType := EPinContainerType.None, bIsReference := false }

/-- An animation blueprint that is also of interface kind. -/
def SampleInterfaceAnimBlueprint : UBlueprint :=
  { SampleBlueprint with
    BlueprintType := EBlueprintType.BPTYPE_Interface
    AnimBlueprint := some { TargetSkeleton := none } }

/-- The classes on the superclass chain from a class up to the root, nearest
first: the simple name of each and whether it was generated by a blueprint. -/
def UClass.SuperChain : UClass → List (FString × Bool)
  | UClass.Null => []
  | UClass.Class Name ClassGeneratedBy _ SuperClass => (Name, ClassGeneratedBy) :: SuperClass.SuperChain

/-- A blueprint whose parent is a blueprint-generated class on top of two native
classes. -/
def SampleChildBlueprint : UBlueprint :=
  { SampleBlueprint with
    ParentClass :=
      UClass.Class (TEXT "BP_Base_C") true none
        (UClass.Class (TEXT "Character") false none
          (UClass.Class (TEXT "Pawn") false none UClass.Null)) }

/-- The full title of a node when it is an event node. -/
def UEdGraphNode.EventTitle : UEdGraphNode → Option FString
  | UEdGraphNode.K2Node_Event FullTitle => some FullTitle
  | _ => none

/-- A blueprint with one event graph of three nodes, one of them the event node
`BeginPlay`, no functions and no variables. -/
def SampleEventBlueprint : UBlueprint :=
  { SampleBlueprint with UbergraphPages := [SampleEventGraph] }

/-- The function flags and pins of a node when it is a function-entry node. -/
def UEdGraphNode.AsFunctionEntry : UEdGraphNode → Option (Nat × List UEdGraphPin)
  | UEdGraphNode.K2Node_FunctionEntry FunctionFlags Pins => some (FunctionFlags, Pins)
  | _ => none

/-- The pins of a node when it is a function-result node. -/
def UEdGraphNode.AsFunctionResult : UEdGraphNode → Option (List UEdGraphPin)
  | UEdGraphNode.K2Node_FunctionResult Pins => some Pins
  | _ => none

/-- The object that stands for one pin in a signature: its name and its rendered
type. -/
def SignaturePinObj (E : Engine) (Pin : UEdGraphPin) : FJsonValue :=
  FJsonValue.Object
    [(TEXT "name", FJsonValue.String Pin.PinName.ToString),
      (TEXT "type", FJsonValue.String (PinTypeToString E Pin.PinType))]

/-- A pin with the given name, direction and category, of no container kind and
not a reference. -/
def SamplePin (Name : String) (Direction : EEdGraphPinDirection) (Category : String) :
    UEdGraphPin :=
  { PinName := ⟨TEXT Name⟩, Direction := Direction,
    PinType :=
      { PinCategory := ⟨TEXT Category⟩, PinSubCategoryObject := none,
        ContainerType := EPinContainerType.None, bIsReference := false } }

/-- A function graph with two entry nodes and two result nodes. The first entry
node has the protected and the private bit of `SampleEngine` set and carries an
exec pin, an integer parameter and an input pin; the first result node carries
an exec pin and a boolean return value. -/
def SampleSignatureGraph : UEdGraph :=
  { Name := TEXT "Fire", ClassName := TEXT "EdGraph",
    Nodes :=
      [UEdGraphNode.Generic (TEXT "Comment"),
        UEdGraphNode.K2Node_FunctionEntry (2 ^ 19 + 2 ^ 18)
          [SamplePin "then" EEdGraphPinDirection.EGPD_Output "exec",
            SamplePin "Amount" EEdGraphPinDirection.EGPD_Output "int",
            SamplePin "Unused" EEdGraphPinDirection.EGPD_Input "int"],
        UEdGraphNode.K2Node_FunctionResult
          [SamplePin "execute" EEdGraphPinDirection.EGPD_Input "exec",
            SamplePin "ReturnValue" EEdGraphPinDirection.EGPD_Input "bool"],
        UEdGraphNode.K2Node_FunctionEntry 0
          [SamplePin "Other" EEdGraphPinDirection.EGPD_Output "float"],
        UEdGraphNode.K2Node_FunctionResult
          [SamplePin "Second" EEdGraphPinDirection.EGPD_Input "float"]] }

/-- The graphs that `ExportBlueprint` exports in its three graph loops, in export
order, each with the file name the loop builds for it: the event graphs as
`<name>.txt`, then the function graphs as `Function_<name>.txt`, then the macro
graphs as `Macro_<name>.txt`. -/
def ExportBlueprint.GraphFiles (Blueprint : UBlueprint) : List (UEdGraph × FString) :=
  Blueprint.UbergraphPages.map (fun Graph => (Graph, Graph.Name ++ TEXT ".txt")) ++
    Blueprint.FunctionGraphs.map
      (fun Graph => (Graph, TEXT "Function_" ++ Graph.Name ++ TEXT ".txt")) ++
    Blueprint.MacroGraphs.map (fun Graph => (Graph, TEXT "Macro_" ++ Graph.Name ++ TEXT ".txt"))

/-- The graph loops of `ExportBlueprint` run over a list of graphs that come with
their file names: each is exported, and a failed export clears the success
flag. -/
def ExportBlueprint.ExportFiles {σ : Type} (E : Engine) (P : Platform σ) (OutputDir : FString)
    (Files : List (UEdGraph × FString)) (Acc : Bool × Run σ) : Bool × Run σ :=
  Files.foldl
    (fun Acc File =>
      let Result := ExportGraph E P (some File.1) OutputDir File.2 Acc.2
      (if !Result.1 then false else Acc.1, Result.2))
    Acc

/-- The directory step of `ExportBlueprint` (source lines 63 to 66). -/
def ExportBlueprint.EnsureDirectory {σ : Type} (P : Platform σ) (OutputDir : FString)
    (R : Run σ) : Run σ :=
  if !P.DirectoryExists OutputDir R.State then
    { R with State := P.CreateDirectoryTree OutputDir R.State }
  else R

/-- The list-view title and the nullable sub-graph of a node when it is a
state-machine node. -/
def UEdGraphNode.AsStateMachine : UEdGraphNode → Option (FString × Option UEdGraph)
  | UEdGraphNode.AnimGraphNode_StateMachine ListViewTitle EditorStateMachineGraph =>
    some (ListViewTitle, EditorStateMachineGraph)
  | _ => none

/-- The state-machine nodes of the function graphs whose name contains
`AnimGraph`, graph by graph and within a graph in node order. -/
def StateMachineNodes (FunctionGraphs : List UEdGraph) : List (FString × Option UEdGraph) :=
  (FunctionGraphs.filter (fun Graph => FString.Contains Graph.Name (TEXT "AnimGraph"))).flatMap
    (fun Graph => Graph.Nodes.filterMap UEdGraphNode.AsStateMachine)

/-- The file name under which the sub-graph of a state-machine node is exported,
when the node has a sub-graph. -/
def StateMachineFile (Node : FString × Option UEdGraph) : Option FString :=
  Node.2.map (fun _ => TEXT "StateMachine_" ++ SanitizeFileName Node.1 ++ TEXT ".txt")

/-- The state-machine files of a blueprint in export order: none unless it is an
animation blueprint. -/
def StateMachineFiles (Blueprint : UBlueprint) : List FString :=
  match Blueprint.AnimBlueprint with
  | some _ => (StateMachineNodes Blueprint.FunctionGraphs).filterMap StateMachineFile
  | none => []

/-- The paths of the writer calls of a run, oldest first. -/
def Run.Paths {σ : Type} (R : Run σ) : List FString := R.Writes.map FileWrite.Path

/-- An animation blueprint whose function graph `AnimGraph` holds one
state-machine node titled `Locomotion` that has no sub-graph. -/
def SampleAnimBlueprintWithoutSubGraph : UBlueprint :=
  { SampleBlueprint with
    AnimBlueprint := some { TargetSkeleton := none }
    FunctionGraphs :=
      [{ Name := TEXT "AnimGraph", ClassName := TEXT "AnimationGraph",
         Nodes := [UEdGraphNode.AnimGraphNode_StateMachine (TEXT "Locomotion") none] }] }

/-- An animation blueprint whose function graph `AnimGraph` holds two
state-machine nodes, titled `A/B` and `A:B`, each with a sub-graph. -/
def SampleCollidingAnimBlueprint : UBlueprint :=
  { SampleBlueprint with
    AnimBlueprint := some { TargetSkeleton := none }
    FunctionGraphs :=
      [{ Name := TEXT "AnimGraph", ClassName := TEXT "AnimationGraph",
         Nodes :=
           [UEdGraphNode.AnimGraphNode_StateMachine (TEXT "A/B") (some SampleStateMachineGraph),
             UEdGraphNode.AnimGraphNode_StateMachine (TEXT "A:B")
               (some SampleStateMachineGraph)] }] }

/-- The object that a selected asset resolves to (the `UObject` returned by
`GetAsset`), tagged by the result of `Cast<UBlueprint>`: a blueprint, or an
object of some other class. -/
inductive UAssetObject where
  | Blueprint (Object : UBlueprint)
  | Other (ClassName : FString)

/-- `Cast<UBlueprint>` on a resolved asset. -/
def UAssetObject.CastBlueprint : UAssetObject → Option UBlueprint
  | UAssetObject.Blueprint Object => some Object
  | UAssetObject.Other _ => none

/-- A selected asset (`FAssetData`): the object it resolves to, or nothing when
it does not resolve. -/
structure FAssetData where
  Asset : Option UAssetObject

/-- `FAssetData::GetAsset`. -/
def FAssetData.GetAsset (AssetData : FAssetData) : Option UAssetObject := AssetData.Asset

/-- What `ExportSelectedAssets` has computed when it returns: the two counters
that its notification and its log line report, and the run. The counters
cannot overflow, since an array has fewer than `2 ^ 31` elements. -/
structure ExportSelectedAssets.Outcome (σ : Type) where
  ExportedCount : Nat
  FailedCount : Nat
  Run : Run σ

/-- The body of the asset loop of `ExportSelectedAssets` (source lines 27 to 39):
an asset that does not resolve, or that is not a blueprint, is passed over; a
blueprint is exported and counted as exported or as failed. -/
def ExportSelectedAssets.Body {σ : Type} (E : Engine) (P : Platform σ)
    (S : ExportSelectedAssets.Outcome σ) (AssetData : FAssetData) :
    ExportSelectedAssets.Outcome σ :=
  match AssetData.GetAsset with
  | none => S
  | some Asset =>
    match Asset.CastBlueprint with
    | some Blueprint =>
      let Result := ExportBlueprint E P (some Blueprint) S.Run
      if Result.1 then
        { ExportedCount := S.ExportedCount + 1, FailedCount := S.FailedCount, Run := Result.2 }
      else
        { ExportedCount := S.ExportedCount, FailedCount := S.FailedCount + 1, Run := Result.2 }
    | none => S

/-- `FBlueprintExporterLite::ExportSelectedAssets`. -/
def ExportSelectedAssets {σ : Type} (E : Engine) (P : Platform σ)
    (SelectedAssets : List FAssetData) (R : Run σ) : ExportSelectedAssets.Outcome σ :=
  let ExportedCount := 0
  let FailedCount := 0
  SelectedAssets.foldl (ExportSelectedAssets.Body E P)
    { ExportedCount := ExportedCount, FailedCount := FailedCount, Run := R }

/-- The blueprint that a selected asset resolves to, if it resolves and is a
blueprint. -/
def FAssetData.AsBlueprint (AssetData : FAssetData) : Option UBlueprint :=
  AssetData.GetAsset.bind UAssetObject.CastBlueprint

/-- Running `ExportBlueprint` once for each blueprint of a list, in list order:
the results in that order and the run at the end. -/
def ExportBlueprintsInOrder {σ : Type} (E : Engine) (P : Platform σ) :
    List UBlueprint → Run σ → List Bool × Run σ
  | [], R => ([], R)
  | Blueprint :: Rest, R =>
    let Result := ExportBlueprint E P (some Blueprint) R
    let Tail := ExportBlueprintsInOrder E P Rest Result.2
    (Result.1 :: Tail.1, Tail.2)

/-- The paths that one run of `ExportBlueprint` hands to the writer for a
blueprint: the graph files, `_meta.json`, and the state-machine files. -/
def ExportBlueprint.AllPaths (E : Engine) (Blueprint : UBlueprint) : List FString :=
  (ExportBlueprint.GraphFiles Blueprint).map
      (fun File => E.PathAppend (GetBlueprintOutputPath E Blueprint) File.2) ++
    [E.PathAppend (GetBlueprintOutputPath E Blueprint) (TEXT "_meta.json")] ++
    (StateMachineFiles Blueprint).map (E.PathAppend (GetBlueprintOutputPath E Blueprint))

/-- A selection of four assets: one that does not resolve, a texture, the sample
blueprint with an event graph and a function graph, and the plain sample
blueprint. -/
def SampleSelection : List FAssetData :=
  [{ Asset := none }, { Asset := some (UAssetObject.Other (TEXT "Texture2D")) },
    { Asset := some (UAssetObject.Blueprint SampleGraphsBlueprint) },
    { Asset := some (UAssetObject.Blueprint SampleBlueprint) }]

/-- `FJsonObject::SetField` with the keys compared without regard to case, which
is how the engine compares the strings that key its field map: a field whose
key equals the new key up to case is replaced by the new field in place,
otherwise the new field is added at the end. -/
def FJsonObject.SetFieldIgnoreCase : FJsonObject → FString → FJsonValue → FJsonObject
  | [], k, v => [(k, v)]
  | (k0, v0) :: rest, k, v =>
    if k0.ToLower = k.ToLower then (k, v) :: rest
    else (k0, v0) :: FJsonObject.SetFieldIgnoreCase rest k v

/-- `FJsonObject::TryGetField` with the keys compared without regard to case. -/
def FJsonObject.TryGetFieldIgnoreCase : FJsonObject → FString → Option FJsonValue
  | [], _ => none
  | (k0, v0) :: rest, k =>
    if k0.ToLower = k.ToLower then some v0 else FJsonObject.TryGetFieldIgnoreCase rest k

/-- The graphs index of `GenerateMetadataForBlueprint` (source lines 105 to
111), built with the keys compared without regard to case. -/
def GenerateMetadataForBlueprint.GraphsIgnoreCase (Blueprint : UBlueprint) : FJsonObject :=
  let Graphs : FJsonObject := []
  let Graphs :=
    Blueprint.UbergraphPages.foldl
      (fun Graphs Graph =>
        FJsonObject.SetFieldIgnoreCase Graphs Graph.Name
          (FJsonValue.String (Graph.Name ++ TEXT ".txt")))
      Graphs
  let Graphs :=
    Blueprint.FunctionGraphs.foldl
      (fun Graphs Graph =>
        FJsonObject.SetFieldIgnoreCase Graphs Graph.Name
          (FJsonValue.String (TEXT "Function_" ++ Graph.Name ++ TEXT ".txt")))
      Graphs
  Graphs

/-- The engine keeps the names of the objects inside one blueprint unique, and
it compares names without regard to case: no two of the event graphs and
function graphs of the blueprint have the same name up to case. -/
@[reducible]
def UBlueprint.GraphNamesUnique (Blueprint : UBlueprint) : Prop :=
  ((Blueprint.UbergraphPages ++ Blueprint.FunctionGraphs).map
    (fun Graph => Graph.Name.ToLower)).Nodup

/-! ## Lemmas on JSON objects -/

theorem FJsonObject.TryGetField_nil (k : FString) :
    FJsonObject.TryGetField [] k = none := rfl

theorem FJsonObject.TryGetField_SetField (o : FJsonObject) (k k' : FString) (v : FJsonValue) :
    (FJsonObject.SetField o k v).TryGetField k' =
      if k = k' then some v else o.TryGetField k' := by
  induction o with
  | nil =>
    by_cases h : k = k' <;> simp [FJsonObject.SetField, FJsonObject.TryGetField, h]
  | cons p rest ih =>
    obtain ⟨k0, v0⟩ := p
    by_cases h0 : k0 = k
    · subst h0
      by_cases h : k0 = k' <;> simp [FJsonObject.SetField, FJsonObject.TryGetField, h]
    · by_cases h : k0 = k'
      · subst h
        have hne : ¬ k = k0 := fun e => h0 e.symm
        simp [FJsonObject.SetField, FJsonObject.TryGetField, h0, hne]
      · simp [FJsonObject.SetField, FJsonObject.TryGetField, h0, h, ih]

theorem FJsonObject.mem_SetField (o : FJsonObject) (k : FString) (v : FJsonValue)
    (p : FString × FJsonValue) (hp : p ∈ FJsonObject.SetField o k v) :
    p ∈ o ∨ p.2 = v := by
  induction o with
  | nil =>
    simp only [FJsonObject.SetField, List.mem_singleton] at hp
    right
    rw [hp]
  | cons q rest ih =>
    obtain ⟨k0, v0⟩ := q
    by_cases h0 : k0 = k
    · simp only [FJsonObject.SetField, h0, if_true, List.mem_cons] at hp
      rcases hp with hp | hp
      · right
        rw [hp]
      · left
        exact List.mem_cons_of_mem _ hp
    · simp only [FJsonObject.SetField, h0, if_false, List.mem_cons] at hp
      rcases hp with hp | hp
      · left
        rw [hp]
        exact List.mem_cons_self _ _
      · rcases ih hp with h | h
        · left
          exact List.mem_cons_of_mem _ h
        · right
          exact h

/-! ## The type-name renderer -/

/-- Claim C1 as stated fails: the array of integers is rendered `TArray<int>`,
not `List<int>`. -/
theorem PinTypeToString_array_is_not_List :
    SampleIntArrayType.IsArray = true ∧
      PinTypeToString SampleEngine SampleIntArrayType = TEXT "TArray<int>" ∧
      PinTypeToString SampleEngine SampleIntArrayType ≠
        TEXT "List<" ++ PinTypeToString.Inner SampleEngine SampleIntArrayType ++ TEXT ">" ++
          (if SampleIntArrayType.bIsReference then TEXT "&" else []) := by
  decide

/-- Claim C1, amended: for every pin type whose array flag is set,
`PinTypeToString` renders `TArray<` followed by the token after the class-name
and pointer-marker steps, followed by `>`, followed by `&` exactly when the
reference flag is set. -/
theorem PinTypeToString_array_wraps_TArray (E : Engine) (PinType : FEdGraphPinType)
    (hArray : PinType.IsArray = true) :
    PinTypeToString E PinType =
      TEXT "TArray<" ++ PinTypeToString.Inner E PinType ++ TEXT ">" ++
        (if PinType.bIsReference then TEXT "&" else []) := by
  unfold PinTypeToString PinTypeToString.Inner
  simp only [hArray, if_true]
  cases PinType.bIsReference <;> simp

/-- Witness for `PinTypeToString_array_wraps_TArray`: a reference to an array of
actor objects is rendered `TArray<Actor*>&`. -/
theorem PinTypeToString_array_wraps_TArray_witness :
    SampleActorArrayRefType.IsArray = true ∧
      PinTypeToString SampleEngine SampleActorArrayRefType = TEXT "TArray<Actor*>&" :=
  ⟨by decide,
    (PinTypeToString_array_wraps_TArray SampleEngine SampleActorArrayRefType (by decide)).trans
      (by decide)⟩

/-! ## The file-name sanitiser -/

theorem FString.ReplaceChar_of_ne (From To c : Char) (h : c ≠ From) :
    FString.ReplaceChar From To c = c := by
  unfold FString.ReplaceChar
  rw [if_neg h]

/-- The nine replacements of `SanitizeFileName` act on each character on its
own. -/
theorem SanitizeFileName_eq_map (Name : FString) :
    SanitizeFileName Name =
      Name.map (fun c =>
        FString.ReplaceChar '|' '_' (FString.ReplaceChar '>' '_' (FString.ReplaceChar '<' '_'
          (FString.ReplaceChar (Char.ofNat 34) '_' (FString.ReplaceChar '?' '_'
            (FString.ReplaceChar '*' '_' (FString.ReplaceChar ':' '_'
              (FString.ReplaceChar (Char.ofNat 92) '_'
                (FString.ReplaceChar '/' '_' c))))))))) := by
  simp only [SanitizeFileName, FString.ReplaceInline, List.map_map, Function.comp_def]

/-- The nine replacements turn each of the nine characters into an underscore and
keep every other character. -/
theorem SanitizeChar_eq (c : Char) :
    FString.ReplaceChar '|' '_' (FString.ReplaceChar '>' '_' (FString.ReplaceChar '<' '_'
      (FString.ReplaceChar (Char.ofNat 34) '_' (FString.ReplaceChar '?' '_'
        (FString.ReplaceChar '*' '_' (FString.ReplaceChar ':' '_'
          (FString.ReplaceChar (Char.ofNat 92) '_'
            (FString.ReplaceChar '/' '_' c)))))))) =
      if c = '/' ∨ c = Char.ofNat 92 ∨ c = ':' ∨ c = '*' ∨ c = '?' ∨ c = Char.ofNat 34 ∨
          c = '<' ∨ c = '>' ∨ c = '|' then '_' else c := by
  by_cases h1 : c = '/'
  · subst h1; decide
  by_cases h2 : c = Char.ofNat 92
  · subst h2; decide
  by_cases h3 : c = ':'
  · subst h3; decide
  by_cases h4 : c = '*'
  · subst h4; decide
  by_cases h5 : c = '?'
  · subst h5; decide
  by_cases h6 : c = Char.ofNat 34
  · subst h6; decide
  by_cases h7 : c = '<'
  · subst h7; decide
  by_cases h8 : c = '>'
  · subst h8; decide
  by_cases h9 : c = '|'
  · subst h9; decide
  rw [FString.ReplaceChar_of_ne _ _ c h1, FString.ReplaceChar_of_ne _ _ c h2,
    FString.ReplaceChar_of_ne _ _ c h3, FString.ReplaceChar_of_ne _ _ c h4,
    FString.ReplaceChar_of_ne _ _ c h5, FString.ReplaceChar_of_ne _ _ c h6,
    FString.ReplaceChar_of_ne _ _ c h7, FString.ReplaceChar_of_ne _ _ c h8,
    FString.ReplaceChar_of_ne _ _ c h9]
  rw [if_neg]
  simp only [h1, h2, h3, h4, h5, h6, h7, h8, h9, or_self, not_false_eq_true]

/-- Claim C8: `SanitizeFileName` is idempotent. -/
theorem SanitizeFileName_idempotent (s : FString) :
    SanitizeFileName (SanitizeFileName s) = SanitizeFileName s := by
  rw [SanitizeFileName_eq_map (SanitizeFileName s), SanitizeFileName_eq_map s, List.map_map]
  apply List.map_congr_left
  intro c _
  simp only [Function.comp, SanitizeChar_eq]
  by_cases h : c = '/' ∨ c = Char.ofNat 92 ∨ c = ':' ∨ c = '*' ∨ c = '?' ∨ c = Char.ofNat 34 ∨
      c = '<' ∨ c = '>' ∨ c = '|'
  · rw [if_pos h]
    decide
  · rw [if_neg h, if_neg h]

/-! ## The graph exporter -/

theorem foldl_append_eq_flatten {α : Type} (f : α → FString) (l : List α) (a : FString) :
    l.foldl (fun Archive x => Archive ++ f x) a = a ++ (l.map f).flatten := by
  induction l generalizing a with
  | nil => simp
  | cons x xs ih => simp [ih, List.append_assoc]

theorem ExportGraph.Archive_eq (E : Engine) (Graph : UEdGraph) (Timestamp : FString) :
    ExportGraph.Archive E Graph Timestamp =
      (TEXT "// Graph: " ++ Graph.Name ++ TEXT "\n") ++
        (TEXT "// Type: " ++ Graph.ClassName ++ TEXT "\n") ++
        (TEXT "// Node Count: " ++ FString.FromInt Graph.Nodes.length ++ TEXT "\n") ++
        (TEXT "// Exported: " ++ Timestamp ++ TEXT "\n") ++
        TEXT "\n" ++
        (Graph.Nodes.map E.ExportToOutputDevice).flatten := by
  unfold ExportGraph.Archive Logf
  simp only [foldl_append_eq_flatten, List.nil_append]

theorem ExportGraph_some_Writes {σ : Type} (E : Engine) (P : Platform σ) (Graph : UEdGraph)
    (OutputDir FileName : FString) (R : Run σ) :
    (ExportGraph E P (some Graph) OutputDir FileName R).2.Writes =
      R.Writes ++
        [{ Path := E.PathAppend OutputDir FileName,
           Content := ExportGraph.Archive E Graph (P.Now R.State).1 }] := by
  simp [ExportGraph, SaveStringToFile]

theorem ExportGraph_some_result {σ : Type} (E : Engine) (P : Platform σ) (Graph : UEdGraph)
    (OutputDir FileName : FString) (R : Run σ) :
    (ExportGraph E P (some Graph) OutputDir FileName R).1 =
      (P.SaveStringToFile (ExportGraph.Archive E Graph (P.Now R.State).1)
        (E.PathAppend OutputDir FileName) (P.Now R.State).2).1 := by
  simp [ExportGraph, SaveStringToFile]

/-- Claim C4 as stated fails: the export of a non-null graph without nodes
fails when the writer refuses the file. -/
theorem ExportGraph_fails_on_non_null_graph :
    ¬ ((ExportGraph SampleEngine RefusingPlatform (some SampleEmptyGraph) SampleOutputDir
          (TEXT "Empty.txt") (RefusingRun [TEXT "Project/Docs/.context/Game/BP_Hero/Empty.txt"])).1
        = false ↔ (some SampleEmptyGraph : Option UEdGraph) = none) := by
  intro h
  have hfalse :
      (ExportGraph SampleEngine RefusingPlatform (some SampleEmptyGraph) SampleOutputDir
        (TEXT "Empty.txt")
        (RefusingRun [TEXT "Project/Docs/.context/Game/BP_Hero/Empty.txt"])).1 = false := by
    decide
  exact Option.noConfusion (h.mp hfalse)

/-- Claim C4, amended: `ExportGraph` fails exactly when the graph reference is
null or the writer refuses the one file it is given. For a null graph it
returns failure and nothing is written; for a non-null graph, also one without
nodes, it makes exactly one call of the writer, with the archive text and the
joined path, and returns the verdict of that call. -/
theorem ExportGraph_fails_iff {σ : Type} (E : Engine) (P : Platform σ) (Graph : Option UEdGraph)
    (OutputDir FileName : FString) (R : Run σ) :
    ((ExportGraph E P Graph OutputDir FileName R).1 = false ↔
        Graph = none ∨
          ∃ g, Graph = some g ∧
            (P.SaveStringToFile (ExportGraph.Archive E g (P.Now R.State).1)
              (E.PathAppend OutputDir FileName) (P.Now R.State).2).1 = false) ∧
      (Graph = none → ExportGraph E P Graph OutputDir FileName R = (false, R)) ∧
      (∀ g, Graph = some g →
        (ExportGraph E P Graph OutputDir FileName R).2.Writes =
            R.Writes ++
              [{ Path := E.PathAppend OutputDir FileName,
                 Content := ExportGraph.Archive E g (P.Now R.State).1 }] ∧
          (ExportGraph E P Graph OutputDir FileName R).2.Writes.length = R.Writes.length + 1 ∧
          (ExportGraph E P Graph OutputDir FileName R).1 =
            (P.SaveStringToFile (ExportGraph.Archive E g (P.Now R.State).1)
              (E.PathAppend OutputDir FileName) (P.Now R.State).2).1 ∧
          (ExportGraph E P Graph OutputDir FileName R).2.State =
            (P.SaveStringToFile (ExportGraph.Archive E g (P.Now R.State).1)
              (E.PathAppend OutputDir FileName) (P.Now R.State).2).2) := by
  cases Graph with
  | none => simp [ExportGraph]
  | some g =>
    refine ⟨by simp [ExportGraph_some_result], by simp, fun g' hg => ?_⟩
    cases hg
    refine ⟨ExportGraph_some_Writes E P g OutputDir FileName R, ?_,
      ExportGraph_some_result E P g OutputDir FileName R, ?_⟩
    · rw [ExportGraph_some_Writes]
      simp
    · simp [ExportGraph, SaveStringToFile]

/-- Witness for `ExportGraph_fails_iff`: a null graph fails and writes nothing;
the graph without nodes, with a writer that refuses its file, fails after the
one call of the writer. -/
theorem ExportGraph_fails_iff_witness :
    ExportGraph SampleEngine RefusingPlatform none SampleOutputDir (TEXT "Empty.txt")
        (RefusingRun []) = (false, RefusingRun []) ∧
      (ExportGraph SampleEngine RefusingPlatform (some SampleEmptyGraph) SampleOutputDir
          (TEXT "Empty.txt")
          (RefusingRun [TEXT "Project/Docs/.context/Game/BP_Hero/Empty.txt"])).2.Writes =
        [{ Path := TEXT "Project/Docs/.context/Game/BP_Hero/Empty.txt",
           Content :=
             TEXT "// Graph: Empty\n// Type: EdGraph\n// Node Count: 0\n// Exported: 2024.01.01-00.00.00\n\n" }] ∧
      (ExportGraph SampleEngine RefusingPlatform (some SampleEmptyGraph) SampleOutputDir
          (TEXT "Empty.txt")
          (RefusingRun [TEXT "Project/Docs/.context/Game/BP_Hero/Empty.txt"])).1 = false :=
  ⟨(ExportGraph_fails_iff SampleEngine RefusingPlatform none SampleOutputDir (TEXT "Empty.txt")
      (RefusingRun [])).2.1 rfl,
    ((ExportGraph_fails_iff SampleEngine RefusingPlatform (some SampleEmptyGraph) SampleOutputDir
      (TEXT "Empty.txt")
      (RefusingRun [TEXT "Project/Docs/.context/Game/BP_Hero/Empty.txt"])).2.2
      SampleEmptyGraph rfl).1.trans rfl,
    ((ExportGraph_fails_iff SampleEngine RefusingPlatform (some SampleEmptyGraph) SampleOutputDir
      (TEXT "Empty.txt")
      (RefusingRun [TEXT "Project/Docs/.context/Game/BP_Hero/Empty.txt"])).1.mpr
      (Or.inr ⟨SampleEmptyGraph, rfl, by decide⟩))⟩

/-- Claim C6: for every non-null graph, `ExportGraph` hands the writer exactly one
text, made of the four header lines `// Graph: <name>`, `// Type: <class>`,
`// Node Count: <n>` and `// Exported: <timestamp>`, one blank line, and then
the records of the nodes in node order, one record per node; the number in the
node-count line is the number of nodes. -/
theorem ExportGraph_text_layout {σ : Type} (E : Engine) (P : Platform σ) (Graph : UEdGraph)
    (OutputDir FileName : FString) (R : Run σ) :
    (ExportGraph E P (some Graph) OutputDir FileName R).2.Writes =
        R.Writes ++
          [{ Path := E.PathAppend OutputDir FileName,
             Content :=
               (TEXT "// Graph: " ++ Graph.Name ++ TEXT "\n") ++
                 (TEXT "// Type: " ++ Graph.ClassName ++ TEXT "\n") ++
                 (TEXT "// Node Count: " ++ FString.FromInt Graph.Nodes.length ++ TEXT "\n") ++
                 (TEXT "// Exported: " ++ (P.Now R.State).1 ++ TEXT "\n") ++
                 TEXT "\n" ++
                 (Graph.Nodes.map E.ExportToOutputDevice).flatten }] ∧
      (Graph.Nodes.map E.ExportToOutputDevice).length = Graph.Nodes.length := by
  refine ⟨?_, List.length_map _ _⟩
  rw [ExportGraph_some_Writes, ExportGraph.Archive_eq]

/-! ## The trace of writer calls -/

theorem ExportGraph_Writes_subset {σ : Type} (E : Engine) (P : Platform σ)
    (Graph : Option UEdGraph) (OutputDir FileName : FString) (R : Run σ) :
    R.Writes ⊆ (ExportGraph E P Graph OutputDir FileName R).2.Writes := by
  cases Graph with
  | none => simp [ExportGraph]
  | some g =>
    rw [ExportGraph_some_Writes]
    exact List.subset_append_left _ _

theorem ExportGraphs_Writes_subset {σ : Type} (E : Engine) (P : Platform σ) (OutputDir : FString)
    (FileName : UEdGraph → FString) (Graphs : List UEdGraph) (Acc : Bool × Run σ) :
    Acc.2.Writes ⊆ (ExportBlueprint.ExportGraphs E P OutputDir FileName Graphs Acc).2.Writes := by
  induction Graphs generalizing Acc with
  | nil => simp [ExportBlueprint.ExportGraphs]
  | cons g gs ih =>
    simp only [ExportBlueprint.ExportGraphs, List.foldl_cons]
    refine List.Subset.trans ?_ (ih _)
    exact ExportGraph_Writes_subset E P (some g) OutputDir (FileName g) Acc.2

theorem ExportGraphs_Writes_mem {σ : Type} (E : Engine) (P : Platform σ) (OutputDir : FString)
    (FileName : UEdGraph → FString) (Graphs : List UEdGraph) (Acc : Bool × Run σ)
    (Graph : UEdGraph) (hGraph : Graph ∈ Graphs) :
    ∃ w ∈ (ExportBlueprint.ExportGraphs E P OutputDir FileName Graphs Acc).2.Writes,
      w.Path = E.PathAppend OutputDir (FileName Graph) ∧
        ∃ Timestamp, w.Content = ExportGraph.Archive E Graph Timestamp := by
  induction Graphs generalizing Acc with
  | nil => cases hGraph
  | cons g gs ih =>
    simp only [ExportBlueprint.ExportGraphs, List.foldl_cons]
    rcases List.mem_cons.mp hGraph with h | h
    · subst h
      refine ⟨{ Path := E.PathAppend OutputDir (FileName Graph),
                Content := ExportGraph.Archive E Graph (P.Now Acc.2.State).1 }, ?_, rfl, _, rfl⟩
      apply ExportGraphs_Writes_subset E P OutputDir FileName gs
      simp only [ExportGraph_some_Writes]
      simp
    · exact ih _ h

theorem GenerateMetadata_Writes_subset {σ : Type} (E : Engine) (P : Platform σ)
    (Blueprint : Option UBlueprint) (OutputDir : FString) (R : Run σ) :
    R.Writes ⊆ (GenerateMetadata E P Blueprint OutputDir R).2.Writes := by
  cases Blueprint with
  | none => simp [GenerateMetadata, GenerateMetadataForBlueprint]
  | some bp => simp [GenerateMetadata, GenerateMetadataForBlueprint, SaveStringToFile]

theorem ExportStateMachineNode_Writes_subset {σ : Type} (E : Engine) (P : Platform σ)
    (OutputDir : FString) (R : Run σ) (Node : UEdGraphNode) :
    R.Writes ⊆ (ExportBlueprint.ExportStateMachineNode E P OutputDir R Node).Writes := by
  cases Node with
  | AnimGraphNode_StateMachine t sub =>
    cases sub with
    | none => simp [ExportBlueprint.ExportStateMachineNode]
    | some g =>
      simp only [ExportBlueprint.ExportStateMachineNode]
      exact ExportGraph_Writes_subset E P (some g) OutputDir _ R
  | _ => simp [ExportBlueprint.ExportStateMachineNode]

theorem foldl_Writes_subset {σ α : Type} (f : Run σ → α → Run σ)
    (hf : ∀ R x, R.Writes ⊆ (f R x).Writes) (l : List α) (R : Run σ) :
    R.Writes ⊆ (l.foldl f R).Writes := by
  induction l generalizing R with
  | nil => simp
  | cons x xs ih =>
    simp only [List.foldl_cons]
    exact List.Subset.trans (hf R x) (ih _)

theorem ExportStateMachines_Writes_subset {σ : Type} (E : Engine) (P : Platform σ)
    (OutputDir : FString) (Blueprint : UBlueprint) (R : Run σ) :
    R.Writes ⊆ (ExportBlueprint.ExportStateMachines E P OutputDir Blueprint R).Writes := by
  unfold ExportBlueprint.ExportStateMachines
  cases Blueprint.AnimBlueprint with
  | none => simp
  | some a =>
    simp only
    apply foldl_Writes_subset
    intro R' g
    by_cases h : FString.Contains g.Name (TEXT "AnimGraph") = true
    · simp only [h, if_true]
      exact foldl_Writes_subset _ (ExportStateMachineNode_Writes_subset E P OutputDir) _ _
    · simp [h]

theorem ExportBlueprint_Writes_ubergraph {σ : Type} (E : Engine) (P : Platform σ)
    (Blueprint : UBlueprint) (R : Run σ) (Graph : UEdGraph)
    (hGraph : Graph ∈ Blueprint.UbergraphPages) :
    ∃ w ∈ (ExportBlueprint E P (some Blueprint) R).2.Writes,
      w.Path = E.PathAppend (GetBlueprintOutputPath E Blueprint) (Graph.Name ++ TEXT ".txt") ∧
        ∃ Timestamp, w.Content = ExportGraph.Archive E Graph Timestamp := by
  simp only [ExportBlueprint]
  obtain ⟨w, hw, hPath, hContent⟩ :=
    ExportGraphs_Writes_mem E P (GetBlueprintOutputPath E Blueprint)
      (fun Graph => Graph.Name ++ TEXT ".txt") Blueprint.UbergraphPages
      (true, if !P.DirectoryExists (GetBlueprintOutputPath E Blueprint) R.State then
          { R with State := P.CreateDirectoryTree (GetBlueprintOutputPath E Blueprint) R.State }
        else R) Graph hGraph
  refine ⟨w, ?_, hPath, hContent⟩
  apply ExportStateMachines_Writes_subset
  apply GenerateMetadata_Writes_subset
  apply ExportGraphs_Writes_subset
  apply ExportGraphs_Writes_subset
  exact hw

theorem ExportBlueprint_Writes_function {σ : Type} (E : Engine) (P : Platform σ)
    (Blueprint : UBlueprint) (R : Run σ) (Graph : UEdGraph)
    (hGraph : Graph ∈ Blueprint.FunctionGraphs) :
    ∃ w ∈ (ExportBlueprint E P (some Blueprint) R).2.Writes,
      w.Path =
          E.PathAppend (GetBlueprintOutputPath E Blueprint)
            (TEXT "Function_" ++ Graph.Name ++ TEXT ".txt") ∧
        ∃ Timestamp, w.Content = ExportGraph.Archive E Graph Timestamp := by
  simp only [ExportBlueprint]
  obtain ⟨w, hw, hPath, hContent⟩ :=
    ExportGraphs_Writes_mem E P (GetBlueprintOutputPath E Blueprint)
      (fun Graph => TEXT "Function_" ++ Graph.Name ++ TEXT ".txt") Blueprint.FunctionGraphs
      (ExportBlueprint.ExportGraphs E P (GetBlueprintOutputPath E Blueprint)
        (fun Graph => Graph.Name ++ TEXT ".txt") Blueprint.UbergraphPages
        (true, if !P.DirectoryExists (GetBlueprintOutputPath E Blueprint) R.State then
            { R with State := P.CreateDirectoryTree (GetBlueprintOutputPath E Blueprint) R.State }
          else R)) Graph hGraph
  refine ⟨w, ?_, hPath, hContent⟩
  apply ExportStateMachines_Writes_subset
  apply GenerateMetadata_Writes_subset
  apply ExportGraphs_Writes_subset
  exact hw

/-! ## Fields of the metadata document -/

theorem GenerateAnimBlueprintMetadata_TryGetField (Blueprint : UBlueprint)
    (AnimBlueprint : Option UAnimBlueprint) (RootObject : FJsonObject) (k : FString)
    (h1 : TEXT "skeleton" ≠ k) (h2 : TEXT "state_machines" ≠ k) :
    (GenerateAnimBlueprintMetadata Blueprint AnimBlueprint RootObject).TryGetField k =
      RootObject.TryGetField k := by
  unfold GenerateAnimBlueprintMetadata
  cases AnimBlueprint with
  | none => rfl
  | some a =>
    cases hs : a.TargetSkeleton with
    | none =>
      simp [FJsonObject.SetArrayField, FJsonObject.TryGetField_SetField, h2, hs]
    | some n =>
      simp [FJsonObject.SetArrayField, FJsonObject.SetStringField,
        FJsonObject.TryGetField_SetField, h1, h2, hs]

theorem RootObject_graphs (E : Engine) (Blueprint : UBlueprint) :
    (GenerateMetadataForBlueprint.RootObject E Blueprint).TryGetField (TEXT "graphs") =
      some (FJsonValue.Object (GenerateMetadataForBlueprint.Graphs Blueprint)) := by
  unfold GenerateMetadataForBlueprint.RootObject
  cases Blueprint.AnimBlueprint with
  | none =>
    simp [FJsonObject.SetObjectField, FJsonObject.TryGetField_SetField]
  | some a =>
    simp only
    rw [GenerateAnimBlueprintMetadata_TryGetField _ _ _ _ (by decide) (by decide)]
    simp [FJsonObject.SetObjectField, FJsonObject.TryGetField_SetField]

theorem RootObject_functions (E : Engine) (Blueprint : UBlueprint) :
    (GenerateMetadataForBlueprint.RootObject E Blueprint).TryGetField (TEXT "functions") =
      some (FJsonValue.Array (GenerateFunctionsJson E Blueprint)) := by
  unfold GenerateMetadataForBlueprint.RootObject
  cases Blueprint.AnimBlueprint with
  | none =>
    simp +decide [FJsonObject.SetObjectField, FJsonObject.SetArrayField,
      FJsonObject.TryGetField_SetField]
  | some a =>
    simp only
    rw [GenerateAnimBlueprintMetadata_TryGetField _ _ _ _ (by decide) (by decide)]
    simp +decide [FJsonObject.SetObjectField, FJsonObject.SetArrayField,
      FJsonObject.TryGetField_SetField]

theorem RootObject_class_settings (E : Engine) (Blueprint : UBlueprint) :
    (GenerateMetadataForBlueprint.RootObject E Blueprint).TryGetField (TEXT "class_settings") =
      (GenerateClassSettingsJson Blueprint).map FJsonValue.Object := by
  have hvalid : ∃ o, GenerateClassSettingsJson Blueprint = some o := by
    unfold GenerateClassSettingsJson
    cases Blueprint.GeneratedClass with
    | Null => exact ⟨_, rfl⟩
    | Class n g d s =>
      cases d with
      | none => exact ⟨_, rfl⟩
      | some cdo =>
        cases hA : cdo.Actor with
        | none => simp only [hA]; exact ⟨_, rfl⟩
        | some a => simp only [hA]; exact ⟨_, rfl⟩
  obtain ⟨o, ho⟩ := hvalid
  unfold GenerateMetadataForBlueprint.RootObject
  rw [ho]
  have hV : ∃ v, GenerateVariablesJson E Blueprint = some v := ⟨_, rfl⟩
  have hC : ∃ c, GenerateComponentsJson Blueprint = some c := ⟨_, rfl⟩
  obtain ⟨v, hv⟩ := hV
  obtain ⟨c, hc⟩ := hC
  rw [hv, hc]
  cases Blueprint.AnimBlueprint with
  | none =>
    simp +decide [FJsonObject.SetObjectField, FJsonObject.SetArrayField,
      FJsonObject.TryGetField_SetField]
  | some a =>
    simp only
    rw [GenerateAnimBlueprintMetadata_TryGetField _ _ _ _ (by decide) (by decide)]
    simp +decide [FJsonObject.SetObjectField, FJsonObject.SetArrayField,
      FJsonObject.TryGetField_SetField]

theorem TEXT_eq_iff (a b : String) : TEXT a = TEXT b ↔ a = b := by
  unfold TEXT
  constructor
  · intro h
    exact String.ext h
  · intro h
    rw [h]

theorem foldl_append_singleton {α β : Type} (f : α → β) (l : List α) (init : List β) :
    l.foldl (fun acc x => acc ++ [f x]) init = init ++ l.map f := by
  induction l generalizing init with
  | nil => simp
  | cons x xs ih => simp [ih]

theorem foldl_SetStringField_mem {α : Type} (key val : α → FString) (l : List α)
    (o : FJsonObject) (p : FString × FJsonValue)
    (hp : p ∈ l.foldl (fun G x => FJsonObject.SetStringField G (key x) (val x)) o) :
    p ∈ o ∨ ∃ x ∈ l, p.2 = FJsonValue.String (val x) := by
  induction l generalizing o with
  | nil => exact Or.inl hp
  | cons x xs ih =>
    simp only [List.foldl_cons] at hp
    rcases ih _ hp with h | ⟨y, hy, hval⟩
    · rcases FJsonObject.mem_SetField _ _ _ _ h with h' | h'
      · exact Or.inl h'
      · exact Or.inr ⟨x, List.mem_cons_self _ _, h'⟩
    · exact Or.inr ⟨y, List.mem_cons_of_mem _ hy, hval⟩

theorem Graphs_mem (Blueprint : UBlueprint) (p : FString × FJsonValue)
    (hp : p ∈ GenerateMetadataForBlueprint.Graphs Blueprint) :
    (∃ g ∈ Blueprint.UbergraphPages, p.2 = FJsonValue.String (g.Name ++ TEXT ".txt")) ∨
      ∃ g ∈ Blueprint.FunctionGraphs,
        p.2 = FJsonValue.String (TEXT "Function_" ++ g.Name ++ TEXT ".txt") := by
  unfold GenerateMetadataForBlueprint.Graphs at hp
  rcases foldl_SetStringField_mem (fun g : UEdGraph => g.Name)
      (fun g : UEdGraph => TEXT "Function_" ++ g.Name ++ TEXT ".txt") _ _ p hp with h | h
  · rcases foldl_SetStringField_mem (fun g : UEdGraph => g.Name)
        (fun g : UEdGraph => g.Name ++ TEXT ".txt") _ _ p h with h' | h'
    · cases h'
    · exact Or.inl h'
  · exact Or.inr h

/-- Claim C3: every value of the `graphs` index of the metadata document is a
file name under which `ExportBlueprint` hands the text of an event graph or of a
function graph of the same blueprint to the writer. -/
theorem graphs_index_files_are_exported {σ : Type} (E : Engine) (P : Platform σ)
    (Blueprint : UBlueprint) (R : Run σ) (Graphs : FJsonObject)
    (hGraphs :
      (GenerateMetadataForBlueprint.RootObject E Blueprint).TryGetField (TEXT "graphs") =
        some (FJsonValue.Object Graphs))
    (Key : FString) (Value : FJsonValue) (hValue : (Key, Value) ∈ Graphs) :
    ∃ FileName Graph,
      Value = FJsonValue.String FileName ∧
        ((Graph ∈ Blueprint.UbergraphPages ∧ FileName = Graph.Name ++ TEXT ".txt") ∨
          (Graph ∈ Blueprint.FunctionGraphs ∧
            FileName = TEXT "Function_" ++ Graph.Name ++ TEXT ".txt")) ∧
        ∃ w ∈ (ExportBlueprint E P (some Blueprint) R).2.Writes,
          w.Path = E.PathAppend (GetBlueprintOutputPath E Blueprint) FileName ∧
            ∃ Timestamp, w.Content = ExportGraph.Archive E Graph Timestamp := by
  rw [RootObject_graphs] at hGraphs
  have hEq : GenerateMetadataForBlueprint.Graphs Blueprint = Graphs := by
    injection hGraphs with h
    injection h
  subst hEq
  rcases Graphs_mem Blueprint (Key, Value) hValue with ⟨g, hg, hval⟩ | ⟨g, hg, hval⟩
  · exact ⟨g.Name ++ TEXT ".txt", g, hval, Or.inl ⟨hg, rfl⟩,
      ExportBlueprint_Writes_ubergraph E P Blueprint R g hg⟩
  · exact ⟨TEXT "Function_" ++ g.Name ++ TEXT ".txt", g, hval, Or.inr ⟨hg, rfl⟩,
      ExportBlueprint_Writes_function E P Blueprint R g hg⟩

/-- Witness for `graphs_index_files_are_exported`: the index entry of the event
graph of a sample blueprint. -/
theorem graphs_index_files_are_exported_witness :
    ∃ FileName Graph,
      FJsonValue.String (TEXT "EventGraph.txt") = FJsonValue.String FileName ∧
        ((Graph ∈ SampleGraphsBlueprint.UbergraphPages ∧ FileName = Graph.Name ++ TEXT ".txt") ∨
          (Graph ∈ SampleGraphsBlueprint.FunctionGraphs ∧
            FileName = TEXT "Function_" ++ Graph.Name ++ TEXT ".txt")) ∧
        ∃ w ∈ (ExportBlueprint SampleEngine RefusingPlatform (some SampleGraphsBlueprint)
            (RefusingRun [])).2.Writes,
          w.Path =
              SampleEngine.PathAppend (GetBlueprintOutputPath SampleEngine SampleGraphsBlueprint)
                FileName ∧
            ∃ Timestamp, w.Content = ExportGraph.Archive SampleEngine Graph Timestamp :=
  graphs_index_files_are_exported SampleEngine RefusingPlatform SampleGraphsBlueprint
    (RefusingRun [])
    [(TEXT "EventGraph", FJsonValue.String (TEXT "EventGraph.txt")),
      (TEXT "Empty", FJsonValue.String (TEXT "Function_Empty.txt"))]
    rfl (TEXT "EventGraph") (FJsonValue.String (TEXT "EventGraph.txt")) (List.mem_cons_self _ _)

/-! ## Variable entries -/

theorem and_two_pow_bne_zero (x k : Nat) : (x &&& 2 ^ k != 0) = x.testBit k := by
  rw [Nat.and_two_pow]
  cases x.testBit k <;> simp

theorem GenerateVariablesJson_eq_map (E : Engine) (Blueprint : UBlueprint) :
    GenerateVariablesJson E Blueprint =
      some [(TEXT "list",
        FJsonValue.Array
          (Blueprint.NewVariables.map
            (fun Var => FJsonValue.Object (GenerateVariablesJson.VarObj E Var))))] := by
  unfold GenerateVariablesJson
  simp only [foldl_append_singleton, List.nil_append]
  rfl

theorem VarObj_flag_fields (E : Engine) (Var : FBPVariableDescription) :
    (GenerateVariablesJson.VarObj E Var).TryGetField (TEXT "replicated") =
        (if Var.PropertyFlags.testBit E.CPF_Net_Bit = true then some (FJsonValue.Boolean true)
          else none) ∧
      (GenerateVariablesJson.VarObj E Var).TryGetField (TEXT "rep_notify") =
        (if Var.PropertyFlags.testBit E.CPF_RepNotify_Bit = true then
          some (FJsonValue.Boolean true) else none) ∧
      (GenerateVariablesJson.VarObj E Var).TryGetField (TEXT "instance_editable") =
        some (FJsonValue.Boolean (Var.PropertyFlags.testBit E.CPF_Edit_Bit)) ∧
      (GenerateVariablesJson.VarObj E Var).TryGetField (TEXT "blueprint_read_only") =
        some (FJsonValue.Boolean (Var.PropertyFlags.testBit E.CPF_BlueprintReadOnly_Bit)) ∧
      (GenerateVariablesJson.VarObj E Var).TryGetField (TEXT "expose_on_spawn") =
        some (FJsonValue.Boolean (Var.PropertyFlags.testBit E.CPF_ExposeOnSpawn_Bit)) ∧
      (GenerateVariablesJson.VarObj E Var).TryGetField (TEXT "private") =
        some (FJsonValue.Boolean
          (Var.PropertyFlags.testBit E.CPF_DisableEditOnInstance_Bit)) := by
  cases hT : Var.Tooltip <;> cases hD : Var.DefaultValue.isEmpty <;>
    cases hN : Var.PropertyFlags.testBit E.CPF_Net_Bit <;>
    cases hR : Var.PropertyFlags.testBit E.CPF_RepNotify_Bit <;>
    simp only [GenerateVariablesJson.VarObj, Engine.CPF_Net, Engine.CPF_RepNotify,
      Engine.CPF_Edit, Engine.CPF_BlueprintReadOnly, Engine.CPF_ExposeOnSpawn,
      Engine.CPF_DisableEditOnInstance, and_two_pow_bne_zero, hT, hD, hN, hR,
      FJsonObject.SetBoolField, FJsonObject.SetStringField,
      FJsonObject.TryGetField_SetField, FJsonObject.TryGetField_nil, TEXT_eq_iff,
      String.reduceEq, if_false, if_true, Bool.not_true, Bool.not_false, Bool.false_eq_true,
      and_self]

/-- Claim C7: the `list` of `GenerateVariablesJson` has one entry per variable
declaration, and in each entry the flag fields mirror the property-flag bits:
`replicated` is present, and then true, exactly when the networking bit is
set, `rep_notify` is present, and then true, exactly when the
replication-notify bit is set, and `instance_editable`, `blueprint_read_only`,
`expose_on_spawn` and `private` are always present with the value of their
bit. In particular, when the six bits are distinct, a variable with only the
edit flag set has `instance_editable` true, the other three false, and neither
`replicated` nor `rep_notify`. -/
theorem GenerateVariablesJson_flags_mirror_bits (E : Engine) (Blueprint : UBlueprint) :
    GenerateVariablesJson E Blueprint =
        some [(TEXT "list",
          FJsonValue.Array
            (Blueprint.NewVariables.map
              (fun Var => FJsonValue.Object (GenerateVariablesJson.VarObj E Var))))] ∧
      ∀ Var : FBPVariableDescription,
        ((GenerateVariablesJson.VarObj E Var).TryGetField (TEXT "replicated") =
            (if Var.PropertyFlags.testBit E.CPF_Net_Bit = true then
              some (FJsonValue.Boolean true) else none) ∧
          (GenerateVariablesJson.VarObj E Var).TryGetField (TEXT "rep_notify") =
            (if Var.PropertyFlags.testBit E.CPF_RepNotify_Bit = true then
              some (FJsonValue.Boolean true) else none) ∧
          (GenerateVariablesJson.VarObj E Var).TryGetField (TEXT "instance_editable") =
            some (FJsonValue.Boolean (Var.PropertyFlags.testBit E.CPF_Edit_Bit)) ∧
          (GenerateVariablesJson.VarObj E Var).TryGetField (TEXT "blueprint_read_only") =
            some (FJsonValue.Boolean (Var.PropertyFlags.testBit E.CPF_BlueprintReadOnly_Bit)) ∧
          (GenerateVariablesJson.VarObj E Var).TryGetField (TEXT "expose_on_spawn") =
            some (FJsonValue.Boolean (Var.PropertyFlags.testBit E.CPF_ExposeOnSpawn_Bit)) ∧
          (GenerateVariablesJson.VarObj E Var).TryGetField (TEXT "private") =
            some (FJsonValue.Boolean
              (Var.PropertyFlags.testBit E.CPF_DisableEditOnInstance_Bit))) ∧
        (E.CPF_Edit_Bit ≠ E.CPF_Net_Bit → E.CPF_Edit_Bit ≠ E.CPF_RepNotify_Bit →
          E.CPF_Edit_Bit ≠ E.CPF_BlueprintReadOnly_Bit →
          E.CPF_Edit_Bit ≠ E.CPF_ExposeOnSpawn_Bit →
          E.CPF_Edit_Bit ≠ E.CPF_DisableEditOnInstance_Bit →
          Var.PropertyFlags = E.CPF_Edit →
          (GenerateVariablesJson.VarObj E Var).TryGetField (TEXT "instance_editable") =
              some (FJsonValue.Boolean true) ∧
            (GenerateVariablesJson.VarObj E Var).TryGetField (TEXT "blueprint_read_only") =
              some (FJsonValue.Boolean false) ∧
            (GenerateVariablesJson.VarObj E Var).TryGetField (TEXT "expose_on_spawn") =
              some (FJsonValue.Boolean false) ∧
            (GenerateVariablesJson.VarObj E Var).TryGetField (TEXT "private") =
              some (FJsonValue.Boolean false) ∧
            (GenerateVariablesJson.VarObj E Var).HasField (TEXT "replicated") = false ∧
            (GenerateVariablesJson.VarObj E Var).HasField (TEXT "rep_notify") = false) := by
  refine ⟨GenerateVariablesJson_eq_map E Blueprint, fun Var => ⟨VarObj_flag_fields E Var, ?_⟩⟩
  intro h1 h2 h3 h4 h5 hflags
  obtain ⟨f1, f2, f3, f4, f5, f6⟩ := VarObj_flag_fields E Var
  unfold FJsonObject.HasField
  rw [f1, f2, f3, f4, f5, f6, hflags]
  unfold Engine.CPF_Edit
  simp only [Nat.testBit_two_pow, h1, h2, h3, h4, h5, decide_False, decide_True, if_false,
    Option.isSome_none, Bool.false_eq_true, and_self]

/-- Witness for `GenerateVariablesJson_flags_mirror_bits`: the sample variable
with only the edit flag set. -/
theorem GenerateVariablesJson_flags_mirror_bits_witness :
    SampleEditVariable.PropertyFlags = SampleEngine.CPF_Edit ∧
      (GenerateVariablesJson.VarObj SampleEngine SampleEditVariable).TryGetField
          (TEXT "instance_editable") = some (FJsonValue.Boolean true) ∧
      (GenerateVariablesJson.VarObj SampleEngine SampleEditVariable).TryGetField
          (TEXT "blueprint_read_only") = some (FJsonValue.Boolean false) ∧
      (GenerateVariablesJson.VarObj SampleEngine SampleEditVariable).TryGetField
          (TEXT "expose_on_spawn") = some (FJsonValue.Boolean false) ∧
      (GenerateVariablesJson.VarObj SampleEngine SampleEditVariable).TryGetField
          (TEXT "private") = some (FJsonValue.Boolean false) ∧
      (GenerateVariablesJson.VarObj SampleEngine SampleEditVariable).HasField
          (TEXT "replicated") = false ∧
      (GenerateVariablesJson.VarObj SampleEngine SampleEditVariable).HasField
          (TEXT "rep_notify") = false :=
  ⟨by decide,
    ((GenerateVariablesJson_flags_mirror_bits SampleEngine SampleBlueprint).2
      SampleEditVariable).2 (by decide) (by decide) (by decide) (by decide) (by decide)
      (by decide)⟩

/-! ## Class settings -/

theorem GenerateClassSettingsJson_eq (Blueprint : UBlueprint) :
    GenerateClassSettingsJson Blueprint =
      some
        (match Blueprint.ActorCDO with
        | some ActorCDO =>
          [(TEXT "replicates", FJsonValue.Boolean ActorCDO.GetIsReplicated),
            (TEXT "always_relevant", FJsonValue.Boolean ActorCDO.bAlwaysRelevant),
            (TEXT "net_load_on_client", FJsonValue.Boolean ActorCDO.bNetLoadOnClient)]
        | none => []) := by
  unfold GenerateClassSettingsJson UBlueprint.ActorCDO
  cases Blueprint.GeneratedClass with
  | Null => rfl
  | Class n g d s =>
    cases d with
    | none => rfl
    | some cdo =>
      cases hA : cdo.Actor with
      | none => simp only [UClass.GetDefaultObject, hA]
      | some a =>
        simp only [UClass.GetDefaultObject, hA, FJsonObject.SetBoolField, FJsonObject.SetField,
          TEXT_eq_iff, String.reduceEq, if_false]

/-- Claim C9 as stated fails: a blueprint without a generated class still has a
`class_settings` field in its metadata document, holding the empty object. -/
theorem class_settings_present_without_generated_class :
    SampleBlueprint.GeneratedClass.IsValid = false ∧
      (GenerateMetadataForBlueprint.RootObject SampleEngine SampleBlueprint).HasField
          (TEXT "class_settings") = true ∧
      (GenerateMetadataForBlueprint.RootObject SampleEngine SampleBlueprint).TryGetField
          (TEXT "class_settings") = some (FJsonValue.Object []) :=
  ⟨rfl, rfl, rfl⟩

/-- Claim C9, amended: the metadata document of every blueprint has a
`class_settings` field. When the blueprint has no generated class, no default
instance, or a default instance that is not actor-capable, the field holds the
empty object; when the default instance is actor-capable it holds exactly the
three booleans `replicates`, `always_relevant` and `net_load_on_client`. -/
theorem class_settings_always_present (E : Engine) (Blueprint : UBlueprint) :
    (GenerateMetadataForBlueprint.RootObject E Blueprint).TryGetField (TEXT "class_settings") =
      some (FJsonValue.Object
        (match Blueprint.ActorCDO with
        | some ActorCDO =>
          [(TEXT "replicates", FJsonValue.Boolean ActorCDO.GetIsReplicated),
            (TEXT "always_relevant", FJsonValue.Boolean ActorCDO.bAlwaysRelevant),
            (TEXT "net_load_on_client", FJsonValue.Boolean ActorCDO.bNetLoadOnClient)]
        | none => [])) := by
  rw [RootObject_class_settings, GenerateClassSettingsJson_eq]
  rfl

/-! ## Function entries -/

theorem FJsonObject.Keys_SetField (o : FJsonObject) (k : FString) (v : FJsonValue) :
    (FJsonObject.SetField o k v).Keys = if k ∈ o.Keys then o.Keys else o.Keys ++ [k] := by
  induction o with
  | nil => simp [FJsonObject.SetField, FJsonObject.Keys]
  | cons p rest ih =>
    obtain ⟨k0, v0⟩ := p
    unfold FJsonObject.Keys at ih
    by_cases h0 : k0 = k
    · subst h0
      simp [FJsonObject.SetField, FJsonObject.Keys]
    · have hne : ¬ k = k0 := fun e => h0 e.symm
      by_cases hmem : k ∈ List.map Prod.fst rest
      · simp [FJsonObject.SetField, FJsonObject.Keys, h0, hne, hmem, ih]
      · simp [FJsonObject.SetField, FJsonObject.Keys, h0, hne, hmem, ih]

theorem FJsonObject.HasField_eq_mem_Keys (o : FJsonObject) (k : FString) :
    o.HasField k = decide (k ∈ o.Keys) := by
  induction o with
  | nil => simp [FJsonObject.HasField, FJsonObject.TryGetField, FJsonObject.Keys]
  | cons p rest ih =>
    obtain ⟨k0, v0⟩ := p
    unfold FJsonObject.HasField FJsonObject.Keys at ih
    by_cases h0 : k0 = k
    · subst h0
      simp [FJsonObject.HasField, FJsonObject.TryGetField, FJsonObject.Keys]
    · have hne : ¬ k = k0 := fun e => h0 e.symm
      simp [FJsonObject.HasField, FJsonObject.TryGetField, FJsonObject.Keys, h0, hne, ih]

theorem ScanEntry_Keys (E : Engine) (FuncObj : FJsonObject)
    (hKeys : FuncObj.Keys = [TEXT "name", TEXT "file"]) (Nodes : List UEdGraphNode) :
    (GenerateFunctionsJson.ScanEntry E FuncObj Nodes).Keys =
      if Nodes.any UEdGraphNode.IsFunctionEntry then
        [TEXT "name", TEXT "file", TEXT "access", TEXT "pure", TEXT "const", TEXT "inputs"]
      else [TEXT "name", TEXT "file"] := by
  induction Nodes with
  | nil => simp [GenerateFunctionsJson.ScanEntry, hKeys]
  | cons n ns ih =>
    cases n with
    | K2Node_FunctionEntry flags pins =>
      simp only [GenerateFunctionsJson.ScanEntry, FJsonObject.SetStringField,
        FJsonObject.SetBoolField, FJsonObject.SetArrayField, FJsonObject.Keys_SetField, hKeys,
        List.any_cons, UEdGraphNode.IsFunctionEntry, Bool.true_or, if_true]
      decide
    | Generic d =>
      simpa [GenerateFunctionsJson.ScanEntry, UEdGraphNode.IsFunctionEntry] using ih
    | K2Node_Event t =>
      simpa [GenerateFunctionsJson.ScanEntry, UEdGraphNode.IsFunctionEntry] using ih
    | K2Node_FunctionResult pins =>
      simpa [GenerateFunctionsJson.ScanEntry, UEdGraphNode.IsFunctionEntry] using ih
    | AnimGraphNode_StateMachine t sub =>
      simpa [GenerateFunctionsJson.ScanEntry, UEdGraphNode.IsFunctionEntry] using ih

theorem FuncObj_Keys (E : Engine) (Graph : UEdGraph) :
    (GenerateFunctionsJson.FuncObj E Graph).Keys =
      if Graph.Nodes.any UEdGraphNode.IsFunctionEntry then
        [TEXT "name", TEXT "file", TEXT "access", TEXT "pure", TEXT "const", TEXT "inputs",
          TEXT "outputs"]
      else [TEXT "name", TEXT "file", TEXT "outputs"] := by
  unfold GenerateFunctionsJson.FuncObj
  simp only [FJsonObject.SetArrayField, FJsonObject.Keys_SetField]
  have hKeys :
      ((FJsonObject.SetStringField [] (TEXT "name") Graph.Name).SetStringField (TEXT "file")
        (TEXT "Function_" ++ Graph.Name ++ TEXT ".txt")).Keys = [TEXT "name", TEXT "file"] := by
    simp only [FJsonObject.SetStringField, FJsonObject.SetField, TEXT_eq_iff, String.reduceEq,
      if_false, FJsonObject.Keys, List.map]
  rw [ScanEntry_Keys E _ hKeys Graph.Nodes]
  cases Graph.Nodes.any UEdGraphNode.IsFunctionEntry <;> decide

theorem GenerateFunctionsJson_eq_map (E : Engine) (Blueprint : UBlueprint) :
    GenerateFunctionsJson E Blueprint =
      Blueprint.FunctionGraphs.map
        (fun Graph => FJsonValue.Object (GenerateFunctionsJson.FuncObj E Graph)) := by
  unfold GenerateFunctionsJson
  simp only [foldl_append_singleton, List.nil_append]

/-- Claim C10 as stated fails: the entry of a function graph without a
function-entry node has only the fields `name`, `file` and `outputs`. -/
theorem functions_entry_without_entry_node_lacks_fields :
    SampleEmptyGraph ∈ SampleFunctionBlueprint.FunctionGraphs ∧
      (GenerateMetadataForBlueprint.RootObject SampleEngine SampleFunctionBlueprint).TryGetField
          (TEXT "functions") =
        some (FJsonValue.Array
          [FJsonValue.Object
            [(TEXT "name", FJsonValue.String (TEXT "Empty")),
              (TEXT "file", FJsonValue.String (TEXT "Function_Empty.txt")),
              (TEXT "outputs", FJsonValue.Array [])]]) ∧
      (GenerateFunctionsJson.FuncObj SampleEngine SampleEmptyGraph).HasField (TEXT "access") =
        false ∧
      (GenerateFunctionsJson.FuncObj SampleEngine SampleEmptyGraph).HasField (TEXT "pure") =
        false ∧
      (GenerateFunctionsJson.FuncObj SampleEngine SampleEmptyGraph).HasField (TEXT "const") =
        false ∧
      (GenerateFunctionsJson.FuncObj SampleEngine SampleEmptyGraph).HasField (TEXT "inputs") =
        false :=
  ⟨List.mem_cons_self _ _, rfl, rfl, rfl, rfl, rfl⟩

/-- Claim C10, amended: the `functions` array has one entry per function graph,
in order; every entry carries `name`, `file` and `outputs`; and the entry of a
function graph that contains a function-entry node carries exactly the seven
fields `name`, `file`, `access`, `pure`, `const`, `inputs` and `outputs`. -/
theorem functions_entry_fields (E : Engine) (Blueprint : UBlueprint) :
    (GenerateMetadataForBlueprint.RootObject E Blueprint).TryGetField (TEXT "functions") =
        some (FJsonValue.Array
          (Blueprint.FunctionGraphs.map
            (fun Graph => FJsonValue.Object (GenerateFunctionsJson.FuncObj E Graph)))) ∧
      ∀ Graph : UEdGraph,
        (GenerateFunctionsJson.FuncObj E Graph).HasField (TEXT "name") = true ∧
          (GenerateFunctionsJson.FuncObj E Graph).HasField (TEXT "file") = true ∧
          (GenerateFunctionsJson.FuncObj E Graph).HasField (TEXT "outputs") = true ∧
          (Graph.Nodes.any UEdGraphNode.IsFunctionEntry = true →
            (GenerateFunctionsJson.FuncObj E Graph).Keys =
              [TEXT "name", TEXT "file", TEXT "access", TEXT "pure", TEXT "const",
                TEXT "inputs", TEXT "outputs"]) := by
  refine ⟨?_, fun Graph => ?_⟩
  · rw [RootObject_functions, GenerateFunctionsJson_eq_map]
  · simp only [FJsonObject.HasField_eq_mem_Keys, FuncObj_Keys]
    cases Graph.Nodes.any UEdGraphNode.IsFunctionEntry
    · exact ⟨by decide, by decide, by decide, fun h => Bool.noConfusion h⟩
    · exact ⟨by decide, by decide, by decide, fun _ => rfl⟩

/-- Witness for `functions_entry_fields`: a function graph whose second node is
its function-entry node. -/
theorem functions_entry_fields_witness :
    SampleEntryGraph.Nodes.any UEdGraphNode.IsFunctionEntry = true ∧
      (GenerateFunctionsJson.FuncObj SampleEngine SampleEntryGraph).Keys =
        [TEXT "name", TEXT "file", TEXT "access", TEXT "pure", TEXT "const", TEXT "inputs",
          TEXT "outputs"] :=
  ⟨by decide,
    ((functions_entry_fields SampleEngine SampleBlueprint).2 SampleEntryGraph).2.2.2
      (by decide)⟩

/-! ## The animation part: evaluations -/

/-- Claim C2, the code at the failing input: for a state machine titled `A*B`
the metadata document records the file `StateMachine_A*B.txt`, while the three
paths that `ExportBlueprint` hands to the writer are those of
`Function_AnimGraph.txt`, `_meta.json` and `StateMachine_A_B.txt`. -/
theorem state_machine_file_field_differs_from_written_file :
    (GenerateMetadataForBlueprint.RootObject SampleEngine
          (SampleAnimBlueprint (TEXT "A*B"))).TryGetField (TEXT "state_machines") =
        some (FJsonValue.Array
          [FJsonValue.Object
            [(TEXT "name", FJsonValue.String (TEXT "A*B")),
              (TEXT "file", FJsonValue.String (TEXT "StateMachine_A*B.txt"))]]) ∧
      (ExportBlueprint SampleEngine RefusingPlatform (some (SampleAnimBlueprint (TEXT "A*B")))
          (RefusingRun [])).2.Writes.map FileWrite.Path =
        [TEXT "Project/Docs/.context/Game/BP_Hero/Function_AnimGraph.txt",
          TEXT "Project/Docs/.context/Game/BP_Hero/_meta.json",
          TEXT "Project/Docs/.context/Game/BP_Hero/StateMachine_A_B.txt"] ∧
      SampleEngine.PathAppend
          (GetBlueprintOutputPath SampleEngine (SampleAnimBlueprint (TEXT "A*B")))
          (TEXT "StateMachine_A*B.txt") ∉
        (ExportBlueprint SampleEngine RefusingPlatform (some (SampleAnimBlueprint (TEXT "A*B")))
          (RefusingRun [])).2.Writes.map FileWrite.Path :=
  ⟨rfl, by decide, by decide⟩

/-- Claim C5, the code at the failing input: the writer refuses the file of the
state-machine sub-graph, so that export fails, and `ExportBlueprint` still
returns true after attempting it. -/
theorem ExportBlueprint_true_despite_failed_state_machine_export :
    (ExportGraph SampleEngine RefusingPlatform (some SampleStateMachineGraph) SampleOutputDir
          (TEXT "StateMachine_Locomotion.txt")
          (RefusingRun
            [TEXT "Project/Docs/.context/Game/BP_Hero/StateMachine_Locomotion.txt"])).1 =
        false ∧
      (ExportBlueprint SampleEngine RefusingPlatform
          (some (SampleAnimBlueprint (TEXT "Locomotion")))
          (RefusingRun
            [TEXT "Project/Docs/.context/Game/BP_Hero/StateMachine_Locomotion.txt"])).2.Writes.map
          FileWrite.Path =
        [TEXT "Project/Docs/.context/Game/BP_Hero/Function_AnimGraph.txt",
          TEXT "Project/Docs/.context/Game/BP_Hero/_meta.json",
          TEXT "Project/Docs/.context/Game/BP_Hero/StateMachine_Locomotion.txt"] ∧
      (ExportBlueprint SampleEngine RefusingPlatform
          (some (SampleAnimBlueprint (TEXT "Locomotion")))
          (RefusingRun
            [TEXT "Project/Docs/.context/Game/BP_Hero/StateMachine_Locomotion.txt"])).1 =
        true := by
  decide

/-! ## Marker order of the type-name renderer -/

/-- Claim C11: `PinTypeToString` applies class-name replacement, pointer marker,
array wrapper and reference marker in this order, each at most once. The
rendered string is the base token, then `*` exactly when the category is object
or class, the whole wrapped in the array wrapper exactly when the array flag is
set, then `&` exactly when the reference flag is set. Hence the pointer marker
sits inside the wrapper directly before its closing `>`, the reference marker
is the last character, outside the wrapper, and with no referenced class, a
category that is neither object nor class and both flags clear the result is
the raw category token. -/
theorem PinTypeToString_marker_order (E : Engine) (PinType : FEdGraphPinType) :
    PinTypeToString E PinType =
        (if PinType.IsArray then
            TEXT "TArray<" ++
              (PinTypeToString.Base PinType ++
                (if PinType.IsObjectOrClass E then TEXT "*" else [])) ++ TEXT ">"
          else
            PinTypeToString.Base PinType ++
              (if PinType.IsObjectOrClass E then TEXT "*" else [])) ++
          (if PinType.bIsReference then TEXT "&" else []) ∧
      (PinType.IsArray = true → PinType.IsObjectOrClass E = true →
        PinTypeToString E PinType =
          TEXT "TArray<" ++ PinTypeToString.Base PinType ++ TEXT "*>" ++
            (if PinType.bIsReference then TEXT "&" else [])) ∧
      (PinType.bIsReference = true → (PinTypeToString E PinType).getLast? = some '&') ∧
      (PinType.PinSubCategoryObject = none → PinType.IsObjectOrClass E = false →
        PinType.IsArray = false → PinType.bIsReference = false →
        PinTypeToString E PinType = PinType.PinCategory.ToString) := by
  have hmain :
      PinTypeToString E PinType =
        (if PinType.IsArray then
            TEXT "TArray<" ++
              (PinTypeToString.Base PinType ++
                (if PinType.IsObjectOrClass E then TEXT "*" else [])) ++ TEXT ">"
          else
            PinTypeToString.Base PinType ++
              (if PinType.IsObjectOrClass E then TEXT "*" else [])) ++
          (if PinType.bIsReference then TEXT "&" else []) := by
    unfold PinTypeToString PinTypeToString.Base FEdGraphPinType.IsObjectOrClass
    cases PinType.IsArray <;> cases PinType.bIsReference <;>
      cases (PinType.PinCategory.Eq E.PC_Object || PinType.PinCategory.Eq E.PC_Class) <;>
      simp
  refine ⟨hmain, ?_, ?_, ?_⟩
  · intro hArray hPointer
    rw [hmain, hArray, hPointer]
    simp only [if_true, List.append_assoc]
    rfl
  · intro hRef
    rw [hmain, hRef]
    simp only [if_true]
    exact List.getLast?_concat _
  · intro hSub hPointer hArray hRef
    rw [hmain, hArray, hRef, hPointer]
    simp [PinTypeToString.Base, hSub]

/-- Witness for `PinTypeToString_marker_order`: a reference to an array of actor
objects renders as `TArray<Actor*>&`, ending in `&`, and a plain integer
renders as its category token. -/
theorem PinTypeToString_marker_order_witness :
    (PinTypeToString SampleEngine SampleActorArrayRefType =
        TEXT "TArray<" ++ PinTypeToString.Base SampleActorArrayRefType ++ TEXT "*>" ++
          (if SampleActorArrayRefType.bIsReference then TEXT "&" else [])) ∧
      (PinTypeToString SampleEngine SampleActorArrayRefType).getLast? = some '&' ∧
      PinTypeToString SampleEngine SampleIntType = TEXT "int" :=
  ⟨(PinTypeToString_marker_order SampleEngine SampleActorArrayRefType).2.1 (by decide)
      (by decide),
    (PinTypeToString_marker_order SampleEngine SampleActorArrayRefType).2.2.1 (by decide),
    (PinTypeToString_marker_order SampleEngine SampleIntType).2.2.2 rfl (by decide) (by decide)
      (by decide)⟩

/-! ## The metadata document as a list of fields -/

theorem FJsonObject.SetField_nil (k : FString) (v : FJsonValue) :
    FJsonObject.SetField [] k v = [(k, v)] := rfl

theorem FJsonObject.SetField_cons (k0 : FString) (v0 : FJsonValue) (rest : FJsonObject)
    (k : FString) (v : FJsonValue) :
    FJsonObject.SetField ((k0, v0) :: rest) k v =
      if k0 = k then (k0, v) :: rest else (k0, v0) :: FJsonObject.SetField rest k v := rfl

theorem FJsonObject.TryGetField_cons (k0 : FString) (v0 : FJsonValue) (rest : FJsonObject)
    (k : FString) :
    FJsonObject.TryGetField ((k0, v0) :: rest) k =
      if k0 = k then some v0 else FJsonObject.TryGetField rest k := rfl

theorem FJsonObject.TryGetField_append (a b : FJsonObject) (k : FString) :
    FJsonObject.TryGetField (a ++ b) k =
      (FJsonObject.TryGetField a k).or (FJsonObject.TryGetField b k) := by
  induction a with
  | nil => simp [FJsonObject.TryGetField_nil]
  | cons p rest ih =>
    obtain ⟨k0, v0⟩ := p
    by_cases h : k0 = k
    · simp [FJsonObject.TryGetField_cons, h]
    · simp [FJsonObject.TryGetField_cons, h, ih]

theorem RootObject_eq (E : Engine) (Blueprint : UBlueprint) :
    ∃ ClassSettings Variables Components,
      GenerateClassSettingsJson Blueprint = some ClassSettings ∧
      GenerateVariablesJson E Blueprint = some Variables ∧
      GenerateComponentsJson Blueprint = some Components ∧
      GenerateMetadataForBlueprint.RootObject E Blueprint =
        [(TEXT "name", FJsonValue.String Blueprint.Name),
          (TEXT "path", FJsonValue.String Blueprint.PackageName),
          (TEXT "type", FJsonValue.String
            (if Blueprint.BlueprintType = EBlueprintType.BPTYPE_Interface then
              TEXT "BlueprintInterface"
            else if Blueprint.AnimBlueprint.isSome then TEXT "AnimBlueprint"
            else TEXT "Blueprint"))] ++
        (if Blueprint.ParentClass.IsValid then
          [(TEXT "parent", FJsonValue.String Blueprint.ParentClass.GetName)] else []) ++
        [(TEXT "cpp_chain", FJsonValue.Array
            (if Blueprint.ParentClass.IsValid then
              GenerateMetadataForBlueprint.CppChain Blueprint.ParentClass [] else [])),
          (TEXT "class_settings", FJsonValue.Object ClassSettings),
          (TEXT "interfaces", FJsonValue.Array (GenerateInterfacesJson Blueprint)),
          (TEXT "variables", FJsonValue.Object Variables),
          (TEXT "components", FJsonValue.Object Components),
          (TEXT "functions", FJsonValue.Array (GenerateFunctionsJson E Blueprint)),
          (TEXT "event_dispatchers", FJsonValue.Array (GenerateEventDispatchersJson E Blueprint)),
          (TEXT "events", FJsonValue.Array
            (GenerateMetadataForBlueprint.Events Blueprint.UbergraphPages)),
          (TEXT "graphs", FJsonValue.Object (GenerateMetadataForBlueprint.Graphs Blueprint))] ++
        (match Blueprint.AnimBlueprint with
        | some AnimBlueprint =>
          (match AnimBlueprint.TargetSkeleton with
            | some SkeletonName => [(TEXT "skeleton", FJsonValue.String SkeletonName)]
            | none => []) ++
            [(TEXT "state_machines", FJsonValue.Array
              (GenerateAnimBlueprintMetadata.StateMachinesArray Blueprint.FunctionGraphs))]
        | none => []) := by
  obtain ⟨cs, hcs⟩ : ∃ o, GenerateClassSettingsJson Blueprint = some o :=
    ⟨_, GenerateClassSettingsJson_eq Blueprint⟩
  obtain ⟨v, hv⟩ : ∃ v, GenerateVariablesJson E Blueprint = some v := ⟨_, rfl⟩
  obtain ⟨c, hc⟩ : ∃ c, GenerateComponentsJson Blueprint = some c := ⟨_, rfl⟩
  refine ⟨cs, v, c, hcs, hv, hc, ?_⟩
  unfold GenerateMetadataForBlueprint.RootObject
  rw [hcs, hv, hc]
  cases hP : Blueprint.ParentClass.IsValid <;> cases hA : Blueprint.AnimBlueprint with
  | none =>
    simp only [FJsonObject.SetStringField, FJsonObject.SetArrayField,
      FJsonObject.SetObjectField, FJsonObject.SetField_nil, FJsonObject.SetField_cons,
      TEXT_eq_iff, String.reduceEq, if_false, if_true, Bool.false_eq_true, List.cons_append,
      List.nil_append, List.append_nil]
  | some a =>
    cases hS : a.TargetSkeleton <;>
    simp only [GenerateAnimBlueprintMetadata, hS, FJsonObject.SetStringField,
      FJsonObject.SetArrayField, FJsonObject.SetObjectField, FJsonObject.SetField_nil,
      FJsonObject.SetField_cons, TEXT_eq_iff, String.reduceEq, if_false, if_true,
      Bool.false_eq_true, List.cons_append, List.nil_append, List.append_nil]

theorem RootObject_type (E : Engine) (Blueprint : UBlueprint) :
    (GenerateMetadataForBlueprint.RootObject E Blueprint).TryGetField (TEXT "type") =
      some (FJsonValue.String
        (if Blueprint.BlueprintType = EBlueprintType.BPTYPE_Interface then
          TEXT "BlueprintInterface"
        else if Blueprint.AnimBlueprint.isSome then TEXT "AnimBlueprint"
        else TEXT "Blueprint")) := by
  obtain ⟨cs, v, c, -, -, -, h⟩ := RootObject_eq E Blueprint
  rw [h]
  simp only [List.append_assoc, List.cons_append, List.nil_append,
    FJsonObject.TryGetField_cons, TEXT_eq_iff, String.reduceEq, if_false, if_true]

theorem RootObject_cpp_chain (E : Engine) (Blueprint : UBlueprint) :
    (GenerateMetadataForBlueprint.RootObject E Blueprint).TryGetField (TEXT "cpp_chain") =
      some (FJsonValue.Array
        (if Blueprint.ParentClass.IsValid then
          GenerateMetadataForBlueprint.CppChain Blueprint.ParentClass [] else [])) := by
  obtain ⟨cs, v, c, -, -, -, h⟩ := RootObject_eq E Blueprint
  rw [h]
  cases Blueprint.ParentClass.IsValid <;>
    simp only [List.append_assoc, List.cons_append, List.nil_append, Bool.false_eq_true,
      FJsonObject.TryGetField_cons, TEXT_eq_iff, String.reduceEq, if_false, if_true]

theorem RootObject_events (E : Engine) (Blueprint : UBlueprint) :
    (GenerateMetadataForBlueprint.RootObject E Blueprint).TryGetField (TEXT "events") =
      some (FJsonValue.Array (GenerateMetadataForBlueprint.Events Blueprint.UbergraphPages)) := by
  obtain ⟨cs, v, c, -, -, -, h⟩ := RootObject_eq E Blueprint
  rw [h]
  cases Blueprint.ParentClass.IsValid <;>
    simp only [List.append_assoc, List.cons_append, List.nil_append, Bool.false_eq_true,
      FJsonObject.TryGetField_cons, TEXT_eq_iff, String.reduceEq, if_false, if_true]

theorem RootObject_state_machines (E : Engine) (Blueprint : UBlueprint) :
    (GenerateMetadataForBlueprint.RootObject E Blueprint).TryGetField (TEXT "state_machines") =
      match Blueprint.AnimBlueprint with
      | some _ =>
        some (FJsonValue.Array
          (GenerateAnimBlueprintMetadata.StateMachinesArray Blueprint.FunctionGraphs))
      | none => none := by
  obtain ⟨cs, v, c, -, -, -, h⟩ := RootObject_eq E Blueprint
  rw [h]
  cases Blueprint.ParentClass.IsValid <;> cases Blueprint.AnimBlueprint with
  | none =>
    simp only [List.append_assoc, List.cons_append, List.nil_append, List.append_nil,
      Bool.false_eq_true, FJsonObject.TryGetField_cons, FJsonObject.TryGetField_nil,
      TEXT_eq_iff, String.reduceEq, if_false, if_true]
  | some a =>
    cases hS : a.TargetSkeleton <;>
    simp only [hS, List.append_assoc, List.cons_append, List.nil_append, List.append_nil,
      Bool.false_eq_true, FJsonObject.TryGetField_cons, FJsonObject.TryGetField_nil,
      TEXT_eq_iff, String.reduceEq, if_false, if_true]

/-! ## Kind, class chain and events -/

/-- Claim C14: the `type` field is `BlueprintInterface` whenever the blueprint is
of interface kind, also when it is an animation blueprint as well; it is
`AnimBlueprint` when the blueprint is an animation blueprint and not of
interface kind; and it is `Blueprint` otherwise. -/
theorem type_field_resolution (E : Engine) (Blueprint : UBlueprint) :
    (Blueprint.BlueprintType = EBlueprintType.BPTYPE_Interface →
        (GenerateMetadataForBlueprint.RootObject E Blueprint).TryGetField (TEXT "type") =
          some (FJsonValue.String (TEXT "BlueprintInterface"))) ∧
      (Blueprint.BlueprintType ≠ EBlueprintType.BPTYPE_Interface →
        Blueprint.AnimBlueprint.isSome = true →
        (GenerateMetadataForBlueprint.RootObject E Blueprint).TryGetField (TEXT "type") =
          some (FJsonValue.String (TEXT "AnimBlueprint"))) ∧
      (Blueprint.BlueprintType ≠ EBlueprintType.BPTYPE_Interface →
        Blueprint.AnimBlueprint.isSome = false →
        (GenerateMetadataForBlueprint.RootObject E Blueprint).TryGetField (TEXT "type") =
          some (FJsonValue.String (TEXT "Blueprint"))) := by
  refine ⟨fun h => ?_, fun h hA => ?_, fun h hA => ?_⟩
  · rw [RootObject_type, if_pos h]
  · rw [RootObject_type, if_neg h, if_pos hA]
  · rw [RootObject_type, if_neg h, hA]
    rfl

/-- Witness for `type_field_resolution`: an animation blueprint of interface kind
is a `BlueprintInterface`, an animation blueprint of normal kind an
`AnimBlueprint`, and a plain blueprint a `Blueprint`. -/
theorem type_field_resolution_witness :
    (GenerateMetadataForBlueprint.RootObject SampleEngine
          SampleInterfaceAnimBlueprint).TryGetField (TEXT "type") =
        some (FJsonValue.String (TEXT "BlueprintInterface")) ∧
      (GenerateMetadataForBlueprint.RootObject SampleEngine
          (SampleAnimBlueprint (TEXT "Locomotion"))).TryGetField (TEXT "type") =
        some (FJsonValue.String (TEXT "AnimBlueprint")) ∧
      (GenerateMetadataForBlueprint.RootObject SampleEngine SampleBlueprint).TryGetField
          (TEXT "type") =
        some (FJsonValue.String (TEXT "Blueprint")) :=
  ⟨(type_field_resolution SampleEngine SampleInterfaceAnimBlueprint).1 (by decide),
    (type_field_resolution SampleEngine (SampleAnimBlueprint (TEXT "Locomotion"))).2.1
      (by decide) (by decide),
    (type_field_resolution SampleEngine SampleBlueprint).2.2 (by decide) (by decide)⟩

theorem CppChain_eq (Class : UClass) (CppChainArray : List FJsonValue) :
    GenerateMetadataForBlueprint.CppChain Class CppChainArray =
      CppChainArray ++
        (Class.SuperChain.filter (fun c => !c.2)).map
          (fun c => FJsonValue.Object [(TEXT "name", FJsonValue.String c.1)]) := by
  induction Class generalizing CppChainArray with
  | Null => simp [GenerateMetadataForBlueprint.CppChain, UClass.SuperChain]
  | Class n g d s ih =>
    cases g <;>
      simp [GenerateMetadataForBlueprint.CppChain, UClass.SuperChain, ih,
        FJsonObject.SetStringField, FJsonObject.SetField_nil]

/-- Claim C18: the class-chain walk is a total function of the parent class, and
`cpp_chain` holds exactly the classes of the chain parent class, its
superclass, and so on up to the root, that were not generated by a blueprint,
each as an object with its simple name, nearest ancestor first; the array is
empty when the blueprint has no parent class. -/
theorem cpp_chain_lists_native_ancestors (E : Engine) (Blueprint : UBlueprint) :
    (GenerateMetadataForBlueprint.RootObject E Blueprint).TryGetField (TEXT "cpp_chain") =
        some (FJsonValue.Array
          ((Blueprint.ParentClass.SuperChain.filter (fun c => !c.2)).map
            (fun c => FJsonValue.Object [(TEXT "name", FJsonValue.String c.1)]))) ∧
      (Blueprint.ParentClass.IsValid = false →
        (GenerateMetadataForBlueprint.RootObject E Blueprint).TryGetField (TEXT "cpp_chain") =
          some (FJsonValue.Array [])) := by
  have hmain :
      (GenerateMetadataForBlueprint.RootObject E Blueprint).TryGetField (TEXT "cpp_chain") =
        some (FJsonValue.Array
          ((Blueprint.ParentClass.SuperChain.filter (fun c => !c.2)).map
            (fun c => FJsonValue.Object [(TEXT "name", FJsonValue.String c.1)]))) := by
    rw [RootObject_cpp_chain]
    cases hP : Blueprint.ParentClass with
    | Null => rfl
    | Class n g d s =>
      simp only [UClass.IsValid, if_true, CppChain_eq, List.nil_append]
  refine ⟨hmain, fun hP => ?_⟩
  rw [hmain]
  cases hC : Blueprint.ParentClass with
  | Null => rfl
  | Class n g d s =>
    rw [hC] at hP
    exact Bool.noConfusion hP

/-- Witness for `cpp_chain_lists_native_ancestors`: a blueprint without a parent
class has an empty chain, and a blueprint whose parent was generated by a
blueprint on top of `Character` and `Pawn` lists those two, in this order. -/
theorem cpp_chain_lists_native_ancestors_witness :
    (GenerateMetadataForBlueprint.RootObject SampleEngine SampleBlueprint).TryGetField
          (TEXT "cpp_chain") = some (FJsonValue.Array []) ∧
      (GenerateMetadataForBlueprint.RootObject SampleEngine SampleChildBlueprint).TryGetField
          (TEXT "cpp_chain") =
        some (FJsonValue.Array
          [FJsonValue.Object [(TEXT "name", FJsonValue.String (TEXT "Character"))],
            FJsonValue.Object [(TEXT "name", FJsonValue.String (TEXT "Pawn"))]]) :=
  ⟨(cpp_chain_lists_native_ancestors SampleEngine SampleBlueprint).2 rfl,
    (cpp_chain_lists_native_ancestors SampleEngine SampleChildBlueprint).1.trans rfl⟩

theorem Events_nodes_eq (Nodes : List UEdGraphNode) (Events : List FJsonValue) :
    Nodes.foldl
        (fun Events Node =>
          match Node with
          | UEdGraphNode.K2Node_Event FullTitle => Events ++ [FJsonValue.String FullTitle]
          | _ => Events)
        Events =
      Events ++ (Nodes.filterMap UEdGraphNode.EventTitle).map FJsonValue.String := by
  induction Nodes generalizing Events with
  | nil => simp
  | cons n ns ih =>
    cases n <;> simp [ih, UEdGraphNode.EventTitle]

theorem Events_eq (UbergraphPages : List UEdGraph) :
    GenerateMetadataForBlueprint.Events UbergraphPages =
      (UbergraphPages.flatMap
        (fun Graph => Graph.Nodes.filterMap UEdGraphNode.EventTitle)).map FJsonValue.String := by
  unfold GenerateMetadataForBlueprint.Events
  simp only [Events_nodes_eq]
  have h : ∀ (l : List UEdGraph) (acc : List FJsonValue),
      l.foldl
          (fun Events Graph =>
            Events ++ (Graph.Nodes.filterMap UEdGraphNode.EventTitle).map FJsonValue.String) acc =
        acc ++
          (l.flatMap
            (fun Graph => Graph.Nodes.filterMap UEdGraphNode.EventTitle)).map
            FJsonValue.String := by
    intro l
    induction l with
    | nil => simp
    | cons g gs ih =>
      intro acc
      simp [ih, List.flatMap_cons]
  rw [h]
  simp

/-- Claim C19: the `events` array lists the full titles of the event nodes of the
event graphs, graph by graph in the order of the event graphs and, within a
graph, in node order; other nodes add nothing. For the blueprint with one
event graph `EventGraph` of three nodes, one of them the event node
`BeginPlay`, no functions and no variables, the document has events
`["BeginPlay"]`, graphs mapping `EventGraph` to `EventGraph.txt`, an empty
variable list and no functions. -/
theorem events_list_event_node_titles (E : Engine) (Blueprint : UBlueprint) :
    (GenerateMetadataForBlueprint.RootObject E Blueprint).TryGetField (TEXT "events") =
        some (FJsonValue.Array
          ((Blueprint.UbergraphPages.flatMap
            (fun Graph => Graph.Nodes.filterMap UEdGraphNode.EventTitle)).map
            FJsonValue.String)) ∧
      SampleEventGraph.Nodes.length = 3 ∧
      (GenerateMetadataForBlueprint.RootObject SampleEngine SampleEventBlueprint).TryGetField
          (TEXT "events") = some (FJsonValue.Array [FJsonValue.String (TEXT "BeginPlay")]) ∧
      (GenerateMetadataForBlueprint.RootObject SampleEngine SampleEventBlueprint).TryGetField
          (TEXT "graphs") =
        some (FJsonValue.Object
          [(TEXT "EventGraph", FJsonValue.String (TEXT "EventGraph.txt"))]) ∧
      (GenerateMetadataForBlueprint.RootObject SampleEngine SampleEventBlueprint).TryGetField
          (TEXT "variables") =
        some (FJsonValue.Object [(TEXT "list", FJsonValue.Array [])]) ∧
      (GenerateMetadataForBlueprint.RootObject SampleEngine SampleEventBlueprint).TryGetField
          (TEXT "functions") = some (FJsonValue.Array []) := by
  refine ⟨?_, rfl, rfl, rfl, rfl, rfl⟩
  rw [RootObject_events, Events_eq]

/-! ## Function entries: access, purity and signature -/

theorem PinsJson_eq (E : Engine) (Direction : EEdGraphPinDirection) (Pins : List UEdGraphPin) :
    PinsJson E Direction Pins =
      (Pins.filter (IsSignaturePin E Direction)).map (SignaturePinObj E) := by
  unfold PinsJson
  have h : ∀ (l : List UEdGraphPin) (acc : List FJsonValue),
      l.foldl
          (fun Array Pin =>
            if IsSignaturePin E Direction Pin then
              Array ++
                [FJsonValue.Object
                  (FJsonObject.SetStringField
                    (FJsonObject.SetStringField [] (TEXT "name") Pin.PinName.ToString)
                    (TEXT "type") (PinTypeToString E Pin.PinType))]
            else Array) acc =
        acc ++ (l.filter (IsSignaturePin E Direction)).map (SignaturePinObj E) := by
    intro l
    induction l with
    | nil => simp
    | cons p ps ih =>
      intro acc
      simp only [List.foldl_cons, ih]
      cases hp : IsSignaturePin E Direction p
      · simp [hp]
      · simp only [if_true, List.filter_cons, hp, List.map_cons, List.append_assoc,
          List.singleton_append, SignaturePinObj, FJsonObject.SetStringField,
          FJsonObject.SetField_nil, FJsonObject.SetField_cons, TEXT_eq_iff, String.reduceEq,
          if_false]
  exact (h Pins []).trans (List.nil_append _)

theorem ScanEntry_eq (E : Engine) (FuncObj : FJsonObject) (Nodes : List UEdGraphNode) :
    GenerateFunctionsJson.ScanEntry E FuncObj Nodes =
      match Nodes.findSome? UEdGraphNode.AsFunctionEntry with
      | some (FunctionFlags, Pins) =>
        FJsonObject.SetArrayField
          (FJsonObject.SetBoolField
            (FJsonObject.SetBoolField
              (FJsonObject.SetStringField FuncObj (TEXT "access")
                (if FunctionFlags.testBit E.FUNC_Protected_Bit = true then TEXT "Protected"
                  else if FunctionFlags.testBit E.FUNC_Private_Bit = true then TEXT "Private"
                  else TEXT "Public"))
              (TEXT "pure") (FunctionFlags.testBit E.FUNC_BlueprintPure_Bit))
            (TEXT "const") (FunctionFlags.testBit E.FUNC_Const_Bit))
          (TEXT "inputs") (PinsJson E EEdGraphPinDirection.EGPD_Output Pins)
      | none => FuncObj := by
  induction Nodes with
  | nil => rfl
  | cons n ns ih =>
    cases n with
    | K2Node_FunctionEntry flags pins =>
      simp only [GenerateFunctionsJson.ScanEntry, List.findSome?_cons,
        UEdGraphNode.AsFunctionEntry, Engine.FUNC_Protected, Engine.FUNC_Private,
        Engine.FUNC_BlueprintPure, Engine.FUNC_Const, and_two_pow_bne_zero]
    | Generic d =>
      simpa [GenerateFunctionsJson.ScanEntry, UEdGraphNode.AsFunctionEntry] using ih
    | K2Node_Event t =>
      simpa [GenerateFunctionsJson.ScanEntry, UEdGraphNode.AsFunctionEntry] using ih
    | K2Node_FunctionResult pins =>
      simpa [GenerateFunctionsJson.ScanEntry, UEdGraphNode.AsFunctionEntry] using ih
    | AnimGraphNode_StateMachine t sub =>
      simpa [GenerateFunctionsJson.ScanEntry, UEdGraphNode.AsFunctionEntry] using ih

theorem ScanResult_eq (E : Engine) (Nodes : List UEdGraphNode) :
    GenerateFunctionsJson.ScanResult E Nodes =
      match Nodes.findSome? UEdGraphNode.AsFunctionResult with
      | some Pins => PinsJson E EEdGraphPinDirection.EGPD_Input Pins
      | none => [] := by
  induction Nodes with
  | nil => rfl
  | cons n ns ih =>
    cases n with
    | K2Node_FunctionResult pins =>
      simp only [GenerateFunctionsJson.ScanResult, List.findSome?_cons,
        UEdGraphNode.AsFunctionResult]
    | Generic d =>
      simpa [GenerateFunctionsJson.ScanResult, UEdGraphNode.AsFunctionResult] using ih
    | K2Node_Event t =>
      simpa [GenerateFunctionsJson.ScanResult, UEdGraphNode.AsFunctionResult] using ih
    | K2Node_FunctionEntry flags pins =>
      simpa [GenerateFunctionsJson.ScanResult, UEdGraphNode.AsFunctionResult] using ih
    | AnimGraphNode_StateMachine t sub =>
      simpa [GenerateFunctionsJson.ScanResult, UEdGraphNode.AsFunctionResult] using ih

theorem FuncObj_eq (E : Engine) (Graph : UEdGraph) :
    GenerateFunctionsJson.FuncObj E Graph =
      [(TEXT "name", FJsonValue.String Graph.Name),
        (TEXT "file", FJsonValue.String (TEXT "Function_" ++ Graph.Name ++ TEXT ".txt"))] ++
      (match Graph.Nodes.findSome? UEdGraphNode.AsFunctionEntry with
        | some (FunctionFlags, Pins) =>
          [(TEXT "access", FJsonValue.String
              (if FunctionFlags.testBit E.FUNC_Protected_Bit = true then TEXT "Protected"
                else if FunctionFlags.testBit E.FUNC_Private_Bit = true then TEXT "Private"
                else TEXT "Public")),
            (TEXT "pure", FJsonValue.Boolean (FunctionFlags.testBit E.FUNC_BlueprintPure_Bit)),
            (TEXT "const", FJsonValue.Boolean (FunctionFlags.testBit E.FUNC_Const_Bit)),
            (TEXT "inputs", FJsonValue.Array
              ((Pins.filter (IsSignaturePin E EEdGraphPinDirection.EGPD_Output)).map
                (SignaturePinObj E)))]
        | none => []) ++
      [(TEXT "outputs", FJsonValue.Array
        (match Graph.Nodes.findSome? UEdGraphNode.AsFunctionResult with
          | some Pins =>
            (Pins.filter (IsSignaturePin E EEdGraphPinDirection.EGPD_Input)).map
              (SignaturePinObj E)
          | none => []))] := by
  cases hE : Graph.Nodes.findSome? UEdGraphNode.AsFunctionEntry with
  | none =>
    cases hR : Graph.Nodes.findSome? UEdGraphNode.AsFunctionResult <;>
      simp only [GenerateFunctionsJson.FuncObj, ScanEntry_eq, ScanResult_eq, hE, hR,
        PinsJson_eq, FJsonObject.SetStringField, FJsonObject.SetArrayField,
        FJsonObject.SetBoolField, FJsonObject.SetField_nil, FJsonObject.SetField_cons,
        TEXT_eq_iff, String.reduceEq, if_false, List.cons_append, List.nil_append,
        List.append_nil]
  | some e =>
    obtain ⟨flags, pins⟩ := e
    cases hR : Graph.Nodes.findSome? UEdGraphNode.AsFunctionResult <;>
      simp only [GenerateFunctionsJson.FuncObj, ScanEntry_eq, ScanResult_eq, hE, hR,
        PinsJson_eq, FJsonObject.SetStringField, FJsonObject.SetArrayField,
        FJsonObject.SetBoolField, FJsonObject.SetField_nil, FJsonObject.SetField_cons,
        TEXT_eq_iff, String.reduceEq, if_false, List.cons_append, List.nil_append,
        List.append_nil]

/-- Claim C15: in the entry of a function graph whose first function-entry node
has the given function flags, `access` is `Protected` when the protected bit is
set, also when the private bit is set as well, `Private` when the private bit
is set and the protected bit is not, and `Public` when neither is set; `pure`
and `const` are the values of the pure bit and of the const bit of that
node. -/
theorem access_pure_const_of_first_entry (E : Engine) (Graph : UEdGraph) (FunctionFlags : Nat)
    (Pins : List UEdGraphPin)
    (hEntry :
      Graph.Nodes.findSome? UEdGraphNode.AsFunctionEntry = some (FunctionFlags, Pins)) :
    (FunctionFlags.testBit E.FUNC_Protected_Bit = true →
        (GenerateFunctionsJson.FuncObj E Graph).TryGetField (TEXT "access") =
          some (FJsonValue.String (TEXT "Protected"))) ∧
      (FunctionFlags.testBit E.FUNC_Protected_Bit = false →
        FunctionFlags.testBit E.FUNC_Private_Bit = true →
        (GenerateFunctionsJson.FuncObj E Graph).TryGetField (TEXT "access") =
          some (FJsonValue.String (TEXT "Private"))) ∧
      (FunctionFlags.testBit E.FUNC_Protected_Bit = false →
        FunctionFlags.testBit E.FUNC_Private_Bit = false →
        (GenerateFunctionsJson.FuncObj E Graph).TryGetField (TEXT "access") =
          some (FJsonValue.String (TEXT "Public"))) ∧
      (GenerateFunctionsJson.FuncObj E Graph).TryGetField (TEXT "pure") =
        some (FJsonValue.Boolean (FunctionFlags.testBit E.FUNC_BlueprintPure_Bit)) ∧
      (GenerateFunctionsJson.FuncObj E Graph).TryGetField (TEXT "const") =
        some (FJsonValue.Boolean (FunctionFlags.testBit E.FUNC_Const_Bit)) := by
  rw [FuncObj_eq, hEntry]
  refine ⟨fun h1 => ?_, fun h1 h2 => ?_, fun h1 h2 => ?_, ?_, ?_⟩
  · simp only [List.append_assoc, List.cons_append, List.nil_append,
      FJsonObject.TryGetField_cons, TEXT_eq_iff, String.reduceEq, if_false, if_true, h1]
  · simp only [List.append_assoc, List.cons_append, List.nil_append,
      FJsonObject.TryGetField_cons, TEXT_eq_iff, String.reduceEq, if_false, if_true, h1, h2,
      Bool.false_eq_true]
  · simp only [List.append_assoc, List.cons_append, List.nil_append,
      FJsonObject.TryGetField_cons, TEXT_eq_iff, String.reduceEq, if_false, if_true, h1, h2,
      Bool.false_eq_true]
  · simp only [List.append_assoc, List.cons_append, List.nil_append,
      FJsonObject.TryGetField_cons, TEXT_eq_iff, String.reduceEq, if_false, if_true]
  · simp only [List.append_assoc, List.cons_append, List.nil_append,
      FJsonObject.TryGetField_cons, TEXT_eq_iff, String.reduceEq, if_false, if_true]

/-- Witness for `access_pure_const_of_first_entry`: the first entry node of the
sample graph has both the protected and the private bit set, and the entry
says `Protected`. -/
theorem access_pure_const_of_first_entry_witness :
    SampleSignatureGraph.Nodes.findSome? UEdGraphNode.AsFunctionEntry =
        some (2 ^ 19 + 2 ^ 18,
          [SamplePin "then" EEdGraphPinDirection.EGPD_Output "exec",
            SamplePin "Amount" EEdGraphPinDirection.EGPD_Output "int",
            SamplePin "Unused" EEdGraphPinDirection.EGPD_Input "int"]) ∧
      (GenerateFunctionsJson.FuncObj SampleEngine SampleSignatureGraph).TryGetField
          (TEXT "access") = some (FJsonValue.String (TEXT "Protected")) :=
  ⟨rfl,
    (access_pure_const_of_first_entry SampleEngine SampleSignatureGraph (2 ^ 19 + 2 ^ 18)
      [SamplePin "then" EEdGraphPinDirection.EGPD_Output "exec",
        SamplePin "Amount" EEdGraphPinDirection.EGPD_Output "int",
        SamplePin "Unused" EEdGraphPinDirection.EGPD_Input "int"] rfl).1 (by decide)⟩

/-- Claim C16: `inputs` lists, in pin order and as name and rendered type, exactly
the pins of the first function-entry node that have output direction, a
category other than `None` and other than the exec category; `outputs` lists
likewise the input-direction pins of the first function-result node, and is
empty when the graph has no result node. The entry depends on the nodes only
through the first entry node and the first result node, so later entry or
result nodes have no effect. -/
theorem inputs_outputs_of_first_nodes (E : Engine) (Graph : UEdGraph) :
    (∀ FunctionFlags Pins,
        Graph.Nodes.findSome? UEdGraphNode.AsFunctionEntry = some (FunctionFlags, Pins) →
        (GenerateFunctionsJson.FuncObj E Graph).TryGetField (TEXT "inputs") =
          some (FJsonValue.Array
            ((Pins.filter
                (fun Pin =>
                  decide (Pin.Direction = EEdGraphPinDirection.EGPD_Output) &&
                    !Pin.PinType.PinCategory.IsNone && !Pin.PinType.PinCategory.Eq E.PC_Exec)).map
              (fun Pin =>
                FJsonValue.Object
                  [(TEXT "name", FJsonValue.String Pin.PinName.ToString),
                    (TEXT "type", FJsonValue.String (PinTypeToString E Pin.PinType))])))) ∧
      (∀ Pins,
        Graph.Nodes.findSome? UEdGraphNode.AsFunctionResult = some Pins →
        (GenerateFunctionsJson.FuncObj E Graph).TryGetField (TEXT "outputs") =
          some (FJsonValue.Array
            ((Pins.filter
                (fun Pin =>
                  decide (Pin.Direction = EEdGraphPinDirection.EGPD_Input) &&
                    !Pin.PinType.PinCategory.IsNone && !Pin.PinType.PinCategory.Eq E.PC_Exec)).map
              (fun Pin =>
                FJsonValue.Object
                  [(TEXT "name", FJsonValue.String Pin.PinName.ToString),
                    (TEXT "type", FJsonValue.String (PinTypeToString E Pin.PinType))])))) ∧
      (Graph.Nodes.findSome? UEdGraphNode.AsFunctionResult = none →
        (GenerateFunctionsJson.FuncObj E Graph).TryGetField (TEXT "outputs") =
          some (FJsonValue.Array [])) ∧
      (∀ Other : UEdGraph,
        Other.Name = Graph.Name →
        Other.Nodes.findSome? UEdGraphNode.AsFunctionEntry =
          Graph.Nodes.findSome? UEdGraphNode.AsFunctionEntry →
        Other.Nodes.findSome? UEdGraphNode.AsFunctionResult =
          Graph.Nodes.findSome? UEdGraphNode.AsFunctionResult →
        GenerateFunctionsJson.FuncObj E Other = GenerateFunctionsJson.FuncObj E Graph) := by
  refine ⟨fun flags pins hE => ?_, fun pins hR => ?_, fun hR => ?_, fun Other hN hE hR => ?_⟩
  · rw [FuncObj_eq, hE]
    simp only [List.append_assoc, List.cons_append, List.nil_append,
      FJsonObject.TryGetField_cons, TEXT_eq_iff, String.reduceEq, if_false, if_true]
    rfl
  · rw [FuncObj_eq, hR]
    cases hE : Graph.Nodes.findSome? UEdGraphNode.AsFunctionEntry <;>
      simp only [List.append_assoc, List.cons_append, List.nil_append,
        FJsonObject.TryGetField_cons, TEXT_eq_iff, String.reduceEq, if_false, if_true] <;>
      rfl
  · rw [FuncObj_eq, hR]
    cases hE : Graph.Nodes.findSome? UEdGraphNode.AsFunctionEntry <;>
      simp only [List.append_assoc, List.cons_append, List.nil_append,
        FJsonObject.TryGetField_cons, TEXT_eq_iff, String.reduceEq, if_false, if_true]
  · rw [FuncObj_eq, FuncObj_eq, hN, hE, hR]

/-- Witness for `inputs_outputs_of_first_nodes`: in the sample graph with two
entry nodes and two result nodes, `inputs` holds the integer parameter of the
first entry node only, and `outputs` the boolean return value of the first
result node only. -/
theorem inputs_outputs_of_first_nodes_witness :
    (GenerateFunctionsJson.FuncObj SampleEngine SampleSignatureGraph).TryGetField (TEXT "inputs") =
        some (FJsonValue.Array
          [FJsonValue.Object
            [(TEXT "name", FJsonValue.String (TEXT "Amount")),
              (TEXT "type", FJsonValue.String (TEXT "int"))]]) ∧
      (GenerateFunctionsJson.FuncObj SampleEngine SampleSignatureGraph).TryGetField
          (TEXT "outputs") =
        some (FJsonValue.Array
          [FJsonValue.Object
            [(TEXT "name", FJsonValue.String (TEXT "ReturnValue")),
              (TEXT "type", FJsonValue.String (TEXT "bool"))]]) ∧
      (GenerateFunctionsJson.FuncObj SampleEngine SampleEntryGraph).TryGetField (TEXT "outputs") =
        some (FJsonValue.Array []) :=
  ⟨((inputs_outputs_of_first_nodes SampleEngine SampleSignatureGraph).1 _ _ rfl).trans rfl,
    ((inputs_outputs_of_first_nodes SampleEngine SampleSignatureGraph).2.1 _ rfl).trans rfl,
    (inputs_outputs_of_first_nodes SampleEngine SampleEntryGraph).2.2.1 rfl⟩

/-! ## The two sanitisers -/

theorem SanitizedName_eq_map (SMName : FString) :
    GenerateAnimBlueprintMetadata.SanitizedName SMName =
      SMName.map (fun c =>
        FString.ReplaceChar ':' '_' (FString.ReplaceChar (Char.ofNat 92) '_'
          (FString.ReplaceChar '/' '_' c))) := by
  simp only [GenerateAnimBlueprintMetadata.SanitizedName, FString.ReplaceInline, List.map_map,
    Function.comp_def]

theorem sanitize_char_agree_iff (c : Char) :
    FString.ReplaceChar ':' '_' (FString.ReplaceChar (Char.ofNat 92) '_'
        (FString.ReplaceChar '/' '_' c)) =
      FString.ReplaceChar '|' '_' (FString.ReplaceChar '>' '_' (FString.ReplaceChar '<' '_'
        (FString.ReplaceChar (Char.ofNat 34) '_' (FString.ReplaceChar '?' '_'
          (FString.ReplaceChar '*' '_' (FString.ReplaceChar ':' '_'
            (FString.ReplaceChar (Char.ofNat 92) '_'
              (FString.ReplaceChar '/' '_' c)))))))) ↔
      (c ≠ '*' ∧ c ≠ '?' ∧ c ≠ Char.ofNat 34 ∧ c ≠ '<' ∧ c ≠ '>' ∧ c ≠ '|') := by
  by_cases h1 : c = '/'
  · subst h1; decide
  by_cases h2 : c = Char.ofNat 92
  · subst h2; decide
  by_cases h3 : c = ':'
  · subst h3; decide
  by_cases h4 : c = '*'
  · subst h4; decide
  by_cases h5 : c = '?'
  · subst h5; decide
  by_cases h6 : c = Char.ofNat 34
  · subst h6; decide
  by_cases h7 : c = '<'
  · subst h7; decide
  by_cases h8 : c = '>'
  · subst h8; decide
  by_cases h9 : c = '|'
  · subst h9; decide
  rw [FString.ReplaceChar_of_ne _ _ c h1, FString.ReplaceChar_of_ne _ _ c h2,
    FString.ReplaceChar_of_ne _ _ c h3, FString.ReplaceChar_of_ne _ _ c h4,
    FString.ReplaceChar_of_ne _ _ c h5, FString.ReplaceChar_of_ne _ _ c h6,
    FString.ReplaceChar_of_ne _ _ c h7, FString.ReplaceChar_of_ne _ _ c h8,
    FString.ReplaceChar_of_ne _ _ c h9]
  exact ⟨fun _ => ⟨h4, h5, h6, h7, h8, h9⟩, fun _ => rfl⟩

/-- Claim C17: the file name that the metadata builder records for a state
machine and the file name under which the orchestrator exports it differ for
some titles, such as `A*B`, and they are the same for a title exactly when the
title contains none of the six characters `* ? " < > |`. -/
theorem sanitizers_agree_iff (Title : FString) :
    (TEXT "StateMachine_" ++ GenerateAnimBlueprintMetadata.SanitizedName (TEXT "A*B") ++
          TEXT ".txt" ≠
        TEXT "StateMachine_" ++ SanitizeFileName (TEXT "A*B") ++ TEXT ".txt") ∧
      (TEXT "StateMachine_" ++ GenerateAnimBlueprintMetadata.SanitizedName Title ++ TEXT ".txt" =
          TEXT "StateMachine_" ++ SanitizeFileName Title ++ TEXT ".txt" ↔
        ∀ c ∈ Title,
          c ≠ '*' ∧ c ≠ '?' ∧ c ≠ Char.ofNat 34 ∧ c ≠ '<' ∧ c ≠ '>' ∧ c ≠ '|') := by
  refine ⟨by decide, ?_⟩
  rw [List.append_cancel_right_eq, List.append_cancel_left_eq, SanitizedName_eq_map,
    SanitizeFileName_eq_map, List.map_inj_left]
  exact forall_congr' fun c => imp_congr_right fun _ => sanitize_char_agree_iff c

/-- Witness for `sanitizers_agree_iff`: the title `Locomotion` has none of the six
characters, and both sides name the file `StateMachine_Locomotion.txt`. -/
theorem sanitizers_agree_iff_witness :
    TEXT "StateMachine_" ++ GenerateAnimBlueprintMetadata.SanitizedName (TEXT "Locomotion") ++
        TEXT ".txt" =
      TEXT "StateMachine_" ++ SanitizeFileName (TEXT "Locomotion") ++ TEXT ".txt" :=
  (sanitizers_agree_iff (TEXT "Locomotion")).2.mpr (by decide)

/-! ## The graphs index -/

theorem foldl_SetStringField_TryGetField (FileName : FString → FString) (Graphs : List UEdGraph)
    (o : FJsonObject) (k : FString) :
    (Graphs.foldl
        (fun G (Graph : UEdGraph) =>
          FJsonObject.SetStringField G Graph.Name (FileName Graph.Name)) o).TryGetField k =
      if k ∈ Graphs.map (fun Graph => Graph.Name) then some (FJsonValue.String (FileName k))
      else o.TryGetField k := by
  induction Graphs generalizing o with
  | nil => simp
  | cons g gs ih =>
    rw [List.foldl_cons, ih]
    simp only [FJsonObject.SetStringField, FJsonObject.TryGetField_SetField, List.map_cons,
      List.mem_cons]
    by_cases hmem : k ∈ gs.map (fun Graph => Graph.Name)
    · simp [hmem]
    · by_cases hk : g.Name = k
      · subst hk
        simp [hmem]
      · have hk' : ¬ k = g.Name := fun e => hk e.symm
        simp [hmem, hk, hk']

theorem Graphs_TryGetField (Blueprint : UBlueprint) (k : FString) :
    (GenerateMetadataForBlueprint.Graphs Blueprint).TryGetField k =
      if k ∈ Blueprint.FunctionGraphs.map (fun Graph => Graph.Name) then
        some (FJsonValue.String (TEXT "Function_" ++ k ++ TEXT ".txt"))
      else if k ∈ Blueprint.UbergraphPages.map (fun Graph => Graph.Name) then
        some (FJsonValue.String (k ++ TEXT ".txt"))
      else none := by
  unfold GenerateMetadataForBlueprint.Graphs
  have h1 :=
    foldl_SetStringField_TryGetField (fun n => TEXT "Function_" ++ n ++ TEXT ".txt")
      Blueprint.FunctionGraphs
      (Blueprint.UbergraphPages.foldl
        (fun G (Graph : UEdGraph) =>
          FJsonObject.SetStringField G Graph.Name (Graph.Name ++ TEXT ".txt")) []) k
  have h2 :=
    foldl_SetStringField_TryGetField (fun n => n ++ TEXT ".txt") Blueprint.UbergraphPages [] k
  simp only [FJsonObject.TryGetField_nil] at h2
  simp only [h2] at h1
  exact h1

theorem FJsonObject.SetField_of_not_mem (o : FJsonObject) (k : FString) (v : FJsonValue)
    (hk : k ∉ o.Keys) : FJsonObject.SetField o k v = o ++ [(k, v)] := by
  induction o with
  | nil => rfl
  | cons p rest ih =>
    obtain ⟨k0, v0⟩ := p
    simp only [FJsonObject.Keys, List.map_cons, List.mem_cons, not_or] at hk
    have hne : ¬ k0 = k := fun e => hk.1 e.symm
    rw [FJsonObject.SetField_cons, if_neg hne, ih hk.2]
    rfl

theorem FJsonObject.SetFieldIgnoreCase_of_not_mem (o : FJsonObject) (k : FString)
    (v : FJsonValue) (hk : k.ToLower ∉ o.Keys.map FString.ToLower) :
    FJsonObject.SetFieldIgnoreCase o k v = o ++ [(k, v)] := by
  induction o with
  | nil => rfl
  | cons p rest ih =>
    obtain ⟨k0, v0⟩ := p
    simp only [FJsonObject.Keys, List.map_cons, List.mem_cons, not_or] at hk
    have hne : ¬ k0.ToLower = k.ToLower := fun e => hk.1 e.symm
    simp only [FJsonObject.SetFieldIgnoreCase, hne, if_false, List.cons_append]
    rw [ih hk.2]

theorem FJsonObject.Keys_append (a b : FJsonObject) :
    FJsonObject.Keys (a ++ b) = FJsonObject.Keys a ++ FJsonObject.Keys b := by
  simp [FJsonObject.Keys]

theorem foldl_SetField_fresh {α : Type} (key : α → FString) (val : α → FJsonValue)
    (l : List α) (o : FJsonObject) (hFresh : (o.Keys ++ l.map key).Nodup) :
    l.foldl (fun G x => FJsonObject.SetField G (key x) (val x)) o =
      o ++ l.map (fun x => (key x, val x)) := by
  induction l generalizing o with
  | nil => simp
  | cons x xs ih =>
    have hx : key x ∉ o.Keys := by
      rw [List.map_cons, List.nodup_middle, List.nodup_cons] at hFresh
      exact fun h => hFresh.1 (List.mem_append_left _ h)
    rw [List.foldl_cons, FJsonObject.SetField_of_not_mem o _ _ hx, ih]
    · simp
    · rw [FJsonObject.Keys_append]
      simpa [FJsonObject.Keys, List.append_assoc] using hFresh

theorem foldl_SetFieldIgnoreCase_fresh {α : Type} (key : α → FString) (val : α → FJsonValue)
    (l : List α) (o : FJsonObject)
    (hFresh : ((o.Keys ++ l.map key).map FString.ToLower).Nodup) :
    l.foldl (fun G x => FJsonObject.SetFieldIgnoreCase G (key x) (val x)) o =
      o ++ l.map (fun x => (key x, val x)) := by
  induction l generalizing o with
  | nil => simp
  | cons x xs ih =>
    have hx : (key x).ToLower ∉ o.Keys.map FString.ToLower := by
      rw [List.map_append, List.map_cons, List.map_cons, List.nodup_middle,
        List.nodup_cons] at hFresh
      exact fun h => hFresh.1 (List.mem_append_left _ h)
    rw [List.foldl_cons, FJsonObject.SetFieldIgnoreCase_of_not_mem o _ _ hx, ih]
    · simp
    · rw [FJsonObject.Keys_append]
      simpa [FJsonObject.Keys, List.append_assoc] using hFresh

theorem FJsonObject.TryGetFieldIgnoreCase_of_mem (o : FJsonObject) (k : FString)
    (v : FJsonValue) (hUnique : (o.Keys.map FString.ToLower).Nodup) (hmem : (k, v) ∈ o) :
    FJsonObject.TryGetFieldIgnoreCase o k = some v := by
  induction o with
  | nil => cases hmem
  | cons p rest ih =>
    obtain ⟨k0, v0⟩ := p
    simp only [FJsonObject.Keys, List.map_cons, List.nodup_cons] at hUnique
    rcases List.mem_cons.mp hmem with h | h
    · injection h with h1 h2
      subst h1
      subst h2
      simp [FJsonObject.TryGetFieldIgnoreCase]
    · have hne : ¬ k0.ToLower = k.ToLower := by
        intro e
        apply hUnique.1
        rw [e]
        exact List.mem_map.mpr ⟨k, List.mem_map.mpr ⟨(k, v), h, rfl⟩, rfl⟩
      simp only [FJsonObject.TryGetFieldIgnoreCase, hne, if_false]
      exact ih hUnique.2 h

theorem Graphs_eq_of_unique (Blueprint : UBlueprint) (hUnique : Blueprint.GraphNamesUnique) :
    GenerateMetadataForBlueprint.Graphs Blueprint =
        Blueprint.UbergraphPages.map
            (fun Graph => (Graph.Name, FJsonValue.String (Graph.Name ++ TEXT ".txt"))) ++
          Blueprint.FunctionGraphs.map
            (fun Graph =>
              (Graph.Name, FJsonValue.String (TEXT "Function_" ++ Graph.Name ++ TEXT ".txt"))) ∧
      GenerateMetadataForBlueprint.GraphsIgnoreCase Blueprint =
        Blueprint.UbergraphPages.map
            (fun Graph => (Graph.Name, FJsonValue.String (Graph.Name ++ TEXT ".txt"))) ++
          Blueprint.FunctionGraphs.map
            (fun Graph =>
              (Graph.Name, FJsonValue.String (TEXT "Function_" ++ Graph.Name ++ TEXT ".txt"))) := by
  have hLower :
      ((Blueprint.UbergraphPages.map (fun Graph => Graph.Name) ++
        Blueprint.FunctionGraphs.map (fun Graph => Graph.Name)).map FString.ToLower).Nodup := by
    have h := hUnique
    unfold UBlueprint.GraphNamesUnique at h
    simpa [List.map_append, List.map_map, Function.comp_def] using h
  have hExact :
      (Blueprint.UbergraphPages.map (fun Graph => Graph.Name) ++
        Blueprint.FunctionGraphs.map (fun Graph => Graph.Name)).Nodup :=
    List.Nodup.of_map FString.ToLower hLower
  constructor
  · unfold GenerateMetadataForBlueprint.Graphs
    have h1 :=
      foldl_SetField_fresh (fun Graph : UEdGraph => Graph.Name)
        (fun Graph : UEdGraph => FJsonValue.String (Graph.Name ++ TEXT ".txt"))
        Blueprint.UbergraphPages []
        (by simpa [FJsonObject.Keys] using hExact.of_append_left)
    have h2 :=
      foldl_SetField_fresh (fun Graph : UEdGraph => Graph.Name)
        (fun Graph : UEdGraph =>
          FJsonValue.String (TEXT "Function_" ++ Graph.Name ++ TEXT ".txt"))
        Blueprint.FunctionGraphs
        (Blueprint.UbergraphPages.map
          (fun Graph => (Graph.Name, FJsonValue.String (Graph.Name ++ TEXT ".txt"))))
        (by simpa [FJsonObject.Keys, List.map_map, Function.comp_def] using hExact)
    simp only [List.nil_append] at h1
    simp only [FJsonObject.SetStringField]
    rw [h1]
    exact h2
  · unfold GenerateMetadataForBlueprint.GraphsIgnoreCase
    have h1 :=
      foldl_SetFieldIgnoreCase_fresh (fun Graph : UEdGraph => Graph.Name)
        (fun Graph : UEdGraph => FJsonValue.String (Graph.Name ++ TEXT ".txt"))
        Blueprint.UbergraphPages []
        (by
          have h := hLower
          rw [List.map_append] at h
          simpa [FJsonObject.Keys] using h.of_append_left)
    have h2 :=
      foldl_SetFieldIgnoreCase_fresh (fun Graph : UEdGraph => Graph.Name)
        (fun Graph : UEdGraph =>
          FJsonValue.String (TEXT "Function_" ++ Graph.Name ++ TEXT ".txt"))
        Blueprint.FunctionGraphs
        (Blueprint.UbergraphPages.map
          (fun Graph => (Graph.Name, FJsonValue.String (Graph.Name ++ TEXT ".txt"))))
        (by simpa [FJsonObject.Keys, List.map_map, Function.comp_def] using hLower)
    simp only [List.nil_append] at h1
    simp only
    rw [h1]
    exact h2

/-- Claim C13: in a blueprint whose event graphs and function graphs have
pairwise different names (compared without regard to case, as the engine keeps
the names of the objects inside one blueprint), the `graphs` index is the list
of the entries `n ↦ n.txt` for the event graphs followed by the entries
`m ↦ Function_m.txt` for the function graphs, whether the keys of the index are
compared exactly or without regard to case; so it maps the name `n` of each
event graph to `n.txt` and the name `m` of each function graph to
`Function_m.txt`, and its keys are exactly the names of the event graphs and of
the function graphs, so a name that only a macro graph or a delegate-signature
graph has is not a key. -/
theorem graphs_index_mapping (E : Engine) (Blueprint : UBlueprint)
    (hUnique : Blueprint.GraphNamesUnique) :
    (GenerateMetadataForBlueprint.RootObject E Blueprint).TryGetField (TEXT "graphs") =
        some (FJsonValue.Object (GenerateMetadataForBlueprint.Graphs Blueprint)) ∧
      GenerateMetadataForBlueprint.Graphs Blueprint =
        Blueprint.UbergraphPages.map
            (fun Graph => (Graph.Name, FJsonValue.String (Graph.Name ++ TEXT ".txt"))) ++
          Blueprint.FunctionGraphs.map
            (fun Graph =>
              (Graph.Name, FJsonValue.String (TEXT "Function_" ++ Graph.Name ++ TEXT ".txt"))) ∧
      GenerateMetadataForBlueprint.GraphsIgnoreCase Blueprint =
        GenerateMetadataForBlueprint.Graphs Blueprint ∧
      (∀ Graph ∈ Blueprint.UbergraphPages,
        (GenerateMetadataForBlueprint.Graphs Blueprint).TryGetField Graph.Name =
            some (FJsonValue.String (Graph.Name ++ TEXT ".txt")) ∧
          (GenerateMetadataForBlueprint.GraphsIgnoreCase Blueprint).TryGetFieldIgnoreCase
              Graph.Name =
            some (FJsonValue.String (Graph.Name ++ TEXT ".txt"))) ∧
      (∀ Graph ∈ Blueprint.FunctionGraphs,
        (GenerateMetadataForBlueprint.Graphs Blueprint).TryGetField Graph.Name =
            some (FJsonValue.String (TEXT "Function_" ++ Graph.Name ++ TEXT ".txt")) ∧
          (GenerateMetadataForBlueprint.GraphsIgnoreCase Blueprint).TryGetFieldIgnoreCase
              Graph.Name =
            some (FJsonValue.String (TEXT "Function_" ++ Graph.Name ++ TEXT ".txt"))) ∧
      (∀ Key : FString,
        Key ∈ (GenerateMetadataForBlueprint.Graphs Blueprint).Keys ↔
          (∃ Graph ∈ Blueprint.UbergraphPages, Graph.Name = Key) ∨
            (∃ Graph ∈ Blueprint.FunctionGraphs, Graph.Name = Key)) := by
  obtain ⟨hGraphs, hIgnore⟩ := Graphs_eq_of_unique Blueprint hUnique
  have hLower :
      ((GenerateMetadataForBlueprint.GraphsIgnoreCase Blueprint).Keys.map
        FString.ToLower).Nodup := by
    have h := hUnique
    unfold UBlueprint.GraphNamesUnique at h
    rw [hIgnore]
    simpa [FJsonObject.Keys, List.map_append, List.map_map, Function.comp_def] using h
  have hDisjoint :
      ∀ Graph ∈ Blueprint.UbergraphPages,
        ¬ Graph.Name ∈ Blueprint.FunctionGraphs.map (fun Graph => Graph.Name) := by
    intro g hg hmem
    obtain ⟨f, hf, hname⟩ := List.mem_map.mp hmem
    have h := hUnique
    unfold UBlueprint.GraphNamesUnique at h
    rw [List.map_append, List.nodup_append] at h
    exact
      List.disjoint_left.mp h.2.2
        (List.mem_map.mpr ⟨g, hg, rfl⟩)
        (List.mem_map.mpr ⟨f, hf, by rw [hname]⟩)
  refine
    ⟨RootObject_graphs E Blueprint, hGraphs, hIgnore.trans hGraphs.symm, fun g hg => ⟨?_, ?_⟩,
      fun g hg => ⟨?_, ?_⟩, fun k => ?_⟩
  · rw [Graphs_TryGetField, if_neg (hDisjoint g hg), if_pos (List.mem_map.mpr ⟨g, hg, rfl⟩)]
  · apply FJsonObject.TryGetFieldIgnoreCase_of_mem _ _ _ hLower
    rw [hIgnore]
    exact List.mem_append_left _ (List.mem_map.mpr ⟨g, hg, rfl⟩)
  · rw [Graphs_TryGetField, if_pos (List.mem_map.mpr ⟨g, hg, rfl⟩)]
  · apply FJsonObject.TryGetFieldIgnoreCase_of_mem _ _ _ hLower
    rw [hIgnore]
    exact List.mem_append_right _ (List.mem_map.mpr ⟨g, hg, rfl⟩)
  · have hKeys :
        k ∈ (GenerateMetadataForBlueprint.Graphs Blueprint).Keys ↔
          (GenerateMetadataForBlueprint.Graphs Blueprint).HasField k = true := by
      rw [FJsonObject.HasField_eq_mem_Keys]
      simp
    rw [hKeys]
    unfold FJsonObject.HasField
    rw [Graphs_TryGetField]
    by_cases hF : k ∈ Blueprint.FunctionGraphs.map (fun Graph => Graph.Name)
    · rw [if_pos hF]
      simp only [Option.isSome_some, true_iff]
      obtain ⟨f, hf, hname⟩ := List.mem_map.mp hF
      exact Or.inr ⟨f, hf, hname⟩
    · rw [if_neg hF]
      by_cases hU : k ∈ Blueprint.UbergraphPages.map (fun Graph => Graph.Name)
      · rw [if_pos hU]
        simp only [Option.isSome_some, true_iff]
        obtain ⟨u, hu, hname⟩ := List.mem_map.mp hU
        exact Or.inl ⟨u, hu, hname⟩
      · rw [if_neg hU]
        simp only [Option.isSome_none, Bool.false_eq_true, false_iff]
        rintro (⟨u, hu, hname⟩ | ⟨f, hf, hname⟩)
        · exact hU (List.mem_map.mpr ⟨u, hu, hname⟩)
        · exact hF (List.mem_map.mpr ⟨f, hf, hname⟩)

/-- Witness for `graphs_index_mapping`: the sample blueprint with the event
graph `EventGraph` and the function graph `Empty` has pairwise different graph
names, its index is `EventGraph ↦ EventGraph.txt`, `Empty ↦ Function_Empty.txt`
under either comparison of keys, and the name `Macro` of no event or function
graph is not a key. -/
theorem graphs_index_mapping_witness :
    SampleGraphsBlueprint.GraphNamesUnique ∧
      (GenerateMetadataForBlueprint.RootObject SampleEngine
          SampleGraphsBlueprint).TryGetField (TEXT "graphs") =
        some (FJsonValue.Object
          [(TEXT "EventGraph", FJsonValue.String (TEXT "EventGraph.txt")),
            (TEXT "Empty", FJsonValue.String (TEXT "Function_Empty.txt"))]) ∧
      GenerateMetadataForBlueprint.GraphsIgnoreCase SampleGraphsBlueprint =
        [(TEXT "EventGraph", FJsonValue.String (TEXT "EventGraph.txt")),
          (TEXT "Empty", FJsonValue.String (TEXT "Function_Empty.txt"))] ∧
      (GenerateMetadataForBlueprint.Graphs SampleGraphsBlueprint).TryGetField
          (TEXT "EventGraph") =
        some (FJsonValue.String (TEXT "EventGraph.txt")) ∧
      (GenerateMetadataForBlueprint.Graphs SampleGraphsBlueprint).TryGetField (TEXT "Empty") =
        some (FJsonValue.String (TEXT "Function_Empty.txt")) ∧
      ¬ (TEXT "Macro") ∈ (GenerateMetadataForBlueprint.Graphs SampleGraphsBlueprint).Keys :=
  have h := graphs_index_mapping SampleEngine SampleGraphsBlueprint (by decide)
  ⟨by decide, h.1, h.2.2.1.trans h.2.1, (h.2.2.2.1 SampleEventGraph (List.mem_cons_self _ _)).1,
    (h.2.2.2.2.1 SampleEmptyGraph (List.mem_cons_self _ _)).1,
    fun hKey => by
      rcases (h.2.2.2.2.2 (TEXT "Macro")).mp hKey with ⟨g, hg, hname⟩ | ⟨g, hg, hname⟩
      · simp only [SampleGraphsBlueprint, List.mem_singleton] at hg
        subst hg
        exact absurd hname (by decide)
      · simp only [SampleGraphsBlueprint, List.mem_singleton] at hg
        subst hg
        exact absurd hname (by decide)⟩

/-! ## The sequence of writer calls of `ExportBlueprint` -/

theorem ExportGraphs_eq_ExportFiles {σ : Type} (E : Engine) (P : Platform σ)
    (OutputDir : FString) (FileName : UEdGraph → FString) (Graphs : List UEdGraph)
    (Acc : Bool × Run σ) :
    ExportBlueprint.ExportGraphs E P OutputDir FileName Graphs Acc =
      ExportBlueprint.ExportFiles E P OutputDir (Graphs.map (fun Graph => (Graph, FileName Graph)))
        Acc := by
  unfold ExportBlueprint.ExportGraphs ExportBlueprint.ExportFiles
  rw [List.foldl_map]

theorem ExportFiles_append {σ : Type} (E : Engine) (P : Platform σ) (OutputDir : FString)
    (A B : List (UEdGraph × FString)) (Acc : Bool × Run σ) :
    ExportBlueprint.ExportFiles E P OutputDir (A ++ B) Acc =
      ExportBlueprint.ExportFiles E P OutputDir B
        (ExportBlueprint.ExportFiles E P OutputDir A Acc) := by
  unfold ExportBlueprint.ExportFiles
  rw [List.foldl_append]

theorem ExportFiles_cons {σ : Type} (E : Engine) (P : Platform σ) (OutputDir : FString)
    (File : UEdGraph × FString) (Files : List (UEdGraph × FString)) (Acc : Bool × Run σ) :
    ExportBlueprint.ExportFiles E P OutputDir (File :: Files) Acc =
      ExportBlueprint.ExportFiles E P OutputDir Files
        (if !(ExportGraph E P (some File.1) OutputDir File.2 Acc.2).1 then false else Acc.1,
          (ExportGraph E P (some File.1) OutputDir File.2 Acc.2).2) := rfl

theorem ExportBlueprint_eq {σ : Type} (E : Engine) (P : Platform σ) (Blueprint : UBlueprint)
    (R : Run σ) :
    ExportBlueprint E P (some Blueprint) R =
      ((if !(GenerateMetadata E P (some Blueprint) (GetBlueprintOutputPath E Blueprint)
              (ExportBlueprint.ExportFiles E P (GetBlueprintOutputPath E Blueprint)
                (ExportBlueprint.GraphFiles Blueprint)
                (true,
                  ExportBlueprint.EnsureDirectory P (GetBlueprintOutputPath E Blueprint)
                    R)).2).1 then
          false
        else
          (ExportBlueprint.ExportFiles E P (GetBlueprintOutputPath E Blueprint)
            (ExportBlueprint.GraphFiles Blueprint)
            (true,
              ExportBlueprint.EnsureDirectory P (GetBlueprintOutputPath E Blueprint) R)).1),
        ExportBlueprint.ExportStateMachines E P (GetBlueprintOutputPath E Blueprint) Blueprint
          (GenerateMetadata E P (some Blueprint) (GetBlueprintOutputPath E Blueprint)
            (ExportBlueprint.ExportFiles E P (GetBlueprintOutputPath E Blueprint)
              (ExportBlueprint.GraphFiles Blueprint)
              (true,
                ExportBlueprint.EnsureDirectory P (GetBlueprintOutputPath E Blueprint)
                  R)).2).2) := by
  simp only [ExportBlueprint, ExportBlueprint.GraphFiles, ExportFiles_append,
    ExportGraphs_eq_ExportFiles, ExportBlueprint.EnsureDirectory]

theorem ExportGraph_some_Paths {σ : Type} (E : Engine) (P : Platform σ) (Graph : UEdGraph)
    (OutputDir FileName : FString) (R : Run σ) :
    (ExportGraph E P (some Graph) OutputDir FileName R).2.Paths =
      R.Paths ++ [E.PathAppend OutputDir FileName] := by
  simp [Run.Paths, ExportGraph_some_Writes]

theorem ExportFiles_Paths {σ : Type} (E : Engine) (P : Platform σ) (OutputDir : FString)
    (Files : List (UEdGraph × FString)) (Acc : Bool × Run σ) :
    (ExportBlueprint.ExportFiles E P OutputDir Files Acc).2.Paths =
      Acc.2.Paths ++ Files.map (fun File => E.PathAppend OutputDir File.2) := by
  induction Files generalizing Acc with
  | nil => simp [ExportBlueprint.ExportFiles]
  | cons f fs ih =>
    rw [ExportFiles_cons, ih]
    simp only [ExportGraph_some_Paths, List.map_cons, List.append_assoc, List.singleton_append]

theorem ExportFiles_false {σ : Type} (E : Engine) (P : Platform σ) (OutputDir : FString)
    (Files : List (UEdGraph × FString)) (R : Run σ) :
    (ExportBlueprint.ExportFiles E P OutputDir Files (false, R)).1 = false := by
  induction Files generalizing R with
  | nil => rfl
  | cons f fs ih =>
    rw [ExportFiles_cons]
    simp only [ite_self]
    exact ih _

theorem ExportFiles_fails {σ : Type} (E : Engine) (P : Platform σ) (OutputDir : FString)
    (Before After : List (UEdGraph × FString)) (File : UEdGraph × FString)
    (Acc : Bool × Run σ)
    (hFails :
      (ExportGraph E P (some File.1) OutputDir File.2
        (ExportBlueprint.ExportFiles E P OutputDir Before Acc).2).1 = false) :
    (ExportBlueprint.ExportFiles E P OutputDir (Before ++ File :: After) Acc).1 = false := by
  rw [ExportFiles_append, ExportFiles_cons, hFails]
  simp only [Bool.not_false, if_true]
  exact ExportFiles_false E P OutputDir After _

theorem GenerateMetadata_Paths {σ : Type} (E : Engine) (P : Platform σ) (Blueprint : UBlueprint)
    (OutputDir : FString) (R : Run σ) :
    (GenerateMetadata E P (some Blueprint) OutputDir R).2.Paths =
      R.Paths ++ [E.PathAppend OutputDir (TEXT "_meta.json")] := by
  simp [GenerateMetadata, GenerateMetadataForBlueprint, SaveStringToFile, Run.Paths]

theorem EnsureDirectory_Paths {σ : Type} (P : Platform σ) (OutputDir : FString) (R : Run σ) :
    (ExportBlueprint.EnsureDirectory P OutputDir R).Paths = R.Paths := by
  unfold ExportBlueprint.EnsureDirectory
  split <;> rfl

theorem ExportStateMachineNode_Paths {σ : Type} (E : Engine) (P : Platform σ)
    (OutputDir : FString) (R : Run σ) (Node : UEdGraphNode) :
    (ExportBlueprint.ExportStateMachineNode E P OutputDir R Node).Paths =
      R.Paths ++
        ((Node.AsStateMachine.bind StateMachineFile).map (E.PathAppend OutputDir)).toList := by
  cases Node with
  | AnimGraphNode_StateMachine t sub =>
    cases sub with
    | none =>
      simp [ExportBlueprint.ExportStateMachineNode, UEdGraphNode.AsStateMachine,
        StateMachineFile]
    | some g =>
      simp [ExportBlueprint.ExportStateMachineNode, UEdGraphNode.AsStateMachine,
        StateMachineFile, ExportGraph_some_Paths]
  | Generic d =>
    simp [ExportBlueprint.ExportStateMachineNode, UEdGraphNode.AsStateMachine]
  | K2Node_Event t =>
    simp [ExportBlueprint.ExportStateMachineNode, UEdGraphNode.AsStateMachine]
  | K2Node_FunctionEntry flags pins =>
    simp [ExportBlueprint.ExportStateMachineNode, UEdGraphNode.AsStateMachine]
  | K2Node_FunctionResult pins =>
    simp [ExportBlueprint.ExportStateMachineNode, UEdGraphNode.AsStateMachine]

theorem ExportStateMachineNodes_Paths {σ : Type} (E : Engine) (P : Platform σ)
    (OutputDir : FString) (Nodes : List UEdGraphNode) (R : Run σ) :
    (Nodes.foldl (ExportBlueprint.ExportStateMachineNode E P OutputDir) R).Paths =
      R.Paths ++
        ((Nodes.filterMap UEdGraphNode.AsStateMachine).filterMap StateMachineFile).map
          (E.PathAppend OutputDir) := by
  induction Nodes generalizing R with
  | nil => simp
  | cons n ns ih =>
    rw [List.foldl_cons, ih, ExportStateMachineNode_Paths]
    cases hn : n.AsStateMachine with
    | none => simp [List.filterMap_cons, hn]
    | some m =>
      cases hm : StateMachineFile m with
      | none => simp [List.filterMap_cons, hn, hm]
      | some f => simp [List.filterMap_cons, hn, hm]

theorem ExportStateMachines_Paths {σ : Type} (E : Engine) (P : Platform σ) (OutputDir : FString)
    (Blueprint : UBlueprint) (R : Run σ) :
    (ExportBlueprint.ExportStateMachines E P OutputDir Blueprint R).Paths =
      R.Paths ++ (StateMachineFiles Blueprint).map (E.PathAppend OutputDir) := by
  unfold ExportBlueprint.ExportStateMachines StateMachineFiles
  cases Blueprint.AnimBlueprint with
  | none => simp
  | some a =>
    simp only
    have h : ∀ (Graphs : List UEdGraph) (R : Run σ),
        (Graphs.foldl
            (fun R (Graph : UEdGraph) =>
              if FString.Contains Graph.Name (TEXT "AnimGraph") then
                Graph.Nodes.foldl (ExportBlueprint.ExportStateMachineNode E P OutputDir) R
              else R) R).Paths =
          R.Paths ++
            ((StateMachineNodes Graphs).filterMap StateMachineFile).map
              (E.PathAppend OutputDir) := by
      intro Graphs
      induction Graphs with
      | nil =>
        intro R
        simp [StateMachineNodes]
      | cons g gs ih =>
        intro R
        rw [List.foldl_cons, ih]
        by_cases hc : FString.Contains g.Name (TEXT "AnimGraph") = true
        · simp only [hc, if_true, ExportStateMachineNodes_Paths, StateMachineNodes,
            List.filter_cons, List.flatMap_cons, List.filterMap_append, List.map_append,
            List.append_assoc]
        · simp only [hc, if_false, StateMachineNodes, List.filter_cons, Bool.false_eq_true]
    exact h Blueprint.FunctionGraphs R

theorem ExportBlueprint_Paths {σ : Type} (E : Engine) (P : Platform σ) (Blueprint : UBlueprint)
    (R : Run σ) :
    (ExportBlueprint E P (some Blueprint) R).2.Paths =
      R.Paths ++
        (ExportBlueprint.GraphFiles Blueprint).map
          (fun File => E.PathAppend (GetBlueprintOutputPath E Blueprint) File.2) ++
        [E.PathAppend (GetBlueprintOutputPath E Blueprint) (TEXT "_meta.json")] ++
        (StateMachineFiles Blueprint).map (E.PathAppend (GetBlueprintOutputPath E Blueprint)) := by
  rw [ExportBlueprint_eq]
  simp only [ExportStateMachines_Paths, GenerateMetadata_Paths, ExportFiles_Paths,
    EnsureDirectory_Paths]

theorem StateMachinesArray_eq (FunctionGraphs : List UEdGraph) :
    GenerateAnimBlueprintMetadata.StateMachinesArray FunctionGraphs =
      (StateMachineNodes FunctionGraphs).map
        (fun Node =>
          FJsonValue.Object
            [(TEXT "name", FJsonValue.String Node.1),
              (TEXT "file", FJsonValue.String
                (TEXT "StateMachine_" ++ GenerateAnimBlueprintMetadata.SanitizedName Node.1 ++
                  TEXT ".txt"))]) := by
  unfold GenerateAnimBlueprintMetadata.StateMachinesArray
  have hNodes : ∀ (Nodes : List UEdGraphNode) (acc : List FJsonValue),
      Nodes.foldl
          (fun StateMachinesArray Node =>
            match Node with
            | UEdGraphNode.AnimGraphNode_StateMachine SMName _ =>
              StateMachinesArray ++
                [FJsonValue.Object
                  (FJsonObject.SetStringField
                    (FJsonObject.SetStringField [] (TEXT "name") SMName) (TEXT "file")
                    (TEXT "StateMachine_" ++ GenerateAnimBlueprintMetadata.SanitizedName SMName ++
                      TEXT ".txt"))]
            | _ => StateMachinesArray) acc =
        acc ++
          (Nodes.filterMap UEdGraphNode.AsStateMachine).map
            (fun Node =>
              FJsonValue.Object
                [(TEXT "name", FJsonValue.String Node.1),
                  (TEXT "file", FJsonValue.String
                    (TEXT "StateMachine_" ++
                      GenerateAnimBlueprintMetadata.SanitizedName Node.1 ++ TEXT ".txt"))]) := by
    intro Nodes
    induction Nodes with
    | nil =>
      intro acc
      simp
    | cons n ns ih =>
      intro acc
      rw [List.foldl_cons, ih]
      cases n with
      | AnimGraphNode_StateMachine t sub =>
        simp only [UEdGraphNode.AsStateMachine, List.filterMap_cons, List.map_cons,
          List.append_assoc, List.singleton_append, FJsonObject.SetStringField,
          FJsonObject.SetField_nil, FJsonObject.SetField_cons, TEXT_eq_iff, String.reduceEq,
          if_false]
      | Generic d => simp only [UEdGraphNode.AsStateMachine, List.filterMap_cons]
      | K2Node_Event t => simp only [UEdGraphNode.AsStateMachine, List.filterMap_cons]
      | K2Node_FunctionEntry flags pins =>
        simp only [UEdGraphNode.AsStateMachine, List.filterMap_cons]
      | K2Node_FunctionResult pins =>
        simp only [UEdGraphNode.AsStateMachine, List.filterMap_cons]
  have hGraphs : ∀ (Graphs : List UEdGraph) (acc : List FJsonValue),
      Graphs.foldl
          (fun StateMachinesArray (Graph : UEdGraph) =>
            if FString.Contains Graph.Name (TEXT "AnimGraph") then
              StateMachinesArray ++
                (Graph.Nodes.filterMap UEdGraphNode.AsStateMachine).map
                  (fun Node =>
                    FJsonValue.Object
                      [(TEXT "name", FJsonValue.String Node.1),
                        (TEXT "file", FJsonValue.String
                          (TEXT "StateMachine_" ++
                            GenerateAnimBlueprintMetadata.SanitizedName Node.1 ++
                            TEXT ".txt"))])
            else StateMachinesArray) acc =
        acc ++
          (StateMachineNodes Graphs).map
            (fun Node =>
              FJsonValue.Object
                [(TEXT "name", FJsonValue.String Node.1),
                  (TEXT "file", FJsonValue.String
                    (TEXT "StateMachine_" ++
                      GenerateAnimBlueprintMetadata.SanitizedName Node.1 ++ TEXT ".txt"))]) := by
    intro Graphs
    induction Graphs with
    | nil =>
      intro acc
      simp [StateMachineNodes]
    | cons g gs ih =>
      intro acc
      rw [List.foldl_cons, ih]
      by_cases hc : FString.Contains g.Name (TEXT "AnimGraph") = true
      · simp only [hc, if_true, StateMachineNodes, List.filter_cons, List.flatMap_cons,
          List.map_append, List.append_assoc]
      · simp only [hc, if_false, StateMachineNodes, List.filter_cons, Bool.false_eq_true]
  simp only [hNodes]
  exact (hGraphs FunctionGraphs []).trans (List.nil_append _)

/-- Claim C20: `ExportBlueprint` is best-effort. The paths it hands to the writer
are, in this order, those of every event graph as `<name>.txt`, of every
function graph as `Function_<name>.txt`, of every macro graph as
`Macro_<name>.txt`, then `_meta.json`, followed for an animation blueprint by
the state-machine files; this sequence does not depend on the host, so it is
the same whichever writes fail. And when the export of any one event, function
or macro graph fails, the result is false. -/
theorem ExportBlueprint_best_effort {σ : Type} (E : Engine) (P : Platform σ)
    (Blueprint : UBlueprint) (R : Run σ) :
    (ExportBlueprint E P (some Blueprint) R).2.Paths =
        R.Paths ++
          Blueprint.UbergraphPages.map
            (fun Graph =>
              E.PathAppend (GetBlueprintOutputPath E Blueprint) (Graph.Name ++ TEXT ".txt")) ++
          Blueprint.FunctionGraphs.map
            (fun Graph =>
              E.PathAppend (GetBlueprintOutputPath E Blueprint)
                (TEXT "Function_" ++ Graph.Name ++ TEXT ".txt")) ++
          Blueprint.MacroGraphs.map
            (fun Graph =>
              E.PathAppend (GetBlueprintOutputPath E Blueprint)
                (TEXT "Macro_" ++ Graph.Name ++ TEXT ".txt")) ++
          [E.PathAppend (GetBlueprintOutputPath E Blueprint) (TEXT "_meta.json")] ++
          (StateMachineFiles Blueprint).map (E.PathAppend (GetBlueprintOutputPath E Blueprint)) ∧
      (∀ (τ : Type) (Q : Platform τ) (S : Run τ),
        S.Paths = R.Paths →
        (ExportBlueprint E Q (some Blueprint) S).2.Paths =
          (ExportBlueprint E P (some Blueprint) R).2.Paths) ∧
      (∀ (Before After : List (UEdGraph × FString)) (File : UEdGraph × FString),
        ExportBlueprint.GraphFiles Blueprint = Before ++ File :: After →
        (ExportGraph E P (some File.1) (GetBlueprintOutputPath E Blueprint) File.2
          (ExportBlueprint.ExportFiles E P (GetBlueprintOutputPath E Blueprint) Before
            (true,
              ExportBlueprint.EnsureDirectory P (GetBlueprintOutputPath E Blueprint)
                R)).2).1 = false →
        (ExportBlueprint E P (some Blueprint) R).1 = false) := by
  refine ⟨?_, fun τ Q S hS => ?_, fun Before After File hSplit hFails => ?_⟩
  · rw [ExportBlueprint_Paths]
    simp only [ExportBlueprint.GraphFiles, List.map_append, List.map_map, Function.comp_def,
      List.append_assoc]
  · rw [ExportBlueprint_Paths, ExportBlueprint_Paths, hS]
  · rw [ExportBlueprint_eq, hSplit,
      ExportFiles_fails E P (GetBlueprintOutputPath E Blueprint) Before After File _ hFails]
    simp only [ite_self]

/-- Witness for `ExportBlueprint_best_effort`: when the writer refuses the file of
the event graph of the sample blueprint, the result is false, and the paths
handed to the writer are those of the run in which it refuses nothing. -/
theorem ExportBlueprint_best_effort_witness :
    (ExportBlueprint SampleEngine RefusingPlatform (some SampleGraphsBlueprint)
          (RefusingRun [TEXT "Project/Docs/.context/Game/BP_Hero/EventGraph.txt"])).1 = false ∧
      (ExportBlueprint SampleEngine RefusingPlatform (some SampleGraphsBlueprint)
          (RefusingRun [])).2.Paths =
        (ExportBlueprint SampleEngine RefusingPlatform (some SampleGraphsBlueprint)
          (RefusingRun [TEXT "Project/Docs/.context/Game/BP_Hero/EventGraph.txt"])).2.Paths :=
  ⟨(ExportBlueprint_best_effort SampleEngine RefusingPlatform SampleGraphsBlueprint
      (RefusingRun [TEXT "Project/Docs/.context/Game/BP_Hero/EventGraph.txt"])).2.2 []
      [(SampleEmptyGraph, TEXT "Function_Empty.txt")] (SampleEventGraph, TEXT "EventGraph.txt")
      rfl (by decide),
    (ExportBlueprint_best_effort SampleEngine RefusingPlatform SampleGraphsBlueprint
      (RefusingRun [TEXT "Project/Docs/.context/Game/BP_Hero/EventGraph.txt"])).2.1
      (List FString) RefusingPlatform (RefusingRun []) rfl⟩

/-! ## State machines: entries and files -/

theorem zipWith_map_self {α β γ : Type} (g : α → β → γ) (f : α → β) (l : List α) :
    List.zipWith g l (l.map f) = l.map (fun a => g a (f a)) := by
  induction l with
  | nil => rfl
  | cons a as ih => simp [ih]

theorem mem_zip_map_self {α β : Type} (f : α → β) (l : List α) (a : α) (b : β)
    (h : (a, b) ∈ l.zip (l.map f)) : b = f a := by
  induction l with
  | nil => cases h
  | cons x xs ih =>
    simp only [List.map_cons, List.zip_cons_cons, List.mem_cons, Prod.mk.injEq] at h
    rcases h with ⟨h1, h2⟩ | h
    · rw [h1, h2]
    · exact ih h

theorem SanitizedName_eq_SanitizeFileName (Title : FString)
    (hClean :
      ∀ c ∈ Title, c ≠ '*' ∧ c ≠ '?' ∧ c ≠ Char.ofNat 34 ∧ c ≠ '<' ∧ c ≠ '>' ∧ c ≠ '|') :
    GenerateAnimBlueprintMetadata.SanitizedName Title = SanitizeFileName Title := by
  rw [SanitizedName_eq_map, SanitizeFileName_eq_map, List.map_inj_left]
  exact fun c hc => (sanitize_char_agree_iff c).mpr (hClean c hc)

/-- Claim C12 as stated fails: a state-machine node titled `Locomotion` that has
no sub-graph gets its `state_machines` entry, but no file
`StateMachine_Locomotion.txt` is written. -/
theorem state_machine_without_sub_graph_has_entry_but_no_file :
    (GenerateMetadataForBlueprint.RootObject SampleEngine
          SampleAnimBlueprintWithoutSubGraph).TryGetField (TEXT "state_machines") =
        some (FJsonValue.Array
          [FJsonValue.Object
            [(TEXT "name", FJsonValue.String (TEXT "Locomotion")),
              (TEXT "file", FJsonValue.String (TEXT "StateMachine_Locomotion.txt"))]]) ∧
      (ExportBlueprint SampleEngine RefusingPlatform (some SampleAnimBlueprintWithoutSubGraph)
          (RefusingRun [])).2.Paths =
        [TEXT "Project/Docs/.context/Game/BP_Hero/Function_AnimGraph.txt",
          TEXT "Project/Docs/.context/Game/BP_Hero/_meta.json"] ∧
      TEXT "Project/Docs/.context/Game/BP_Hero/StateMachine_Locomotion.txt" ∉
        (ExportBlueprint SampleEngine RefusingPlatform (some SampleAnimBlueprintWithoutSubGraph)
          (RefusingRun [])).2.Paths :=
  ⟨rfl, by decide, by decide⟩

/-- Claim C12, amended: for an animation blueprint, the `state_machines` array
has one entry per state-machine node found in a function graph whose name
contains `AnimGraph`, in graph-then-node order, each with the title of the
node as its name; the entry of a title with none of `* ? " < > |` has the file
`StateMachine_<sanitized title>.txt`; and after the graph files and
`_meta.json` the writer is handed, in the same order, the file
`StateMachine_<sanitized title>.txt` of each such node that has a sub-graph,
sanitised by `SanitizeFileName`. Function graphs whose name lacks `AnimGraph`
add nothing, and a blueprint that is not an animation blueprint has no
`state_machines` field and no state-machine file. -/
theorem state_machine_entries_and_files {σ : Type} (E : Engine) (P : Platform σ)
    (Blueprint : UBlueprint) (R : Run σ) :
    (∀ Anim, Blueprint.AnimBlueprint = some Anim →
        ∃ Files : List FString,
          Files.length = (StateMachineNodes Blueprint.FunctionGraphs).length ∧
            (GenerateMetadataForBlueprint.RootObject E Blueprint).TryGetField
                (TEXT "state_machines") =
              some (FJsonValue.Array
                (List.zipWith
                  (fun (Node : FString × Option UEdGraph) File =>
                    FJsonValue.Object
                      [(TEXT "name", FJsonValue.String Node.1),
                        (TEXT "file", FJsonValue.String File)])
                  (StateMachineNodes Blueprint.FunctionGraphs) Files)) ∧
            (∀ Node File, (Node, File) ∈ (StateMachineNodes Blueprint.FunctionGraphs).zip Files →
              (∀ c ∈ Node.1,
                c ≠ '*' ∧ c ≠ '?' ∧ c ≠ Char.ofNat 34 ∧ c ≠ '<' ∧ c ≠ '>' ∧ c ≠ '|') →
              File = TEXT "StateMachine_" ++ SanitizeFileName Node.1 ++ TEXT ".txt") ∧
            (ExportBlueprint E P (some Blueprint) R).2.Paths =
              R.Paths ++
                (ExportBlueprint.GraphFiles Blueprint).map
                  (fun File => E.PathAppend (GetBlueprintOutputPath E Blueprint) File.2) ++
                [E.PathAppend (GetBlueprintOutputPath E Blueprint) (TEXT "_meta.json")] ++
                ((StateMachineNodes Blueprint.FunctionGraphs).filterMap
                  (fun Node =>
                    Node.2.map
                      (fun _ => TEXT "StateMachine_" ++ SanitizeFileName Node.1 ++
                        TEXT ".txt"))).map
                  (E.PathAppend (GetBlueprintOutputPath E Blueprint))) ∧
      (Blueprint.AnimBlueprint = none →
        (GenerateMetadataForBlueprint.RootObject E Blueprint).HasField (TEXT "state_machines") =
            false ∧
          (ExportBlueprint E P (some Blueprint) R).2.Paths =
            R.Paths ++
              (ExportBlueprint.GraphFiles Blueprint).map
                (fun File => E.PathAppend (GetBlueprintOutputPath E Blueprint) File.2) ++
              [E.PathAppend (GetBlueprintOutputPath E Blueprint) (TEXT "_meta.json")]) ∧
      StateMachineNodes Blueprint.FunctionGraphs =
        StateMachineNodes
          (Blueprint.FunctionGraphs.filter
            (fun Graph => FString.Contains Graph.Name (TEXT "AnimGraph"))) := by
  refine ⟨fun Anim hAnim => ?_, fun hNone => ?_, ?_⟩
  · refine ⟨(StateMachineNodes Blueprint.FunctionGraphs).map
        (fun Node =>
          TEXT "StateMachine_" ++ GenerateAnimBlueprintMetadata.SanitizedName Node.1 ++
            TEXT ".txt"), ?_, ?_, ?_, ?_⟩
    · simp
    · rw [RootObject_state_machines, hAnim, zipWith_map_self, StateMachinesArray_eq]
    · intro Node File hmem hClean
      rw [mem_zip_map_self _ _ _ _ hmem, SanitizedName_eq_SanitizeFileName Node.1 hClean]
    · rw [ExportBlueprint_Paths]
      simp only [StateMachineFiles, hAnim]
      rfl
  · constructor
    · unfold FJsonObject.HasField
      rw [RootObject_state_machines, hNone]
      rfl
    · rw [ExportBlueprint_Paths]
      simp only [StateMachineFiles, hNone, List.map_nil, List.append_nil]
  · unfold StateMachineNodes
    rw [List.filter_filter]
    simp

/-- Witness for `state_machine_entries_and_files`: one node titled `Locomotion`
with a sub-graph in the graph `AnimGraph` gives the entry with the file
`StateMachine_Locomotion.txt` and, after the graph file and `_meta.json`, the
written file `StateMachine_Locomotion.txt`. -/
theorem state_machine_entries_and_files_witness :
    (GenerateMetadataForBlueprint.RootObject SampleEngine
          (SampleAnimBlueprint (TEXT "Locomotion"))).TryGetField (TEXT "state_machines") =
        some (FJsonValue.Array
          [FJsonValue.Object
            [(TEXT "name", FJsonValue.String (TEXT "Locomotion")),
              (TEXT "file", FJsonValue.String (TEXT "StateMachine_Locomotion.txt"))]]) ∧
      (ExportBlueprint SampleEngine RefusingPlatform
          (some (SampleAnimBlueprint (TEXT "Locomotion"))) (RefusingRun [])).2.Paths =
        [TEXT "Project/Docs/.context/Game/BP_Hero/Function_AnimGraph.txt",
          TEXT "Project/Docs/.context/Game/BP_Hero/_meta.json",
          TEXT "Project/Docs/.context/Game/BP_Hero/StateMachine_Locomotion.txt"] := by
  obtain ⟨Files, hLength, hField, hClean, hPaths⟩ :=
    (state_machine_entries_and_files SampleEngine RefusingPlatform
      (SampleAnimBlueprint (TEXT "Locomotion")) (RefusingRun [])).1 { TargetSkeleton := none } rfl
  have hNodes :
      StateMachineNodes (SampleAnimBlueprint (TEXT "Locomotion")).FunctionGraphs =
        [(TEXT "Locomotion", some SampleStateMachineGraph)] := rfl
  rw [hNodes] at hLength hField hClean
  match Files, hLength, hField, hClean with
  | [File], _, hField, hClean =>
    have hFile := hClean _ File (List.mem_cons_self _ _) (by decide)
    subst hFile
    exact ⟨hField, hPaths.trans (by decide)⟩

/-! ## The general sanitiser after the inline one, and its shape -/

theorem sanitize_char_absorbs (c : Char) :
    FString.ReplaceChar '|' '_' (FString.ReplaceChar '>' '_' (FString.ReplaceChar '<' '_'
        (FString.ReplaceChar (Char.ofNat 34) '_' (FString.ReplaceChar '?' '_'
          (FString.ReplaceChar '*' '_' (FString.ReplaceChar ':' '_'
            (FString.ReplaceChar (Char.ofNat 92) '_'
              (FString.ReplaceChar '/' '_'
                (FString.ReplaceChar ':' '_' (FString.ReplaceChar (Char.ofNat 92) '_'
                  (FString.ReplaceChar '/' '_' c))))))))))) =
      FString.ReplaceChar '|' '_' (FString.ReplaceChar '>' '_' (FString.ReplaceChar '<' '_'
        (FString.ReplaceChar (Char.ofNat 34) '_' (FString.ReplaceChar '?' '_'
          (FString.ReplaceChar '*' '_' (FString.ReplaceChar ':' '_'
            (FString.ReplaceChar (Char.ofNat 92) '_'
              (FString.ReplaceChar '/' '_' c)))))))) := by
  by_cases h1 : c = '/'
  · subst h1; decide
  by_cases h2 : c = Char.ofNat 92
  · subst h2; decide
  by_cases h3 : c = ':'
  · subst h3; decide
  rw [FString.ReplaceChar_of_ne _ _ c h1, FString.ReplaceChar_of_ne _ _ c h2,
    FString.ReplaceChar_of_ne _ _ c h3, FString.ReplaceChar_of_ne _ _ c h1,
    FString.ReplaceChar_of_ne _ _ c h2, FString.ReplaceChar_of_ne _ _ c h3]

theorem SanitizeFileName_SanitizedName (Title : FString) :
    SanitizeFileName (GenerateAnimBlueprintMetadata.SanitizedName Title) =
      SanitizeFileName Title := by
  rw [SanitizeFileName_eq_map (GenerateAnimBlueprintMetadata.SanitizedName Title),
    SanitizedName_eq_map, SanitizeFileName_eq_map Title, List.map_map]
  apply List.map_congr_left
  intro c _
  simp only [Function.comp]
  exact sanitize_char_absorbs c

/-- Claim C23: `SanitizeFileName` absorbs the inline sanitiser of the metadata
builder: for every title, sanitising the inline-sanitised title gives the
sanitised title. Hence, for an animation blueprint, the `state_machines`
entries record the stems sanitised inline, and the state-machine paths that
`ExportBlueprint` hands to the writer, after the graph files and `_meta.json`,
are those of `StateMachine_<stem>.txt` with `SanitizeFileName` applied to the
recorded stem, for each state-machine node that has a sub-graph. -/
theorem SanitizeFileName_absorbs_inline_sanitizer {σ : Type} (E : Engine) (P : Platform σ)
    (Blueprint : UBlueprint) (R : Run σ) (Title : FString) :
    SanitizeFileName (GenerateAnimBlueprintMetadata.SanitizedName Title) =
        SanitizeFileName Title ∧
      (∀ Anim, Blueprint.AnimBlueprint = some Anim →
        (GenerateMetadataForBlueprint.RootObject E Blueprint).TryGetField
            (TEXT "state_machines") =
          some (FJsonValue.Array
            ((StateMachineNodes Blueprint.FunctionGraphs).map
              (fun Node =>
                FJsonValue.Object
                  [(TEXT "name", FJsonValue.String Node.1),
                    (TEXT "file", FJsonValue.String
                      (TEXT "StateMachine_" ++
                        GenerateAnimBlueprintMetadata.SanitizedName Node.1 ++
                        TEXT ".txt"))]))) ∧
          (ExportBlueprint E P (some Blueprint) R).2.Paths =
            R.Paths ++
              (ExportBlueprint.GraphFiles Blueprint).map
                (fun File => E.PathAppend (GetBlueprintOutputPath E Blueprint) File.2) ++
              [E.PathAppend (GetBlueprintOutputPath E Blueprint) (TEXT "_meta.json")] ++
              ((StateMachineNodes Blueprint.FunctionGraphs).filterMap
                (fun Node =>
                  Node.2.map
                    (fun _ =>
                      TEXT "StateMachine_" ++
                        SanitizeFileName
                          (GenerateAnimBlueprintMetadata.SanitizedName Node.1) ++
                        TEXT ".txt"))).map
                (E.PathAppend (GetBlueprintOutputPath E Blueprint))) := by
  refine ⟨SanitizeFileName_SanitizedName Title, fun Anim hAnim => ⟨?_, ?_⟩⟩
  · rw [RootObject_state_machines, hAnim, StateMachinesArray_eq]
  · rw [ExportBlueprint_Paths]
    simp only [StateMachineFiles, hAnim, SanitizeFileName_SanitizedName]
    rfl

/-- Witness for `SanitizeFileName_absorbs_inline_sanitizer`: for the title `A/B*C`
the recorded stem is `A_B*C`, its sanitised form is `A_B_C`, and the paths
handed to the writer end with that of `StateMachine_A_B_C.txt`. -/
theorem SanitizeFileName_absorbs_inline_sanitizer_witness :
    GenerateAnimBlueprintMetadata.SanitizedName (TEXT "A/B*C") = TEXT "A_B*C" ∧
      SanitizeFileName (TEXT "A_B*C") = TEXT "A_B_C" ∧
      (GenerateMetadataForBlueprint.RootObject SampleEngine
          (SampleAnimBlueprint (TEXT "A/B*C"))).TryGetField (TEXT "state_machines") =
        some (FJsonValue.Array
          [FJsonValue.Object
            [(TEXT "name", FJsonValue.String (TEXT "A/B*C")),
              (TEXT "file", FJsonValue.String (TEXT "StateMachine_A_B*C.txt"))]]) ∧
      (ExportBlueprint SampleEngine RefusingPlatform (some (SampleAnimBlueprint (TEXT "A/B*C")))
          (RefusingRun [])).2.Paths =
        [TEXT "Project/Docs/.context/Game/BP_Hero/Function_AnimGraph.txt",
          TEXT "Project/Docs/.context/Game/BP_Hero/_meta.json",
          TEXT "Project/Docs/.context/Game/BP_Hero/StateMachine_A_B_C.txt"] :=
  ⟨by decide, by decide,
    ((SanitizeFileName_absorbs_inline_sanitizer SampleEngine RefusingPlatform
      (SampleAnimBlueprint (TEXT "A/B*C")) (RefusingRun []) (TEXT "A/B*C")).2
      { TargetSkeleton := none } rfl).1.trans rfl,
    ((SanitizeFileName_absorbs_inline_sanitizer SampleEngine RefusingPlatform
      (SampleAnimBlueprint (TEXT "A/B*C")) (RefusingRun []) (TEXT "A/B*C")).2
      { TargetSkeleton := none } rfl).2.trans (by decide)⟩

/-- Claim C24: `SanitizeFileName` is a character-wise map that keeps the length:
the result has the length of the input, holds none of the nine characters
`/ \ : * ? " < > |`, and at every position holds an underscore where the input
has one of the nine and the character of the input otherwise. It is not
injective: the distinct titles `A/B` and `A:B` have the same sanitised name, and
`ExportBlueprint` hands the writer the same path `StateMachine_A_B.txt` for the
sub-graphs of both. -/
theorem SanitizeFileName_charwise_not_injective (s : FString) :
    (SanitizeFileName s).length = s.length ∧
      (∀ c ∈ SanitizeFileName s,
        c ≠ '/' ∧ c ≠ Char.ofNat 92 ∧ c ≠ ':' ∧ c ≠ '*' ∧ c ≠ '?' ∧ c ≠ Char.ofNat 34 ∧
          c ≠ '<' ∧ c ≠ '>' ∧ c ≠ '|') ∧
      (∀ (i : Nat) (c : Char), s[i]? = some c →
        (SanitizeFileName s)[i]? =
          some
            (if c = '/' ∨ c = Char.ofNat 92 ∨ c = ':' ∨ c = '*' ∨ c = '?' ∨ c = Char.ofNat 34 ∨
                c = '<' ∨ c = '>' ∨ c = '|' then '_' else c)) ∧
      (TEXT "A/B" ≠ TEXT "A:B" ∧ SanitizeFileName (TEXT "A/B") = SanitizeFileName (TEXT "A:B")) ∧
      (ExportBlueprint SampleEngine RefusingPlatform (some SampleCollidingAnimBlueprint)
          (RefusingRun [])).2.Paths =
        [TEXT "Project/Docs/.context/Game/BP_Hero/Function_AnimGraph.txt",
          TEXT "Project/Docs/.context/Game/BP_Hero/_meta.json",
          TEXT "Project/Docs/.context/Game/BP_Hero/StateMachine_A_B.txt",
          TEXT "Project/Docs/.context/Game/BP_Hero/StateMachine_A_B.txt"] := by
  refine ⟨?_, ?_, ?_, ⟨by decide, by decide⟩, by decide⟩
  · rw [SanitizeFileName_eq_map, List.length_map]
  · intro c hc
    rw [SanitizeFileName_eq_map] at hc
    obtain ⟨d, -, hd⟩ := List.mem_map.mp hc
    rw [SanitizeChar_eq] at hd
    by_cases h : d = '/' ∨ d = Char.ofNat 92 ∨ d = ':' ∨ d = '*' ∨ d = '?' ∨
        d = Char.ofNat 34 ∨ d = '<' ∨ d = '>' ∨ d = '|'
    · rw [if_pos h] at hd
      subst hd
      decide
    · rw [if_neg h] at hd
      subst hd
      simpa only [not_or] using h
  · intro i c hi
    rw [SanitizeFileName_eq_map, List.getElem?_map, hi, Option.map_some']
    simp only [SanitizeChar_eq]

/-- Witness for `SanitizeFileName_charwise_not_injective`: the slash at position 1
of `A/B` becomes an underscore. -/
theorem SanitizeFileName_charwise_not_injective_witness :
    (TEXT "A/B")[1]? = some '/' ∧ (SanitizeFileName (TEXT "A/B"))[1]? = some '_' :=
  ⟨by decide,
    ((SanitizeFileName_charwise_not_injective (TEXT "A/B")).2.2.1 1 '/' (by decide)).trans
      (by decide)⟩

/-! ## Event dispatchers -/

theorem DispatcherScanEntry_eq (E : Engine) (Nodes : List UEdGraphNode) :
    GenerateEventDispatchersJson.ScanEntry E Nodes =
      match Nodes.findSome? UEdGraphNode.AsFunctionEntry with
      | some (_, Pins) => PinsJson E EEdGraphPinDirection.EGPD_Output Pins
      | none => [] := by
  induction Nodes with
  | nil => rfl
  | cons n ns ih =>
    cases n with
    | K2Node_FunctionEntry flags pins =>
      simp only [GenerateEventDispatchersJson.ScanEntry, List.findSome?_cons,
        UEdGraphNode.AsFunctionEntry]
    | Generic d =>
      simpa [GenerateEventDispatchersJson.ScanEntry, UEdGraphNode.AsFunctionEntry] using ih
    | K2Node_Event t =>
      simpa [GenerateEventDispatchersJson.ScanEntry, UEdGraphNode.AsFunctionEntry] using ih
    | K2Node_FunctionResult pins =>
      simpa [GenerateEventDispatchersJson.ScanEntry, UEdGraphNode.AsFunctionEntry] using ih
    | AnimGraphNode_StateMachine t sub =>
      simpa [GenerateEventDispatchersJson.ScanEntry, UEdGraphNode.AsFunctionEntry] using ih

theorem findSome?_AsFunctionEntry_of_any (Nodes : List UEdGraphNode)
    (hEntry : Nodes.any UEdGraphNode.IsFunctionEntry = true) :
    ∃ FunctionFlags Pins,
      Nodes.findSome? UEdGraphNode.AsFunctionEntry = some (FunctionFlags, Pins) := by
  induction Nodes with
  | nil => cases hEntry
  | cons n ns ih =>
    cases n with
    | K2Node_FunctionEntry flags pins =>
      exact ⟨flags, pins, by simp only [List.findSome?_cons, UEdGraphNode.AsFunctionEntry]⟩
    | Generic d =>
      simpa [UEdGraphNode.IsFunctionEntry, UEdGraphNode.AsFunctionEntry] using
        ih (by simpa [UEdGraphNode.IsFunctionEntry] using hEntry)
    | K2Node_Event t =>
      simpa [UEdGraphNode.IsFunctionEntry, UEdGraphNode.AsFunctionEntry] using
        ih (by simpa [UEdGraphNode.IsFunctionEntry] using hEntry)
    | K2Node_FunctionResult pins =>
      simpa [UEdGraphNode.IsFunctionEntry, UEdGraphNode.AsFunctionEntry] using
        ih (by simpa [UEdGraphNode.IsFunctionEntry] using hEntry)
    | AnimGraphNode_StateMachine t sub =>
      simpa [UEdGraphNode.IsFunctionEntry, UEdGraphNode.AsFunctionEntry] using
        ih (by simpa [UEdGraphNode.IsFunctionEntry] using hEntry)

theorem GenerateEventDispatchersJson_eq_map (E : Engine) (Blueprint : UBlueprint) :
    GenerateEventDispatchersJson E Blueprint =
      Blueprint.DelegateSignatureGraphs.map
        (fun Graph =>
          FJsonValue.Object
            [(TEXT "name", FJsonValue.String Graph.Name),
              (TEXT "params", FJsonValue.Array
                (GenerateEventDispatchersJson.ScanEntry E Graph.Nodes))]) := by
  unfold GenerateEventDispatchersJson
  simp only [FJsonObject.SetStringField, FJsonObject.SetArrayField, FJsonObject.SetField_nil,
    FJsonObject.SetField_cons, TEXT_eq_iff, String.reduceEq, if_false]
  exact (foldl_append_singleton _ _ _).trans (List.nil_append _)

/-- Claim C22: the `params` array of an event dispatcher is built like the
`inputs` array of a function. The dispatchers array has one entry per
delegate-signature graph, with the name of the graph and the `params` found by
the node scan; and for a function graph and a delegate-signature graph with
the same node list, holding at least one function-entry node, the `inputs` of
the function entry are the `params` of the dispatcher entry: the pins of the
first function-entry node that have output direction, a category other than
`None` and other than the exec category, each as name and rendered type. -/
theorem dispatcher_params_equal_function_inputs (E : Engine) (Blueprint : UBlueprint) :
    GenerateEventDispatchersJson E Blueprint =
        Blueprint.DelegateSignatureGraphs.map
          (fun Graph =>
            FJsonValue.Object
              [(TEXT "name", FJsonValue.String Graph.Name),
                (TEXT "params", FJsonValue.Array
                  (GenerateEventDispatchersJson.ScanEntry E Graph.Nodes))]) ∧
      GenerateFunctionsJson E Blueprint =
        Blueprint.FunctionGraphs.map
          (fun Graph => FJsonValue.Object (GenerateFunctionsJson.FuncObj E Graph)) ∧
      (∀ Function Delegate : UEdGraph,
        Delegate.Nodes = Function.Nodes →
        Function.Nodes.any UEdGraphNode.IsFunctionEntry = true →
        (GenerateFunctionsJson.FuncObj E Function).TryGetField (TEXT "inputs") =
          some (FJsonValue.Array (GenerateEventDispatchersJson.ScanEntry E Delegate.Nodes))) ∧
      (∀ (Nodes : List UEdGraphNode) (FunctionFlags : Nat) (Pins : List UEdGraphPin),
        Nodes.findSome? UEdGraphNode.AsFunctionEntry = some (FunctionFlags, Pins) →
        GenerateEventDispatchersJson.ScanEntry E Nodes =
          (Pins.filter
              (fun Pin =>
                decide (Pin.Direction = EEdGraphPinDirection.EGPD_Output) &&
                  !Pin.PinType.PinCategory.IsNone && !Pin.PinType.PinCategory.Eq E.PC_Exec)).map
            (fun Pin =>
              FJsonValue.Object
                [(TEXT "name", FJsonValue.String Pin.PinName.ToString),
                  (TEXT "type", FJsonValue.String (PinTypeToString E Pin.PinType))])) := by
  refine ⟨GenerateEventDispatchersJson_eq_map E Blueprint, GenerateFunctionsJson_eq_map E Blueprint,
    fun Function Delegate hNodes hEntry => ?_, fun Nodes flags pins hFirst => ?_⟩
  · obtain ⟨flags, pins, hFirst⟩ := findSome?_AsFunctionEntry_of_any Function.Nodes hEntry
    rw [FuncObj_eq, DispatcherScanEntry_eq, hNodes, hFirst]
    simp only [List.append_assoc, List.cons_append, List.nil_append,
      FJsonObject.TryGetField_cons, TEXT_eq_iff, String.reduceEq, if_false, if_true,
      PinsJson_eq]
  · rw [DispatcherScanEntry_eq, hFirst]
    simp only [PinsJson_eq]
    rfl

/-- Witness for `dispatcher_params_equal_function_inputs`: for the node list of
the sample signature graph, the inputs of the function entry are the params of
the dispatcher scan, namely the integer parameter `Amount`. -/
theorem dispatcher_params_equal_function_inputs_witness :
    (GenerateFunctionsJson.FuncObj SampleEngine SampleSignatureGraph).TryGetField (TEXT "inputs") =
        some (FJsonValue.Array
          (GenerateEventDispatchersJson.ScanEntry SampleEngine SampleSignatureGraph.Nodes)) ∧
      GenerateEventDispatchersJson.ScanEntry SampleEngine SampleSignatureGraph.Nodes =
        [FJsonValue.Object
          [(TEXT "name", FJsonValue.String (TEXT "Amount")),
            (TEXT "type", FJsonValue.String (TEXT "int"))]] :=
  ⟨(dispatcher_params_equal_function_inputs SampleEngine SampleBlueprint).2.2.1
      SampleSignatureGraph SampleSignatureGraph rfl (by decide),
    ((dispatcher_params_equal_function_inputs SampleEngine SampleBlueprint).2.2.2
      SampleSignatureGraph.Nodes _ _ rfl).trans rfl⟩

/-! ## The batch entry point -/

theorem ExportSelectedAssets_fold {σ : Type} (E : Engine) (P : Platform σ)
    (SelectedAssets : List FAssetData) (S : ExportSelectedAssets.Outcome σ) :
    SelectedAssets.foldl (ExportSelectedAssets.Body E P) S =
      { ExportedCount :=
          S.ExportedCount +
            (ExportBlueprintsInOrder E P (SelectedAssets.filterMap FAssetData.AsBlueprint)
              S.Run).1.count true
        FailedCount :=
          S.FailedCount +
            (ExportBlueprintsInOrder E P (SelectedAssets.filterMap FAssetData.AsBlueprint)
              S.Run).1.count false
        Run :=
          (ExportBlueprintsInOrder E P (SelectedAssets.filterMap FAssetData.AsBlueprint)
            S.Run).2 } := by
  induction SelectedAssets generalizing S with
  | nil => simp [ExportBlueprintsInOrder]
  | cons a as ih =>
    rw [List.foldl_cons, ih]
    cases hA : a.GetAsset with
    | none =>
      have hB : a.AsBlueprint = none := by simp [FAssetData.AsBlueprint, hA]
      simp only [List.filterMap_cons, hB, ExportSelectedAssets.Body, hA]
    | some Asset =>
      cases hC : Asset.CastBlueprint with
      | none =>
        have hB : a.AsBlueprint = none := by simp [FAssetData.AsBlueprint, hA, hC]
        simp only [List.filterMap_cons, hB, ExportSelectedAssets.Body, hA, hC]
      | some bp =>
        have hB : a.AsBlueprint = some bp := by simp [FAssetData.AsBlueprint, hA, hC]
        cases hR : (ExportBlueprint E P (some bp) S.Run).1
        · simp only [List.filterMap_cons, hB, ExportSelectedAssets.Body, hA, hC, hR,
            ExportBlueprintsInOrder, Bool.false_eq_true, if_false, List.count_cons,
            beq_self_eq_true, if_true, ExportSelectedAssets.Outcome.mk.injEq, and_true]
          constructor
          · simp
          · omega
        · simp only [List.filterMap_cons, hB, ExportSelectedAssets.Body, hA, hC, hR,
            ExportBlueprintsInOrder, if_true, List.count_cons, beq_self_eq_true,
            ExportSelectedAssets.Outcome.mk.injEq, and_true]
          constructor
          · omega
          · simp

theorem ExportBlueprintsInOrder_length {σ : Type} (E : Engine) (P : Platform σ)
    (Blueprints : List UBlueprint) (R : Run σ) :
    (ExportBlueprintsInOrder E P Blueprints R).1.length = Blueprints.length := by
  induction Blueprints generalizing R with
  | nil => rfl
  | cons bp rest ih => simp [ExportBlueprintsInOrder, ih]

theorem ExportBlueprintsInOrder_Paths {σ : Type} (E : Engine) (P : Platform σ)
    (Blueprints : List UBlueprint) (R : Run σ) :
    (ExportBlueprintsInOrder E P Blueprints R).2.Paths =
      R.Paths ++ Blueprints.flatMap (ExportBlueprint.AllPaths E) := by
  induction Blueprints generalizing R with
  | nil => simp [ExportBlueprintsInOrder]
  | cons bp rest ih =>
    simp only [ExportBlueprintsInOrder, ih, ExportBlueprint_Paths, List.flatMap_cons,
      ExportBlueprint.AllPaths, List.append_assoc]

/-- Claim C21: `ExportSelectedAssets` runs `ExportBlueprint` once for each asset
that resolves to a blueprint, in list order, and passes over the assets that do
not resolve or are not blueprints: its counters and its run are those of
exporting the blueprints of the selection one after the other. The exported
count is the number of those runs that returned true, the failed count the
number that returned false, and the two add up to the number of blueprints in
the selection. For the sample selection of an unresolvable asset, a texture
and two blueprints, with a writer that refuses the event-graph file of the
first blueprint, one export is counted as exported and one as failed. -/
theorem ExportSelectedAssets_counts {σ : Type} (E : Engine) (P : Platform σ)
    (SelectedAssets : List FAssetData) (R : Run σ) :
    ExportSelectedAssets E P SelectedAssets R =
        { ExportedCount :=
            (ExportBlueprintsInOrder E P (SelectedAssets.filterMap FAssetData.AsBlueprint)
              R).1.count true
          FailedCount :=
            (ExportBlueprintsInOrder E P (SelectedAssets.filterMap FAssetData.AsBlueprint)
              R).1.count false
          Run :=
            (ExportBlueprintsInOrder E P (SelectedAssets.filterMap FAssetData.AsBlueprint)
              R).2 } ∧
      (ExportBlueprintsInOrder E P (SelectedAssets.filterMap FAssetData.AsBlueprint)
          R).1.length = (SelectedAssets.filterMap FAssetData.AsBlueprint).length ∧
      (ExportSelectedAssets E P SelectedAssets R).ExportedCount +
          (ExportSelectedAssets E P SelectedAssets R).FailedCount =
        (SelectedAssets.filterMap FAssetData.AsBlueprint).length ∧
      (ExportSelectedAssets E P SelectedAssets R).Run.Paths =
        R.Paths ++
          (SelectedAssets.filterMap FAssetData.AsBlueprint).flatMap
            (ExportBlueprint.AllPaths E) ∧
      (SampleSelection.filterMap FAssetData.AsBlueprint).length = 2 ∧
      (ExportSelectedAssets SampleEngine RefusingPlatform SampleSelection
          (RefusingRun [TEXT "Project/Docs/.context/Game/BP_Hero/EventGraph.txt"])).ExportedCount =
        1 ∧
      (ExportSelectedAssets SampleEngine RefusingPlatform SampleSelection
          (RefusingRun [TEXT "Project/Docs/.context/Game/BP_Hero/EventGraph.txt"])).FailedCount =
        1 := by
  have hmain :
      ExportSelectedAssets E P SelectedAssets R =
        { ExportedCount :=
            (ExportBlueprintsInOrder E P (SelectedAssets.filterMap FAssetData.AsBlueprint)
              R).1.count true
          FailedCount :=
            (ExportBlueprintsInOrder E P (SelectedAssets.filterMap FAssetData.AsBlueprint)
              R).1.count false
          Run :=
            (ExportBlueprintsInOrder E P (SelectedAssets.filterMap FAssetData.AsBlueprint)
              R).2 } := by
    unfold ExportSelectedAssets
    simp only [ExportSelectedAssets_fold, Nat.zero_add]
  refine ⟨hmain, ExportBlueprintsInOrder_length E P _ R, ?_, ?_, rfl, by decide, by decide⟩
  · rw [hmain]
    simp only [List.count_true_add_count_false, ExportBlueprintsInOrder_length]
  · rw [hmain]
    exact ExportBlueprintsInOrder_Paths E P _ R

end ContextCoreLite
